import Mathlib

/-!
# ACP control plane and host adapter

A shallow embedding of the step orchestration engine
(`control-plane/orchestrator/index.js`, `control-plane/orchestrator/workflows.js`),
the instance registry (`control-plane/instance-manager/index.js`), the device
bridge functions, the instance lifecycle and the dispatch route of the host adapter
(`agent/host-adapter/server/adb-manager.js`, `agent/host-adapter/server/emulator-manager.js`,
`agent/host-adapter/server/index.js`), and the authentication middleware of the
gateway (`control-plane/gateway/index.js`).

Calls that leave the process (the gateway, the clock, the device bridge) are
explicit inputs of the embedded functions; what a handler sends out is recorded
in a trace of events, in the order in which the source issues them.

`POST /orchestrate` is embedded twice: in `Orchestrator` the retry count and delay of
a step are integers, in `JsonOrchestrator` they are any numbers a JSON body can hold,
and the two agree on integer retry members (`JsonOrchestrator.orchestrate_ofStep`).
The double arithmetic of `getFreePort` is embedded on natural numbers, with the
rounding of the product made explicit.
-/

set_option autoImplicit false

/-! ## Ad-hoc step execution: `POST /orchestrate` -/

namespace Orchestrator

/-- Outcome of one `gatewayClient.post`: the promise resolves with `data`, or rejects
with an error whose `response` (when there is one) carries `data`. -/
inductive Outcome where
  | ok (data : String)
  | error (response : Option String)
  deriving DecidableEq, Repr

/-- True when the dispatch was rejected. -/
def Outcome.isError : Outcome → Bool
  | .ok _ => false
  | .error _ => true

/-- The gateway as seen by one request: the outcome of the dispatch issued for the
step at loop index `i` (0-based) on attempt `attempt` (1-based). One request issues
each such dispatch at most once, so every sequence of dispatch outcomes is given by
such a function. -/
abbrev Gateway := Nat → Nat → Outcome

/-- One element of `steps`; `retryCount` and `retryDelay` are the `count` and `delay`
members of `step.retry`, absent when the caller did not give them. Here they are
integers; `JsonOrchestrator.Step` takes any number. -/
structure Step where
  command : String
  payload : String
  retryCount : Option Int := none
  retryDelay : Option Int := none
  deriving DecidableEq, Repr

/-- The record `{ count, delay }`. -/
structure RetryPolicy where
  count : Int
  delay : Int
  deriving DecidableEq, Repr

/-- The source line `{ count: 1, delay: 0, ...step.retry }`. -/
def retryPolicy (step : Step) : RetryPolicy :=
  { count := step.retryCount.getD 1, delay := step.retryDelay.getD 0 }

/-- One element of `results`. A success entry carries `result`, a failure entry `error`. -/
structure ResultEntry where
  step : Nat
  attempt : Int
  status : String
  result : Option String
  error : Option String
  deriving DecidableEq, Repr

/-- What the handler does towards the outside: a dispatch to the gateway (tagged with
the 1-based step number and the attempt it belongs to) or a `setTimeout` wait. -/
inductive Event where
  | dispatch (step : Nat) (attempt : Nat) (command payload : String)
  | wait (ms : Int)
  deriving DecidableEq, Repr

/-- True on a dispatch issued for step number `s`. -/
def Event.isDispatchOf (s : Nat) : Event → Bool
  | .dispatch t _ _ _ => t == s
  | .wait _ => false

/-- True on a wait. -/
def Event.isWait : Event → Bool
  | .dispatch _ _ _ _ => false
  | .wait _ => true

/-- The three `res.status(..).json(..)` calls of the handler. -/
inductive Reply where
  | badRequest (error : String)
  | failed (message : String) (results : List ResultEntry)
  | completed (message : String) (results : List ResultEntry)
  deriving DecidableEq, Repr

/-- HTTP status of a reply. -/
def Reply.status : Reply → Nat
  | .badRequest _ => 400
  | .failed _ _ => 500
  | .completed _ _ => 200

/-- The `results` member of the reply body (absent from the 400 body). -/
def Reply.results : Reply → List ResultEntry
  | .badRequest _ => []
  | .failed _ rs => rs
  | .completed _ rs => rs

/-- Variables of the retry loop that outlive one attempt. -/
structure AttemptState where
  results : List ResultEntry
  trace : List Event
  lastError : Option (Option String)
  success : Bool
  deriving DecidableEq, Repr

/-- The loop `for (let attempt = 1; attempt <= retryPolicy.count; attempt++)`, entered
with `attempt` and `remaining = count - attempt + 1` iterations left. A resolved
dispatch pushes a success entry and breaks; a rejected one stores `lastError` and
waits `delay` when `delay > 0 && attempt < count`. -/
def attemptLoop (gw : Gateway) (i : Nat) (step : Step) (policy : RetryPolicy) :
    Nat → Nat → AttemptState → AttemptState
  | 0, _, st => st
  | remaining + 1, attempt, st =>
    let sent := st.trace ++ [Event.dispatch (i + 1) attempt step.command step.payload]
    match gw i attempt with
    | .ok data =>
      { st with
        results := st.results ++ [⟨i + 1, attempt, "success", some data, none⟩]
        trace := sent
        success := true }
    | .error response =>
      let waited :=
        if 0 < policy.delay ∧ (attempt : Int) < policy.count then
          sent ++ [Event.wait policy.delay]
        else sent
      attemptLoop gw i step policy remaining (attempt + 1)
        { st with trace := waited, lastError := some response }

/-- Result of a request: the reply sent (or the message of an exception that escaped
the handler), the `results` array as the handler left it, and everything the handler
issued. -/
structure Run where
  reply : Except String Reply
  results : List ResultEntry
  trace : List Event
  deriving Repr

/-- The loop `for (let i = 0; i < steps.length; i++)` from index `i` on. When a step
ends without success the handler reads `lastError.response`, which throws a
`TypeError` if no attempt was made. -/
def stepLoop (gw : Gateway) : List Step → Nat → List ResultEntry → List Event → Run
  | [], _, results, trace =>
    ⟨.ok (.completed "Orchestration completed successfully" results), results, trace⟩
  | step :: rest, i, results, trace =>
    let policy := retryPolicy step
    let st := attemptLoop gw i step policy policy.count.toNat 1
      { results := results, trace := trace, lastError := none, success := false }
    if st.success then stepLoop gw rest (i + 1) st.results st.trace
    else
      match st.lastError with
      | none =>
        ⟨.error "TypeError: Cannot read properties of null (reading \x27response\x27)",
         st.results, st.trace⟩
      | some response =>
        let results := st.results ++
          [⟨i + 1, policy.count, "failed", none, some (response.getD "Communication error")⟩]
        ⟨.ok (.failed ("Orchestration failed at step " ++ toString (i + 1)) results),
         results, st.trace⟩

/-- Body of `POST /orchestrate`; a member is `none` when the JSON body lacks it. -/
structure OrchestrateBody where
  instanceId : Option String
  steps : Option (List Step)
  deriving Repr

/-- The handler of `POST /orchestrate`. -/
def orchestrate (gw : Gateway) (body : OrchestrateBody) : Run :=
  match body.instanceId, body.steps with
  | some instanceId, some steps =>
    if instanceId = "" then
      ⟨.ok (.badRequest "Missing instanceId or steps array in request body"), [], []⟩
    else stepLoop gw steps 0 [] []
  | _, _ => ⟨.ok (.badRequest "Missing instanceId or steps array in request body"), [], []⟩

/-- Events of `k` rejected attempts in a row, the first of them numbered `attempt`. -/
def failEvents (i : Nat) (step : Step) (policy : RetryPolicy) : Nat → Nat → List Event
  | 0, _ => []
  | k + 1, attempt =>
    Event.dispatch (i + 1) attempt step.command step.payload ::
      ((if 0 < policy.delay ∧ (attempt : Int) < policy.count then [Event.wait policy.delay]
        else []) ++ failEvents i step policy k (attempt + 1))

/-- Events of a step that is rejected `k` times and then resolves. -/
def successEvents (i : Nat) (step : Step) (k : Nat) : List Event :=
  failEvents i step (retryPolicy step) k 1 ++
    [Event.dispatch (i + 1) (k + 1) step.command step.payload]

/-- Result entries of a run of steps, from index `i` on, in which step `j` is
rejected `k j` times and then resolves with `d j`. -/
def prefixEntries (k : Nat → Nat) (d : Nat → String) : List Step → Nat → List ResultEntry
  | [], _ => []
  | _ :: rest, i =>
    ⟨i + 1, ((k i + 1 : Nat) : Int), "success", some (d i), none⟩ :: prefixEntries k d rest (i + 1)

/-- Events of the same run of steps. -/
def prefixEvents (k : Nat → Nat) : List Step → Nat → List Event
  | [], _ => []
  | step :: rest, i => successEvents i step (k i) ++ prefixEvents k rest (i + 1)

/-- Step `step` at index `i` is rejected on its first `k` attempts and resolves with `data` on
attempt `k + 1`, which its retry count still allows. -/
def SucceedsAfter (gw : Gateway) (i : Nat) (step : Step) (k : Nat) (data : String) : Prop :=
  (k : Int) < (retryPolicy step).count ∧
  (∀ a : Nat, 1 ≤ a → a ≤ k → (gw i a).isError = true) ∧
  gw i (k + 1) = .ok data

end Orchestrator

/-! ## Named workflows: `executeWorkflow` -/

namespace Workflows

/-- JSON values as far as the payload merge tells them apart; `object` stands for any
array or object. -/
inductive JsValue where
  | null
  | bool (b : Bool)
  | num (n : Int)
  | str (s : String)
  | object (json : String)
  deriving DecidableEq, Repr

/-- JavaScript truthiness, as tested by `if (payloadValues[key])`. -/
def JsValue.truthy : JsValue → Bool
  | .null => false
  | .bool b => b
  | .num n => n != 0
  | .str s => s != ""
  | .object _ => true

/-- An object literal: its own keys with their values, in insertion order. -/
abbrev JsObject := List (String × JsValue)

/-- One entry of `steps` in a workflow definition. -/
structure WorkflowStep where
  name : String
  command : String
  payloadTemplate : JsObject
  deriving DecidableEq, Repr

/-- One workflow definition. -/
structure Workflow where
  name : String
  description : String
  steps : List WorkflowStep
  deriving DecidableEq, Repr

/-- The table `workflows`. -/
def workflows : List (String × Workflow) :=
  [ ("appInstallAndLaunch",
      { name := "App Installation and Launch"
        description := "Installs an APK and launches the app"
        steps :=
          [ ⟨"Install APK", "install", [("apkPath", .str "")]⟩,
            ⟨"Launch App", "launch", [("packageName", .str ""), ("activityName", .str "")]⟩ ] }),
    ("uiTestAutomation",
      { name := "UI Test Automation"
        description := "Performs a series of UI interactions and captures screenshots"
        steps :=
          [ ⟨"Launch App", "launch", [("packageName", .str ""), ("activityName", .str "")]⟩,
            ⟨"Wait for App", "shell", [("shellCommand", .str "sleep 2")]⟩,
            ⟨"Take Screenshot", "screenshot", []⟩,
            ⟨"Perform UI Interaction", "shell", [("shellCommand", .str "input tap 500 500")]⟩,
            ⟨"Take Final Screenshot", "screenshot", []⟩ ] }),
    ("deviceReset",
      { name := "Device Reset"
        description := "Resets the device to a clean state"
        steps :=
          [ ⟨"Stop Running Apps", "shell", [("shellCommand", .str "am force-stop com.example.app")]⟩,
            ⟨"Clear App Data", "shell", [("shellCommand", .str "pm clear com.example.app")]⟩,
            ⟨"Restart Device", "shell", [("shellCommand", .str "reboot")]⟩ ] }) ]

/-- Names that `workflows[workflowId]` finds on `Object.prototype` although the table
does not define them; each is truthy and has no `steps`. -/
def objectPrototypeKeys : List String :=
  ["__proto__", "constructor", "hasOwnProperty", "isPrototypeOf", "propertyIsEnumerable",
   "toLocaleString", "toString", "valueOf", "__defineGetter__", "__defineSetter__",
   "__lookupGetter__", "__lookupSetter__"]

/-- The copy `{ ...step.payloadTemplate }` followed by the loop `for (const key in payload)`
that assigns `payloadValues[key]` when that value is truthy. -/
def mergePayload (payloadTemplate payloadValues : JsObject) : JsObject :=
  payloadTemplate.map fun entry =>
    match payloadValues.lookup entry.1 with
    | some value => if value.truthy then (entry.1, value) else entry
    | none => entry

/-- Outcome of one `axios.post` to the gateway: resolved with `data`, or rejected with
an error carrying `message`. -/
inductive Outcome where
  | ok (data : String)
  | error (message : String)
  deriving DecidableEq, Repr

/-- The gateway as seen by one run: the outcome of the dispatch issued at `stepIndex`. -/
abbrev Gateway := Nat → Outcome

/-- One element of the `results` array. -/
structure StepResult where
  step : Nat
  name : String
  command : String
  payload : JsObject
  result : String
  deriving DecidableEq, Repr

/-- What a run does towards the outside: a dispatch to `/instances/:instanceId/rpc`
or a `setTimeout` wait between steps. -/
inductive Event where
  | dispatch (instanceId command : String) (payload : JsObject)
  | wait (ms : Int)
  deriving DecidableEq, Repr

/-- True on a dispatch. -/
def Event.isDispatch : Event → Bool
  | .dispatch _ _ _ => true
  | .wait _ => false

/-- The object returned by `executeWorkflow`. -/
structure WorkflowRun where
  workflowId : String
  instanceId : String
  status : String
  error : Option String
  steps : List StepResult
  failedStep : Option Nat
  deriving DecidableEq, Repr

/-- The `options` argument; `stepDelay` is absent when the caller gave none. -/
structure Options where
  stepDelay : Option Int := none
  deriving DecidableEq, Repr

/-- Result of a call: the returned run (or the message of the thrown error) and the
events issued. -/
structure Execution where
  outcome : Except String WorkflowRun
  trace : List Event
  deriving Repr

/-- The loop `for (const step of workflow.steps)` inside `try`, entered at `stepIndex`
with `total = workflow.steps.length`; a rejected dispatch lands in `catch`. -/
def runSteps (gw : Gateway) (workflowId instanceId : String) (payloadValues : JsObject)
    (options : Options) (total : Nat) :
    List WorkflowStep → Nat → List StepResult → List Event → Execution
  | [], _, results, trace =>
    ⟨.ok ⟨workflowId, instanceId, "completed", none, results, none⟩, trace⟩
  | step :: rest, stepIndex, results, trace =>
    let payload := mergePayload step.payloadTemplate payloadValues
    let sent := trace ++ [Event.dispatch instanceId step.command payload]
    match gw stepIndex with
    | .error message =>
      ⟨.ok ⟨workflowId, instanceId, "failed", some message, results, some stepIndex⟩, sent⟩
    | .ok data =>
      let pushed := results ++ [⟨stepIndex, step.name, step.command, payload, data⟩]
      let waited :=
        match options.stepDelay with
        | some ms => if ms ≠ 0 ∧ stepIndex + 1 < total then sent ++ [Event.wait ms] else sent
        | none => sent
      runSteps gw workflowId instanceId payloadValues options total rest (stepIndex + 1)
        pushed waited

/-- The function `executeWorkflow`. An unknown id throws before `try`; an id inherited
from `Object.prototype` passes the check and fails inside `try` on iterating the
missing `steps`. -/
def executeWorkflow (gw : Gateway) (workflowId instanceId : String) (payloadValues : JsObject)
    (options : Options) : Execution :=
  match workflows.lookup workflowId with
  | some workflow =>
    runSteps gw workflowId instanceId payloadValues options workflow.steps.length
      workflow.steps 0 [] []
  | none =>
    if objectPrototypeKeys.contains workflowId then
      ⟨.ok ⟨workflowId, instanceId, "failed", some "workflow.steps is not iterable", [],
        some 0⟩, []⟩
    else ⟨.error ("Workflow " ++ workflowId ++ " not found"), []⟩

/-- Body of `POST /workflows/:workflowId/execute`; a member is `none` when the JSON
body lacks it. -/
structure ExecuteBody where
  instanceId : Option String
  payloadValues : Option JsObject := none
  options : Option Options := none
  deriving Repr

/-- The three `res.status(..).json(..)` calls of the handler of
`POST /workflows/:workflowId/execute`. -/
inductive RouteReply where
  | badRequest (error : String)
  | result (run : WorkflowRun)
  | failed (error details : String)
  deriving DecidableEq, Repr

/-- HTTP status of a reply of the route. -/
def RouteReply.status : RouteReply → Nat
  | .badRequest _ => 400
  | .result _ => 200
  | .failed _ _ => 500

/-- Result of a request to the route: the reply and the events issued. -/
structure RouteRun where
  reply : RouteReply
  trace : List Event
  deriving Repr

/-- The handler of `POST /workflows/:workflowId/execute`: a missing instanceId is
answered 400, a returned run 200, and an error thrown by `executeWorkflow` 500. -/
def executeRoute (gw : Gateway) (workflowId : String) (body : ExecuteBody) : RouteRun :=
  match body.instanceId with
  | none => ⟨.badRequest "Missing instanceId in request body", []⟩
  | some instanceId =>
    if instanceId = "" then ⟨.badRequest "Missing instanceId in request body", []⟩
    else
      let execution := executeWorkflow gw workflowId instanceId (body.payloadValues.getD [])
        (body.options.getD {})
      match execution.outcome with
      | .ok run => ⟨.result run, execution.trace⟩
      | .error message => ⟨.failed "Workflow execution failed" message, execution.trace⟩

/-- The objects reachable by `executeWorkflow`, by address: the payload templates of
the table and the payload objects that runs create. -/
abbrev Heap := List JsObject

/-- The assignment `object[key] = value` on an object literal: an existing key keeps
its place. -/
def setKey : JsObject → String → JsValue → JsObject
  | [], key, value => [(key, value)]
  | (k, v) :: rest, key, value =>
    if k = key then (k, value) :: rest else (k, v) :: setKey rest key value

/-- The copy `{ ...source }`: a new object with the entries of the object at `source`,
at a fresh address. -/
def spread (heap : Heap) (source : Nat) : Heap × Nat :=
  (heap ++ [heap.getD source []], heap.length)

/-- The statement `payload[key] = value` for the object at address `payload`. -/
def assign (heap : Heap) (payload : Nat) (key : String) (value : JsValue) : Heap :=
  heap.set payload (setKey (heap.getD payload []) key value)

/-- The loop `for (const key in payload)` over the keys that `payload` has when the
loop starts. -/
def substitute (payloadValues : JsObject) (payload : Nat) : List String → Heap → Heap
  | [], heap => heap
  | key :: keys, heap =>
    match payloadValues.lookup key with
    | some value =>
      if value.truthy then substitute payloadValues payload keys (assign heap payload key value)
      else substitute payloadValues payload keys heap
    | none => substitute payloadValues payload keys heap

/-- Lines 107 to 115 of `executeWorkflow` on the heap: the template at address
`template` is copied and the copy is updated; returns the heap and the address of
the payload. -/
def preparePayload (heap : Heap) (template : Nat) (payloadValues : JsObject) : Heap × Nat :=
  let copied := spread heap template
  (substitute payloadValues copied.2 ((copied.1.getD copied.2 []).map Prod.fst) copied.1,
    copied.2)

/-- One entry of `steps` with its payload template held by reference. -/
structure HeapStep where
  name : String
  command : String
  payloadTemplate : Nat
  deriving DecidableEq, Repr

/-- The loop of `executeWorkflow` as far as it touches objects: the heap it leaves and
the payloads it dispatched, in order. -/
def runStepsHeap (gw : Gateway) (payloadValues : JsObject) :
    List HeapStep → Nat → Heap → List JsObject → Heap × List JsObject
  | [], _, heap, sent => (heap, sent)
  | step :: rest, stepIndex, heap, sent =>
    let prepared := preparePayload heap step.payloadTemplate payloadValues
    let dispatched := sent ++ [prepared.1.getD prepared.2 []]
    match gw stepIndex with
    | .error _ => (prepared.1, dispatched)
    | .ok _ => runStepsHeap gw payloadValues rest (stepIndex + 1) prepared.1 dispatched

/-- The function `executeWorkflow` as far as it touches objects, for a table whose
steps hold their templates by reference; an id that the table does not define
touches nothing. -/
def executeWorkflowHeap (gw : Gateway) (table : List (String × List HeapStep))
    (workflowId : String) (payloadValues : JsObject) (heap : Heap) : Heap × List JsObject :=
  match table.lookup workflowId with
  | some steps => runStepsHeap gw payloadValues steps 0 heap []
  | none => (heap, [])

end Workflows

/-! ## Instance registry: `instance-manager/index.js` -/

namespace InstanceManager

/-- One record of the `instances` collection. `lastSeen` is the instant read by
`new Date()`, in milliseconds since the epoch; the source stores its rendering by
`toISOString`, which has the same millisecond resolution. -/
structure Instance where
  instanceId : String
  address : String
  deviceSerial : Option String
  avdName : Option String
  status : String
  lastSeen : Nat
  deriving DecidableEq, Repr

/-- Body of `POST /register`; a member is `none` when the JSON body lacks it. -/
structure RegisterBody where
  instanceId : Option String
  address : Option String
  deviceSerial : Option String := none
  avdName : Option String := none
  deriving DecidableEq, Repr

/-- JSON body of a reply. -/
inductive ReplyBody where
  | record (r : Instance)
  | records (rs : List Instance)
  | message (text : String)
  | error (text : String)
  deriving DecidableEq, Repr

/-- A reply: `res.status(status).json(body)`. -/
structure Reply where
  status : Nat
  body : ReplyBody
  deriving DecidableEq, Repr

/-- The lookup `db.get(..).find({ instanceId: instanceId }).value()`: the first record
with that id. -/
def findInstance (db : List Instance) (instanceId : String) : Option Instance :=
  db.find? (fun r => r.instanceId == instanceId)

/-- The update `existing.assign(newInstanceData)`: the first record with that id takes
all six members of `newInstanceData`; the list is otherwise untouched. -/
def assignFirst (instanceId : String) (newInstanceData : Instance) :
    List Instance → List Instance
  | [] => []
  | r :: rest =>
    if r.instanceId == instanceId then newInstanceData :: rest
    else r :: assignFirst instanceId newInstanceData rest

/-- The handler of `POST /register`, run at clock reading `now`: the reply and the
collection it leaves. -/
def register (db : List Instance) (now : Nat) (body : RegisterBody) :
    Reply × List Instance :=
  match body.instanceId, body.address with
  | some instanceId, some address =>
    if instanceId = "" ∨ address = "" then
      (⟨400, .error "Missing instanceId or address"⟩, db)
    else
      let newInstanceData : Instance :=
        ⟨instanceId, address, body.deviceSerial, body.avdName, "registered", now⟩
      match findInstance db instanceId with
      | some _ => (⟨201, .record newInstanceData⟩, assignFirst instanceId newInstanceData db)
      | none => (⟨201, .record newInstanceData⟩, db ++ [newInstanceData])
  | _, _ => (⟨400, .error "Missing instanceId or address"⟩, db)

/-- The handler of `GET /instances`. -/
def getInstances (db : List Instance) : Reply :=
  ⟨200, .records db⟩

/-- The handler of `GET /instances/:instanceId`. -/
def getInstance (db : List Instance) (instanceId : String) : Reply :=
  match findInstance db instanceId with
  | some r => ⟨200, .record r⟩
  | none => ⟨404, .error ("Instance with ID \x27" ++ instanceId ++ "\x27 not found.")⟩

/-- The handler of `POST /deregister`; `remove({ instanceId })` drops every record with
that id. -/
def deregister (db : List Instance) (instanceId : Option String) : Reply × List Instance :=
  match instanceId with
  | none => (⟨400, .error "Missing instanceId"⟩, db)
  | some instanceId =>
    if instanceId = "" then (⟨400, .error "Missing instanceId"⟩, db)
    else
      match findInstance db instanceId with
      | some _ =>
        (⟨200, .message ("Instance " ++ instanceId ++ " de-registered successfully.")⟩,
         db.filter (fun r => r.instanceId != instanceId))
      | none => (⟨404, .error ("Instance with ID \x27" ++ instanceId ++ "\x27 not found.")⟩, db)

/-- A state-changing request to the registry. -/
inductive Request where
  | register (now : Nat) (body : RegisterBody)
  | deregister (instanceId : Option String)
  deriving DecidableEq, Repr

/-- The collection after one request. -/
def applyRequest (db : List Instance) : Request → List Instance
  | .register now body => (register db now body).2
  | .deregister instanceId => (deregister db instanceId).2

/-- The collection after a sequence of requests, served one after the other. -/
def applyRequests (db : List Instance) (requests : List Request) : List Instance :=
  requests.foldl applyRequest db

end InstanceManager

/-! ## Device discovery: `adb-manager.js` -/

namespace AdbManager

/-- The method `split` with a one-character separator, on the characters of a string:
the pieces between the separators, empty pieces included. -/
def splitChars (sep : Char) : List Char → List (List Char)
  | [] => [[]]
  | c :: cs =>
    if c = sep then [] :: splitChars sep cs
    else
      match splitChars sep cs with
      | [] => [[c]]
      | piece :: pieces => (c :: piece) :: pieces

/-- The call `s.split(sep)` for a one-character `sep`. -/
def jsSplit (s : String) (sep : Char) : List String :=
  (splitChars sep s.data).map String.mk

/-- The call `s.startsWith(start)`. -/
def startsWith (s start : String) : Bool :=
  start.data.isPrefixOf s.data

/-- The loop `for (const line of lines)`: `[serial, state] = line.split(TAB)`, and the
first line with a non-empty serial starting with `emulator-` and state `device` wins;
`state` is undefined when the line has no tab. -/
def scanLines : List String → Except String String
  | [] => .error "No running emulator device found."
  | line :: rest =>
    match jsSplit line '\t' with
    | serial :: state :: _ =>
      if serial ≠ "" ∧ startsWith serial "emulator-" = true ∧ state = "device" then .ok serial
      else scanLines rest
    | _ => scanLines rest

/-- The function `findNewEmulatorDevice`; `devices` is what `runAdbCommand(devices)`
settles to: the trimmed output of the bridge, or its error. -/
def findNewEmulatorDevice (devices : Except String String) : Except String String :=
  match devices with
  | .error e => .error e
  | .ok output => scanLines ((jsSplit output '\n').drop 1)

/-- What `exec` hands to its callback: the error (when the bridge process failed), the
standard output and the standard error. -/
structure ExecResult where
  error : Option String
  stdout : String
  stderr : String
  deriving DecidableEq, Repr

/-- White space and line terminators, the code points that `trim` strips. -/
def isJsWhiteSpace (c : Char) : Bool :=
  [9, 10, 11, 12, 13, 32, 160, 5760, 8232, 8233, 8239, 8287, 12288, 65279].contains c.toNat ||
    (8192 ≤ c.toNat && c.toNat ≤ 8202)

/-- The call `s.trim()`. -/
def jsTrim (s : String) : String :=
  String.mk ((s.data.dropWhile isJsWhiteSpace).reverse.dropWhile isJsWhiteSpace).reverse

/-- The function `runAdbCommand`, given what `exec` reports for the command: rejects
with the error, or resolves with the trimmed standard output. -/
def runAdbCommand (result : ExecResult) : Except String String :=
  match result.error with
  | some error => .error error
  | none => .ok (jsTrim result.stdout)

/-- The `payload` argument of `executeCommand`; a member is `none` when the object
lacks it. -/
structure Payload where
  shellCommand : Option String := none
  apkPath : Option String := none
  packageName : Option String := none
  activityName : Option String := none
  deriving DecidableEq, Repr

/-- The test `!value` on a payload member: absent or the empty string. -/
def falsy : Option String → Bool
  | none => true
  | some s => s == ""

/-- The object returned by `executeCommand`. -/
structure CommandResult where
  output : String
  filePath : Option String
  deriving DecidableEq, Repr

/-- Result of a call of `executeCommand`: what the promise settles to, and the bridge
commands run, in order. -/
structure Execution where
  outcome : Except String CommandResult
  commands : List String
  deriving Repr

/-- Runs one bridge command and returns `{ output }`. -/
def runSingle (exec : String → ExecResult) (command : String) : Execution :=
  match runAdbCommand (exec command) with
  | .ok output => ⟨.ok ⟨output, none⟩, [command]⟩
  | .error error => ⟨.error error, [command]⟩

/-- The function `executeCommand`; `exec` tells what the bridge reports for a command
line and `now` is the reading of `Date.now()` used for the screenshot path. -/
def executeCommand (exec : String → ExecResult) (now : Nat) (deviceSerial command : String)
    (payload : Payload) : Execution :=
  if command = "shell" then
    if falsy payload.shellCommand then ⟨.error "Shell command is required in payload", []⟩
    else runSingle exec ("-s " ++ deviceSerial ++ " shell " ++ payload.shellCommand.getD "")
  else if command = "install" then
    if falsy payload.apkPath then ⟨.error "APK path is required in payload", []⟩
    else runSingle exec ("-s " ++ deviceSerial ++ " install -r " ++ payload.apkPath.getD "")
  else if command = "uninstall" then
    if falsy payload.packageName then ⟨.error "Package name is required in payload", []⟩
    else runSingle exec ("-s " ++ deviceSerial ++ " uninstall " ++ payload.packageName.getD "")
  else if command = "screenshot" then
    let screenshotPath :=
      "/tmp/screenshot_" ++ deviceSerial ++ "_" ++ toString now ++ ".png"
    let capture := "-s " ++ deviceSerial ++ " shell screencap -p /sdcard/screenshot.png"
    let pull := "-s " ++ deviceSerial ++ " pull /sdcard/screenshot.png " ++ screenshotPath
    match runAdbCommand (exec capture) with
    | .error error => ⟨.error error, [capture]⟩
    | .ok _ =>
      match runAdbCommand (exec pull) with
      | .error error => ⟨.error error, [capture, pull]⟩
      | .ok _ => ⟨.ok ⟨"Screenshot captured", some screenshotPath⟩, [capture, pull]⟩
  else if command = "launch" then
    if falsy payload.packageName || falsy payload.activityName then
      ⟨.error "Package name and activity name are required in payload", []⟩
    else
      runSingle exec ("-s " ++ deviceSerial ++ " shell am start -n " ++
        payload.packageName.getD "" ++ "/" ++ payload.activityName.getD "")
  else ⟨.error ("Unsupported command: " ++ command), []⟩

/-- What one call of `waitForBoot` observes: `clock n` is the `n`-th reading of
`Date.now()` (reading 0 is `startTime`, reading `n + 1` is taken at the head of
iteration `n`), and `poll n` is what `exec` reports for the poll of iteration `n`. -/
structure BootEnv where
  clock : Nat → Int
  poll : Nat → ExecResult

/-- What `waitForBoot` does towards the outside: a bridge command or a `setTimeout`
wait. -/
inductive BootEvent where
  | poll (command : String)
  | sleep (ms : Nat)
  deriving DecidableEq, Repr

/-- True on a poll. -/
def BootEvent.isPoll : BootEvent → Bool
  | .poll _ => true
  | .sleep _ => false

/-- Result of a call of `waitForBoot`: resolved or rejected with a message, and the
events issued. -/
structure BootRun where
  outcome : Except String Unit
  events : List BootEvent
  deriving Repr

/-- The loop `while (Date.now() - startTime < timeoutMs)` from iteration `n` on, for at
most `fuel` iterations; `none` when the loop is still running after them. A rejected
poll and an output other than `1` both lead to the 3000 ms wait. -/
def bootLoop (env : BootEnv) (deviceSerial : String) (timeoutMs : Int) :
    Nat → Nat → List BootEvent → Option BootRun
  | 0, _, _ => none
  | fuel + 1, n, events =>
    if env.clock (n + 1) - env.clock 0 < timeoutMs then
      let polled := events ++
        [BootEvent.poll ("-s " ++ deviceSerial ++ " shell getprop sys.boot_completed")]
      match runAdbCommand (env.poll n) with
      | .ok output =>
        if output = "1" then some ⟨.ok (), polled⟩
        else bootLoop env deviceSerial timeoutMs fuel (n + 1) (polled ++ [BootEvent.sleep 3000])
      | .error _ =>
        bootLoop env deviceSerial timeoutMs fuel (n + 1) (polled ++ [BootEvent.sleep 3000])
    else
      some ⟨.error ("Timeout waiting for device " ++ deviceSerial ++ " to boot."), events⟩

/-- The function `waitForBoot`, followed for at most `fuel` iterations of its loop. -/
def waitForBoot (env : BootEnv) (deviceSerial : String) (timeoutMs : Int) (fuel : Nat) :
    Option BootRun :=
  bootLoop env deviceSerial timeoutMs fuel 0 []

/-- The function `setupPortForwarding`: the bridge command it runs. -/
def forwardCommand (deviceSerial : String) (hostPort guestPort : Nat) : String :=
  "-s " ++ deviceSerial ++ " forward tcp:" ++ toString hostPort ++ " tcp:" ++ toString guestPort

/-- The function `startAgentApp`: the bridge command it runs. -/
def startAgentCommand (deviceSerial : String) : String :=
  "-s " ++ deviceSerial ++ " shell am start-service com.example.controlplane/.AgentService"

/-- The command line that `runAdbCommand` hands to `exec`: the bridge executable
followed by the command. -/
def execLine (adbPath command : String) : String :=
  adbPath ++ " " ++ command

end AdbManager

/-! ## Instance lifecycle: `emulator-manager.js` -/

namespace EmulatorManager

open AdbManager

/-- The object form of the `config` argument of `startEmulator`; a member is `none`
when the object lacks it, so that the destructuring default applies. -/
structure Options where
  avdName : Option String := none
  headless : Option Bool := none
  readOnly : Option Bool := none
  gpu : Option String := none
  noSnapshot : Option Bool := none
  extraArgs : Option (List String) := none
  deriving DecidableEq, Repr

/-- The `config` argument of `startEmulator`: an AVD name, an object, or nothing. -/
inductive Config where
  | name (avdName : String)
  | options (opts : Options)
  | absent
  deriving DecidableEq, Repr

/-- The line `typeof config === string ? { avdName: config } : (config || {})`. -/
def Config.opts : Config → Options
  | .name avdName => { avdName := some avdName }
  | .options opts => opts
  | .absent => {}

/-- The argument list `args` handed to `spawn`. -/
def launchArgs (avdName : String) (opts : Options) : List String :=
  ["-avd", avdName] ++
    (if opts.headless.getD true then ["-no-window", "-no-audio"] else []) ++
    (if opts.readOnly.getD false then ["-read-only"] else []) ++
    (if opts.gpu.getD "host" ≠ "" then ["-gpu", opts.gpu.getD "host"] else []) ++
    (if opts.noSnapshot.getD false then ["-no-snapshot"] else []) ++
    opts.extraArgs.getD []

/-- A value of the map `runningEmulators`. `process` is the child handle (named by its
pid); the other members beyond `avdName` are added when the instance is ready. -/
structure Entry where
  process : Option Nat
  avdName : String
  instanceId : Option String
  deviceSerial : Option String
  address : Option String
  deriving DecidableEq, Repr

/-- The map `runningEmulators`: keys with their values, in insertion order. -/
abbrev Tracking := List (String × Entry)

/-- The call `runningEmulators.set(key, value)`: an existing key keeps its place. -/
def mapSet : Tracking → String → Entry → Tracking
  | [], key, value => [(key, value)]
  | (k, v) :: rest, key, value =>
    if k = key then (k, value) :: rest else (k, v) :: mapSet rest key value

/-- The call `runningEmulators.delete(key)`. -/
def mapDelete (m : Tracking) (key : String) : Tracking :=
  m.filter (fun kv => kv.1 != key)

/-- The object `instanceDetails` that `startEmulator` returns. -/
structure InstanceDetails where
  instanceId : String
  deviceSerial : String
  avdName : String
  address : String
  deriving DecidableEq, Repr

/-- What the lifecycle manager does towards the outside. -/
inductive Effect where
  | spawn (args : List String)
  | sleep (ms : Nat)
  | adb (command : String)
  | kill (pid : Nat) (signal : String)
  | registerPost (details : InstanceDetails)
  | deregisterPost (instanceId : String)
  deriving DecidableEq, Repr

/-- A boot-wait event as an effect of the lifecycle manager. -/
def bootEffect : BootEvent → Effect
  | .poll command => .adb command
  | .sleep ms => .sleep ms

/-- What one call of `startEmulator` gets from the outside: the fresh id from `uuidv4`,
the spawned child (by pid), whether the child emits `exit` during the settle delay,
what `exec` reports for the device list, the boot polls and clock, the port from
`getFreePort`, what `exec` reports for the forward and the agent start, how the
registration request settles, and whether `child.kill` throws. -/
structure StartEnv where
  instanceId : String
  pid : Nat
  exited : Bool
  devices : ExecResult
  boot : BootEnv
  bootFuel : Nat
  hostPort : Nat
  forward : ExecResult
  agent : ExecResult
  registration : Except String Unit
  killThrows : Bool

/-- Result of a call of `startEmulator`: what the promise settles to, the map
`runningEmulators` afterwards and the effects issued, in order. -/
structure StartRun where
  outcome : Except String InstanceDetails
  running : Tracking
  effects : List Effect
  deriving Repr

/-- The `catch` block of `startEmulator`: the child is sent SIGTERM inside a `try` with
an empty `catch`, so the block goes on in the same way whether or not `kill` throws;
the entry of the new id is deleted and the error is thrown again. -/
def cleanup (env : StartEnv) (tracked : Tracking) (effects : List Effect) (error : String) :
    StartRun :=
  let rethrown : StartRun :=
    ⟨.error error, mapDelete tracked env.instanceId,
      effects ++ [Effect.kill env.pid "SIGTERM"]⟩
  match env.killThrows with
  | true => rethrown
  | false => rethrown

/-- The function `startEmulator`, run with the map `running`; `none` when the boot
polling is still going on after `env.bootFuel` iterations. The `exit` handler of the
child deletes the entry and posts a de-registration; the final `set` spreads whatever
entry the map then holds for the id under the instance details. -/
def startEmulator (running : Tracking) (config : Config) (env : StartEnv) :
    Option StartRun :=
  match config.opts.avdName with
  | none => some ⟨.error "avdName is required", running, []⟩
  | some avdName =>
    if avdName = "" then some ⟨.error "avdName is required", running, []⟩
    else
      let spawned := mapSet running env.instanceId ⟨some env.pid, avdName, none, none, none⟩
      let tracked := if env.exited then mapDelete spawned env.instanceId else spawned
      let settled :=
        [Effect.spawn (launchArgs avdName config.opts), Effect.sleep 5000] ++
          (if env.exited then [Effect.deregisterPost env.instanceId] else []) ++
          [Effect.adb "devices"]
      match findNewEmulatorDevice (runAdbCommand env.devices) with
      | .error error => some (cleanup env tracked settled error)
      | .ok deviceSerial =>
        match waitForBoot env.boot deviceSerial 120000 env.bootFuel with
        | none => none
        | some boot =>
          let booted := settled ++ boot.events.map bootEffect
          match boot.outcome with
          | .error error => some (cleanup env tracked booted error)
          | .ok _ =>
            let forwarded :=
              booted ++ [Effect.adb (forwardCommand deviceSerial env.hostPort 8080)]
            match runAdbCommand env.forward with
            | .error error => some (cleanup env tracked forwarded error)
            | .ok _ =>
              let started := forwarded ++ [Effect.adb (startAgentCommand deviceSerial)]
              match runAdbCommand env.agent with
              | .error error => some (cleanup env tracked started error)
              | .ok _ =>
                let instanceDetails : InstanceDetails :=
                  ⟨env.instanceId, deviceSerial, avdName,
                    "http://localhost:" ++ toString env.hostPort⟩
                let ready : StartRun :=
                  ⟨.ok instanceDetails,
                    mapSet tracked env.instanceId
                      ⟨(tracked.lookup env.instanceId).bind (fun e => e.process), avdName,
                        some env.instanceId, some deviceSerial,
                        some ("http://localhost:" ++ toString env.hostPort)⟩,
                    started ++ [Effect.registerPost instanceDetails]⟩
                match env.registration with
                | .ok _ => some ready
                | .error _ => some ready

/-- Result of a call of `stopEmulator`. -/
structure StopRun where
  stopped : Bool
  running : Tracking
  effects : List Effect
  deriving Repr

/-- The function `stopEmulator`: an entry with a process is sent SIGTERM, deleted and
de-registered; otherwise nothing happens and the answer is `false`. -/
def stopEmulator (running : Tracking) (instanceId : String) : StopRun :=
  match running.lookup instanceId with
  | some entry =>
    match entry.process with
    | some pid =>
      ⟨true, mapDelete running instanceId,
        [Effect.kill pid "SIGTERM", Effect.deregisterPost instanceId]⟩
    | none => ⟨false, running, []⟩
  | none => ⟨false, running, []⟩

/-- The handler of `POST /instances/:instanceId/stop`: its status and the map it
leaves. -/
def stopRoute (running : Tracking) (instanceId : String) : Nat × Tracking :=
  let run := stopEmulator running instanceId
  if run.stopped then (200, run.running) else (404, run.running)

/-- The number of low bits of `p` that do not fit into the 53-bit significand of a
double: the least `s` with `p / 2 ^ s < 2 ^ 53`, for `p` below `2 ^ (53 + fuel)`. -/
def excessBits : Nat → Nat → Nat
  | 0, _ => 0
  | fuel + 1, p => if p < 2 ^ 53 then 0 else excessBits fuel (p / 2) + 1

/-- The rounding that a double operation applies to an exact result, here a natural
number `p` below `2 ^ 117`: to 53 significant bits, to the nearest such number, and
to the one with the even significand when `p` is half way between two. -/
def roundToDouble (p : Nat) : Nat :=
  let s := excessBits 64 p
  let q := p / 2 ^ s
  let r := p % 2 ^ s
  if 2 * r < 2 ^ s then q * 2 ^ s
  else if 2 * r = 2 ^ s ∧ q % 2 = 0 then q * 2 ^ s
  else (q + 1) * 2 ^ s

/-- The function `getFreePort` when `Math.random()` returns the double `m / 2 ^ e`, with
`m` below `2 ^ 53`: the product of two doubles is the exact product `m * 39152 / 2 ^ e`
rounded to a double (a division by a power of two does not change the significand),
`Math.floor` and the sum with 10000 are exact. -/
def getFreePort (m e : Nat) : Nat :=
  roundToDouble (m * (49151 - 10000 + 1)) / 2 ^ e + 10000

/-- Body of `POST /dispatch/:instanceId`; a member is `none` when the JSON body lacks it. -/
structure DispatchBody where
  command : Option String
  payload : Option Payload := none
  deriving Repr

/-- The `res.status(..).json(..)` calls of the handler of `POST /dispatch/:instanceId`. -/
inductive DispatchReply where
  | badRequest (error : String)
  | notFound (error : String)
  | result (result : CommandResult)
  | failed (error details : String)
  deriving DecidableEq, Repr

/-- HTTP status of a reply of the dispatch route. -/
def DispatchReply.status : DispatchReply → Nat
  | .badRequest _ => 400
  | .notFound _ => 404
  | .result _ => 200
  | .failed _ _ => 500

/-- Result of a request to the dispatch route: the reply and the bridge commands run. -/
structure DispatchRun where
  reply : DispatchReply
  commands : List String
  deriving Repr

/-- The handler of `POST /dispatch/:instanceId`: a missing command is answered 400, an
untracked instance 404, a result of `executeCommand` 200 and any error it throws 500.
The serial of an entry that has none yet is rendered as `undefined`. -/
def dispatchRoute (running : Tracking) (exec : String → ExecResult) (now : Nat)
    (instanceId : String) (body : DispatchBody) : DispatchRun :=
  match body.command with
  | none => ⟨.badRequest "Missing command in request body", []⟩
  | some command =>
    if command = "" then ⟨.badRequest "Missing command in request body", []⟩
    else
      match running.lookup instanceId with
      | none => ⟨.notFound ("Instance " ++ instanceId ++ " not found"), []⟩
      | some instanceDetails =>
        let execution := executeCommand exec now (instanceDetails.deviceSerial.getD "undefined")
          command (body.payload.getD {})
        match execution.outcome with
        | .ok result => ⟨.result result, execution.commands⟩
        | .error message => ⟨.failed "Command execution failed" message, execution.commands⟩

end EmulatorManager

/-! ## Gateway authentication: `gateway/index.js` -/

namespace ApiGateway

open AdbManager

/-- What the middleware does with a request: hands it on, or answers it. -/
inductive AuthResult where
  | next
  | reply (status : Nat) (error : String)
  deriving DecidableEq, Repr

/-- The middleware `authenticate` for the configured key `apiKey`, the request path and
the `authorization` header (`none` when the request has none). The token is the
second piece of the header split at spaces. -/
def authenticate (apiKey path : String) (authorization : Option String) : AuthResult :=
  if path = "/health" then .next
  else
    match authorization with
    | none => .reply 401 "Unauthorized: Missing or invalid Authorization header"
    | some authHeader =>
      if authHeader = "" ∨ startsWith authHeader "Bearer " = false then
        .reply 401 "Unauthorized: Missing or invalid Authorization header"
      else
        match (jsSplit authHeader ' ')[1]? with
        | some token =>
          if token ≠ apiKey then .reply 403 "Forbidden: Invalid API Key" else .next
        | none => .reply 403 "Forbidden: Invalid API Key"

end ApiGateway

/-! ## Ad-hoc step execution, retry members being any JSON numbers -/

namespace JsonOrchestrator

open Orchestrator (Outcome Gateway)

/-- One element of `steps` as `POST /orchestrate` receives it: the handler validates
nothing below `steps`, so the `count` and `delay` members of `step.retry` are whatever
numbers the JSON body holds, fractions included (absent when the caller did not give
them). -/
structure Step where
  command : String
  payload : String
  retryCount : Option ℚ := none
  retryDelay : Option ℚ := none
  deriving DecidableEq, Repr

/-- The record `{ count, delay }`. -/
structure RetryPolicy where
  count : ℚ
  delay : ℚ
  deriving DecidableEq, Repr

/-- The source line `{ count: 1, delay: 0, ...step.retry }`. -/
def retryPolicy (step : Step) : RetryPolicy :=
  { count := step.retryCount.getD 1, delay := step.retryDelay.getD 0 }

/-- One element of `results`; the `attempt` of a failure entry is the count itself. -/
structure ResultEntry where
  step : Nat
  attempt : ℚ
  status : String
  result : Option String
  error : Option String
  deriving DecidableEq, Repr

/-- What the handler does towards the outside: a dispatch to the gateway (tagged with
the 1-based step number and the attempt it belongs to) or a `setTimeout` wait. -/
inductive Event where
  | dispatch (step : Nat) (attempt : Nat) (command payload : String)
  | wait (ms : ℚ)
  deriving DecidableEq, Repr

/-- True on a dispatch issued for step number `s`. -/
def Event.isDispatchOf (s : Nat) : Event → Bool
  | .dispatch t _ _ _ => t == s
  | .wait _ => false

/-- True on a wait. -/
def Event.isWait : Event → Bool
  | .dispatch _ _ _ _ => false
  | .wait _ => true

/-- The three `res.status(..).json(..)` calls of the handler. -/
inductive Reply where
  | badRequest (error : String)
  | failed (message : String) (results : List ResultEntry)
  | completed (message : String) (results : List ResultEntry)
  deriving DecidableEq, Repr

/-- Variables of the retry loop that outlive one attempt. -/
structure AttemptState where
  results : List ResultEntry
  trace : List Event
  lastError : Option (Option String)
  success : Bool
  deriving DecidableEq, Repr

/-- The loop `for (let attempt = 1; attempt <= retryPolicy.count; attempt++)`, entered
with `attempt` and `remaining` iterations left: for a count `c` the test
`attempt <= c` holds exactly for the attempts up to `⌊c⌋`. A resolved dispatch pushes
a success entry and breaks; a rejected one stores `lastError` and waits `delay` when
`delay > 0 && attempt < count`. -/
def attemptLoop (gw : Gateway) (i : Nat) (step : Step) (policy : RetryPolicy) :
    Nat → Nat → AttemptState → AttemptState
  | 0, _, st => st
  | remaining + 1, attempt, st =>
    let sent := st.trace ++ [Event.dispatch (i + 1) attempt step.command step.payload]
    match gw i attempt with
    | .ok data =>
      { st with
        results := st.results ++ [⟨i + 1, attempt, "success", some data, none⟩]
        trace := sent
        success := true }
    | .error response =>
      let waited :=
        if 0 < policy.delay ∧ (attempt : ℚ) < policy.count then
          sent ++ [Event.wait policy.delay]
        else sent
      attemptLoop gw i step policy remaining (attempt + 1)
        { st with trace := waited, lastError := some response }

/-- Result of a request: the reply sent (or the message of an exception that escaped
the handler), the `results` array as the handler left it, and everything the handler
issued. -/
structure Run where
  reply : Except String Reply
  results : List ResultEntry
  trace : List Event
  deriving Repr

/-- The loop `for (let i = 0; i < steps.length; i++)` from index `i` on. When a step
ends without success the handler reads `lastError.response`, which throws a
`TypeError` if no attempt was made. -/
def stepLoop (gw : Gateway) : List Step → Nat → List ResultEntry → List Event → Run
  | [], _, results, trace =>
    ⟨.ok (.completed "Orchestration completed successfully" results), results, trace⟩
  | step :: rest, i, results, trace =>
    let policy := retryPolicy step
    let st := attemptLoop gw i step policy ⌊policy.count⌋.toNat 1
      { results := results, trace := trace, lastError := none, success := false }
    if st.success then stepLoop gw rest (i + 1) st.results st.trace
    else
      match st.lastError with
      | none =>
        ⟨.error "TypeError: Cannot read properties of null (reading \x27response\x27)",
         st.results, st.trace⟩
      | some response =>
        let results := st.results ++
          [⟨i + 1, policy.count, "failed", none, some (response.getD "Communication error")⟩]
        ⟨.ok (.failed ("Orchestration failed at step " ++ toString (i + 1)) results),
         results, st.trace⟩

/-- Body of `POST /orchestrate`; a member is `none` when the JSON body lacks it. -/
structure OrchestrateBody where
  instanceId : Option String
  steps : Option (List Step)
  deriving Repr

/-- The handler of `POST /orchestrate`. -/
def orchestrate (gw : Gateway) (body : OrchestrateBody) : Run :=
  match body.instanceId, body.steps with
  | some instanceId, some steps =>
    if instanceId = "" then
      ⟨.ok (.badRequest "Missing instanceId or steps array in request body"), [], []⟩
    else stepLoop gw steps 0 [] []
  | _, _ => ⟨.ok (.badRequest "Missing instanceId or steps array in request body"), [], []⟩

/-- Events of `k` rejected attempts in a row, the first of them numbered `attempt`. -/
def failEvents (i : Nat) (step : Step) (policy : RetryPolicy) : Nat → Nat → List Event
  | 0, _ => []
  | k + 1, attempt =>
    Event.dispatch (i + 1) attempt step.command step.payload ::
      ((if 0 < policy.delay ∧ (attempt : ℚ) < policy.count then [Event.wait policy.delay]
        else []) ++ failEvents i step policy k (attempt + 1))

/-- Events of a step that is rejected `k` times and then resolves. -/
def successEvents (i : Nat) (step : Step) (k : Nat) : List Event :=
  failEvents i step (retryPolicy step) k 1 ++
    [Event.dispatch (i + 1) (k + 1) step.command step.payload]

/-- Events of a run of steps, from index `i` on, in which step `j` is rejected `k j`
times and then resolves. -/
def prefixEvents (k : Nat → Nat) : List Step → Nat → List Event
  | [], _ => []
  | step :: rest, i => successEvents i step (k i) ++ prefixEvents k rest (i + 1)

/-- Step `step` at index `i` is rejected on its first `k` attempts and resolves with
`data` on attempt `k + 1`, which its retry count still allows. -/
def SucceedsAfter (gw : Gateway) (i : Nat) (step : Step) (k : Nat) (data : String) : Prop :=
  ((k + 1 : Nat) : ℚ) ≤ (retryPolicy step).count ∧
  (∀ a : Nat, 1 ≤ a → a ≤ k → (gw i a).isError = true) ∧
  gw i (k + 1) = .ok data

/-- A step with integer retry members, as a step of `JsonOrchestrator`. -/
def ofStep (step : Orchestrator.Step) : Step :=
  { command := step.command, payload := step.payload,
    retryCount := step.retryCount.map (fun c => (c : ℚ)),
    retryDelay := step.retryDelay.map (fun d => (d : ℚ)) }

/-- A result entry of `Orchestrator`, as an entry of `JsonOrchestrator`. -/
def ofEntry (entry : Orchestrator.ResultEntry) : ResultEntry :=
  { step := entry.step, attempt := (entry.attempt : ℚ), status := entry.status,
    result := entry.result, error := entry.error }

/-- An event of `Orchestrator`, as an event of `JsonOrchestrator`. -/
def ofEvent : Orchestrator.Event → Event
  | .dispatch step attempt command payload => .dispatch step attempt command payload
  | .wait ms => .wait (ms : ℚ)

/-- A reply of `Orchestrator`, as a reply of `JsonOrchestrator`. -/
def ofReply : Orchestrator.Reply → Reply
  | .badRequest error => .badRequest error
  | .failed message results => .failed message (results.map ofEntry)
  | .completed message results => .completed message (results.map ofEntry)

/-- A run of `Orchestrator`, as a run of `JsonOrchestrator`. -/
def ofRun (run : Orchestrator.Run) : Run :=
  { reply :=
      match run.reply with
      | .ok reply => .ok (ofReply reply)
      | .error message => .error message,
    results := run.results.map ofEntry, trace := run.trace.map ofEvent }

end JsonOrchestrator

/-! ## Properties of `POST /orchestrate` -/

namespace Orchestrator

theorem attemptLoop_rejected (gw : Gateway) (i : Nat) (step : Step) (policy : RetryPolicy) :
    ∀ (k r attempt : Nat) (st : AttemptState),
      (∀ a : Nat, attempt ≤ a → a < attempt + k → (gw i a).isError = true) →
      ∃ le : Option (Option String),
        (0 < k → le.isSome = true) ∧ (k = 0 → le = st.lastError) ∧
        attemptLoop gw i step policy (k + r) attempt st =
          attemptLoop gw i step policy r (attempt + k)
            { results := st.results, trace := st.trace ++ failEvents i step policy k attempt,
              lastError := le, success := st.success } := by
  intro k
  induction k with
  | zero =>
    intro r attempt st _
    exact ⟨st.lastError, by simp, by simp, by simp [failEvents]⟩
  | succ k ih =>
    intro r attempt st h
    have h0 : (gw i attempt).isError = true := h attempt (le_refl _) (by omega)
    obtain ⟨resp, hresp⟩ : ∃ resp, gw i attempt = .error resp := by
      cases hg : gw i attempt with
      | ok data => rw [hg] at h0; simp [Outcome.isError] at h0
      | error resp => exact ⟨resp, rfl⟩
    obtain ⟨le, hle1, hle0, heq⟩ := ih r (attempt + 1)
      { st with
        trace := (if 0 < policy.delay ∧ (attempt : Int) < policy.count then
            (st.trace ++ [Event.dispatch (i + 1) attempt step.command step.payload]) ++
              [Event.wait policy.delay]
          else st.trace ++ [Event.dispatch (i + 1) attempt step.command step.payload]),
        lastError := some resp }
      (fun a ha1 ha2 => h a (by omega) (by omega))
    refine ⟨if k = 0 then some resp else le, ?_, by omega, ?_⟩
    · intro _
      by_cases hk : k = 0
      · simp [hk]
      · simp only [hk, if_false]
        exact hle1 (by omega)
    · have hshape : k + 1 + r = (k + r) + 1 := by omega
      rw [hshape]
      simp only [attemptLoop, hresp]
      rw [heq]
      have hidx : attempt + 1 + k = attempt + (k + 1) := by omega
      rw [hidx]
      congr 1
      by_cases hk : k = 0
      · subst hk
        simp only [if_true]
        rw [hle0 rfl]
        by_cases hc : 0 < policy.delay ∧ (attempt : Int) < policy.count
        · simp [failEvents, hc]
        · simp [failEvents, hc]
      · simp only [hk, if_false]
        by_cases hc : 0 < policy.delay ∧ (attempt : Int) < policy.count
        · simp [failEvents, hc]
        · simp [failEvents, hc]

theorem attemptLoop_resolves (gw : Gateway) (i : Nat) (step : Step) (k : Nat) (data : String)
    (h : SucceedsAfter gw i step k data) (results : List ResultEntry) (trace : List Event) :
    ∃ le : Option (Option String),
      attemptLoop gw i step (retryPolicy step) (retryPolicy step).count.toNat 1
          { results := results, trace := trace, lastError := none, success := false } =
        { results := results ++ [⟨i + 1, ((k + 1 : Nat) : Int), "success", some data, none⟩],
          trace := trace ++ successEvents i step k, lastError := le, success := true } := by
  obtain ⟨hk, hrej, hok⟩ := h
  obtain ⟨r, hr⟩ : ∃ r, (retryPolicy step).count.toNat = k + (r + 1) :=
    ⟨(retryPolicy step).count.toNat - k - 1, by omega⟩
  obtain ⟨le, _, _, heq⟩ := attemptLoop_rejected gw i step (retryPolicy step) k (r + 1) 1
    { results := results, trace := trace, lastError := none, success := false }
    (fun a ha1 ha2 => hrej a ha1 (by omega))
  refine ⟨le, ?_⟩
  rw [hr, heq]
  have hidx : 1 + k = k + 1 := by omega
  simp only [attemptLoop, hidx, hok, successEvents, List.append_assoc]

theorem attemptLoop_exhausted (gw : Gateway) (i : Nat) (step : Step)
    (hcount : 1 ≤ (retryPolicy step).count)
    (hrej : ∀ a : Nat, 1 ≤ a → (a : Int) ≤ (retryPolicy step).count → (gw i a).isError = true)
    (results : List ResultEntry) (trace : List Event) :
    ∃ response : Option String,
      attemptLoop gw i step (retryPolicy step) (retryPolicy step).count.toNat 1
          { results := results, trace := trace, lastError := none, success := false } =
        { results := results,
          trace := trace ++
            failEvents i step (retryPolicy step) (retryPolicy step).count.toNat 1,
          lastError := some response, success := false } := by
  obtain ⟨le, hsome, _, heq⟩ := attemptLoop_rejected gw i step (retryPolicy step)
    (retryPolicy step).count.toNat 0 1
    { results := results, trace := trace, lastError := none, success := false }
    (fun a ha1 ha2 => hrej a ha1 (by omega))
  have hpos : 0 < (retryPolicy step).count.toNat := by omega
  obtain ⟨response, hresp⟩ := Option.isSome_iff_exists.mp (hsome hpos)
  refine ⟨response, ?_⟩
  rw [Nat.add_zero] at heq
  rw [heq, hresp]
  simp [attemptLoop]

theorem stepLoop_prefix (gw : Gateway) (k : Nat → Nat) (d : Nat → String) :
    ∀ (pre rest : List Step) (i : Nat) (results : List ResultEntry) (trace : List Event),
      (∀ (j : Nat) (s : Step), pre[j]? = some s → SucceedsAfter gw (i + j) s (k (i + j)) (d (i + j))) →
      stepLoop gw (pre ++ rest) i results trace =
        stepLoop gw rest (i + pre.length) (results ++ prefixEntries k d pre i)
          (trace ++ prefixEvents k pre i) := by
  intro pre
  induction pre with
  | nil => intro rest i results trace _; simp [prefixEntries, prefixEvents]
  | cons step pre ih =>
    intro rest i results trace h
    obtain ⟨le, hle⟩ := attemptLoop_resolves gw i step (k i) (d i)
      (by simpa using h 0 step (by simp)) results trace
    have hrest : ∀ (j : Nat) (s : Step), pre[j]? = some s →
        SucceedsAfter gw (i + 1 + j) s (k (i + 1 + j)) (d (i + 1 + j)) := by
      intro j s hj
      have := h (j + 1) s (by simpa using hj)
      have hidx : i + (j + 1) = i + 1 + j := by omega
      rwa [hidx] at this
    have hlen : i + (step :: pre).length = i + 1 + pre.length := by simp; omega
    simp only [List.cons_append, stepLoop, hle, if_true, List.append_eq]
    rw [ih rest (i + 1) _ _ hrest, hlen]
    simp [prefixEntries, prefixEvents, List.append_assoc]

theorem failEvents_filter (i : Nat) (step : Step) (policy : RetryPolicy) (s : Nat) :
    ∀ (k attempt : Nat),
      ((failEvents i step policy k attempt).filter (Event.isDispatchOf s)).length =
        if s = i + 1 then k else 0 := by
  intro k
  induction k with
  | zero => intro attempt; simp [failEvents]
  | succ k ih =>
    intro attempt
    by_cases hs : s = i + 1
    · subst hs
      have ih2 := ih (attempt + 1)
      simp only [if_true] at ih2
      by_cases hc : 0 < policy.delay ∧ (attempt : Int) < policy.count
      · simp [failEvents, List.filter_cons, Event.isDispatchOf, hc, ih2]
      · simp [failEvents, List.filter_cons, Event.isDispatchOf, hc, ih2]
    · have hs2 : ¬ i + 1 = s := fun h => hs h.symm
      by_cases hc : 0 < policy.delay ∧ (attempt : Int) < policy.count
      · simp [failEvents, List.filter_cons, Event.isDispatchOf, hs, hs2, hc, ih]
      · simp [failEvents, List.filter_cons, Event.isDispatchOf, hs, hs2, hc, ih]

theorem successEvents_filter (i : Nat) (step : Step) (k s : Nat) :
    ((successEvents i step k).filter (Event.isDispatchOf s)).length =
      if s = i + 1 then k + 1 else 0 := by
  by_cases hs : s = i + 1
  · simp [successEvents, List.filter_append, failEvents_filter, Event.isDispatchOf, hs]
  · have hs2 : ¬ i + 1 = s := fun h => hs h.symm
    simp [successEvents, List.filter_append, failEvents_filter, Event.isDispatchOf, hs, hs2]

theorem prefixEvents_filter (k : Nat → Nat) (s : Nat) :
    ∀ (pre : List Step) (i : Nat),
      ((prefixEvents k pre i).filter (Event.isDispatchOf s)).length =
        if i < s ∧ s ≤ i + pre.length then k (s - 1) + 1 else 0 := by
  intro pre
  induction pre with
  | nil =>
    intro i
    have h3 : ¬ (i < s ∧ s ≤ i) := by omega
    simp [prefixEvents, h3]
  | cons step pre ih =>
    intro i
    simp only [prefixEvents, List.filter_append, List.length_append, successEvents_filter, ih,
      List.length_cons]
    by_cases h1 : s = i + 1
    · subst h1; simp
    · by_cases h2 : i + 1 < s ∧ s ≤ i + 1 + pre.length
      · have h3 : i < s ∧ s ≤ i + (pre.length + 1) := by omega
        simp [h1, h2, h3]
      · have h3 : ¬ (i < s ∧ s ≤ i + (pre.length + 1)) := by omega
        simp [h1, h2, h3]

theorem prefixEntries_filter (k : Nat → Nat) (d : Nat → String) (s : Nat) :
    ∀ (pre : List Step) (i : Nat),
      (prefixEntries k d pre i).filter (fun e => e.step = s) =
        if i < s ∧ s ≤ i + pre.length then
          [⟨s, ((k (s - 1) + 1 : Nat) : Int), "success", some (d (s - 1)), none⟩]
        else [] := by
  intro pre
  induction pre with
  | nil =>
    intro i
    have h3 : ¬ (i < s ∧ s ≤ i) := by omega
    simp [prefixEntries, h3]
  | cons step pre ih =>
    intro i
    simp only [prefixEntries, List.filter_cons, ih, List.length_cons]
    by_cases h1 : i + 1 = s
    · subst h1; simp
    · by_cases h2 : i + 1 < s ∧ s ≤ i + 1 + pre.length
      · have h3 : i < s ∧ s ≤ i + (pre.length + 1) := by omega
        simp [h1, h2, h3]
      · have h3 : ¬ (i < s ∧ s ≤ i + (pre.length + 1)) := by omega
        simp [h1, h2, h3]

theorem attemptLoop_extends (gw : Gateway) (i : Nat) (step : Step) (policy : RetryPolicy) :
    ∀ (remaining attempt : Nat) (st : AttemptState),
      ∃ (rs : List ResultEntry) (es : List Event),
        (attemptLoop gw i step policy remaining attempt st).results = st.results ++ rs ∧
        (attemptLoop gw i step policy remaining attempt st).trace = st.trace ++ es ∧
        (∀ s, s ≠ i + 1 → es.filter (Event.isDispatchOf s) = []) ∧
        (∀ e ∈ rs, e.step = i + 1) ∧
        (0 < remaining → Event.dispatch (i + 1) attempt step.command step.payload ∈ es) := by
  intro remaining
  induction remaining with
  | zero => intro attempt st; exact ⟨[], [], by simp [attemptLoop]⟩
  | succ r ih =>
    intro attempt st
    have hd : ∀ s, s ≠ i + 1 →
        Event.isDispatchOf s (Event.dispatch (i + 1) attempt step.command step.payload) = false := by
      intro s hs
      simp only [Event.isDispatchOf, beq_eq_false_iff_ne, ne_eq]
      exact fun h => hs h.symm
    cases hg : gw i attempt with
    | ok data =>
      refine ⟨[⟨i + 1, attempt, "success", some data, none⟩],
        [Event.dispatch (i + 1) attempt step.command step.payload], ?_, ?_, ?_, ?_, ?_⟩
      · simp [attemptLoop, hg]
      · simp [attemptLoop, hg]
      · intro s hs; simp [List.filter_cons, hd s hs]
      · simp
      · simp
    | error resp =>
      by_cases hc : 0 < policy.delay ∧ (attempt : Int) < policy.count
      · obtain ⟨rs, es, h1, h2, h3, h4, _⟩ := ih (attempt + 1)
          { st with
            trace := (st.trace ++ [Event.dispatch (i + 1) attempt step.command step.payload]) ++
              [Event.wait policy.delay],
            lastError := some resp }
        refine ⟨rs, Event.dispatch (i + 1) attempt step.command step.payload ::
          Event.wait policy.delay :: es, ?_, ?_, ?_, h4, ?_⟩
        · simp only [attemptLoop, hg, hc, and_self, if_true]; rw [h1]
        · simp only [attemptLoop, hg, hc, and_self, if_true]; rw [h2]; simp
        · intro s hs
          have hw : Event.isDispatchOf s (Event.wait policy.delay) = false := rfl
          simp [List.filter_cons, hd s hs, hw, h3 s hs]
        · simp
      · obtain ⟨rs, es, h1, h2, h3, h4, _⟩ := ih (attempt + 1)
          { st with
            trace := st.trace ++ [Event.dispatch (i + 1) attempt step.command step.payload],
            lastError := some resp }
        refine ⟨rs, Event.dispatch (i + 1) attempt step.command step.payload :: es,
          ?_, ?_, ?_, h4, ?_⟩
        · simp only [attemptLoop, hg, hc, if_false]; rw [h1]
        · simp only [attemptLoop, hg, hc, if_false]; rw [h2]; simp
        · intro s hs; simp [List.filter_cons, hd s hs, h3 s hs]
        · simp

theorem stepLoop_extends (gw : Gateway) :
    ∀ (steps : List Step) (i : Nat) (results : List ResultEntry) (trace : List Event),
      ∃ (rs : List ResultEntry) (es : List Event),
        (stepLoop gw steps i results trace).results = results ++ rs ∧
        (stepLoop gw steps i results trace).trace = trace ++ es ∧
        (∀ s, s ≤ i → es.filter (Event.isDispatchOf s) = []) ∧
        (∀ e ∈ rs, i < e.step) ∧
        (∀ step rest, steps = step :: rest → 1 ≤ (retryPolicy step).count →
          Event.dispatch (i + 1) 1 step.command step.payload ∈ es) := by
  intro steps
  induction steps with
  | nil =>
    intro i results trace
    exact ⟨[], [], by simp [stepLoop]⟩
  | cons step rest ih =>
    intro i results trace
    obtain ⟨rs, es, h1, h2, h3, h4, h5⟩ := attemptLoop_extends gw i step (retryPolicy step)
      (retryPolicy step).count.toNat 1
      { results := results, trace := trace, lastError := none, success := false }
    simp only at h1 h2
    have hfirst : ∀ step2 rest2, step :: rest = step2 :: rest2 → 1 ≤ (retryPolicy step2).count →
        ∀ es2 : List Event, Event.dispatch (i + 1) 1 step2.command step2.payload ∈ es ++ es2 := by
      intro step2 rest2 heq hcount es2
      obtain ⟨rfl, _⟩ := List.cons.inj heq
      exact List.mem_append_left _ (h5 (by omega))
    by_cases hs : (attemptLoop gw i step (retryPolicy step) (retryPolicy step).count.toNat 1
        { results := results, trace := trace, lastError := none, success := false }).success = true
    · obtain ⟨rs2, es2, g1, g2, g3, g4, _⟩ := ih (i + 1) (results ++ rs) (trace ++ es)
      refine ⟨rs ++ rs2, es ++ es2, ?_, ?_, ?_, ?_, ?_⟩
      · simp only [stepLoop, hs, if_true, h1, h2, g1, List.append_assoc]
      · simp only [stepLoop, hs, if_true, h1, h2, g2, List.append_assoc]
      · intro s hsi
        rw [List.filter_append, h3 s (by omega), g3 s (by omega)]; rfl
      · intro e he
        rcases List.mem_append.mp he with he | he
        · have := h4 e he; omega
        · have := g4 e he; omega
      · intro step2 rest2 heq hcount
        exact hfirst step2 rest2 heq hcount es2
    · cases hle : (attemptLoop gw i step (retryPolicy step) (retryPolicy step).count.toNat 1
          { results := results, trace := trace, lastError := none, success := false }).lastError with
      | none =>
        refine ⟨rs, es, ?_, ?_, ?_, ?_, ?_⟩
        · simp only [stepLoop, hs, hle]; simpa using h1
        · simp only [stepLoop, hs, hle]; simpa using h2
        · intro s hsi; exact h3 s (by omega)
        · intro e he; have := h4 e he; omega
        · intro step2 rest2 heq hcount
          simpa using hfirst step2 rest2 heq hcount []
      | some response =>
        refine ⟨rs ++ [⟨i + 1, (retryPolicy step).count, "failed", none,
          some (response.getD "Communication error")⟩], es, ?_, ?_, ?_, ?_, ?_⟩
        · simp only [stepLoop, hs, hle]; simp [h1]
        · simp only [stepLoop, hs, hle]; simpa using h2
        · intro s hsi; exact h3 s (by omega)
        · intro e he
          rcases List.mem_append.mp he with he | he
          · have := h4 e he; omega
          · simp at he; subst he; simp
        · intro step2 rest2 heq hcount
          simpa using hfirst step2 rest2 heq hcount []

theorem prefixEntries_eq_map (k : Nat → Nat) (d : Nat → String) :
    ∀ (pre : List Step) (i : Nat),
      prefixEntries k d pre i =
        (List.range pre.length).map
          (fun j => ⟨i + j + 1, ((k (i + j) + 1 : Nat) : Int), "success", some (d (i + j)), none⟩) := by
  intro pre
  induction pre with
  | nil => intro i; simp [prefixEntries]
  | cons step pre ih =>
    intro i
    simp only [prefixEntries, ih, List.length_cons, List.range_succ_eq_map, List.map_cons,
      List.map_map]
    refine congrArg₂ _ (by simp) ?_
    apply List.map_congr_left
    intro j _
    have h1 : i + 1 + j = i + (j + 1) := by omega
    simp only [Function.comp, h1]

theorem split_at_index (steps : List Step) (n : Nat) (s : Step) (hn : steps[n]? = some s) :
    steps = steps.take n ++ s :: steps.drop (n + 1) ∧ (steps.take n).length = n := by
  obtain ⟨hlt, hget⟩ := List.getElem?_eq_some.mp hn
  refine ⟨?_, ?_⟩
  · conv_lhs => rw [← List.take_append_drop n steps, List.drop_eq_getElem_cons hlt, hget]
  · rw [List.length_take]; omega

theorem dispatch_mem_filter (l : List Event) (s a : Nat) (c p : String)
    (h : Event.dispatch s a c p ∈ l) : 0 < (l.filter (Event.isDispatchOf s)).length := by
  apply List.length_pos_of_mem (a := Event.dispatch s a c p)
  exact List.mem_filter.mpr ⟨h, by simp [Event.isDispatchOf]⟩

/-- C1: in `POST /orchestrate` with a present instanceId, when the step at index `n`
(step number `n + 1`) has a retry count of at least 1 and is the first step all of
whose attempts are rejected, the handler answers 500 with exactly `n + 1` result
entries, a success entry for each of the steps `1..n` followed by a failed entry for
step `n + 1`, and no dispatch is issued for a later step. -/
theorem orchestrate_aborts_at_first_exhausted_step
    (gw : Gateway) (instanceId : String) (steps : List Step) (n : Nat) (failing : Step)
    (hid : instanceId ≠ "")
    (hn : steps[n]? = some failing)
    (hcount : 1 ≤ (retryPolicy failing).count)
    (hfail : ∀ a : Nat, 1 ≤ a → (a : Int) ≤ (retryPolicy failing).count →
      (gw n a).isError = true)
    (hfirst : ∀ (j : Nat) (s : Step), j < n → steps[j]? = some s →
      ∃ a : Nat, 1 ≤ a ∧ (a : Int) ≤ (retryPolicy s).count ∧ (gw j a).isError = false) :
    ∃ (message : String) (results : List ResultEntry),
      (orchestrate gw ⟨some instanceId, some steps⟩).reply = .ok (.failed message results) ∧
      (Reply.failed message results).status = 500 ∧
      results.length = n + 1 ∧
      results.map (fun e => (e.step, e.status)) =
        (List.range n).map (fun j => (j + 1, "success")) ++ [(n + 1, "failed")] ∧
      (∀ (s a : Nat) (c p : String),
        Event.dispatch s a c p ∈ (orchestrate gw ⟨some instanceId, some steps⟩).trace →
          s ≤ n + 1) := by
  classical
  -- number of rejected attempts before the first resolved one, and its data
  let k : Nat → Nat := fun j =>
    if h : ∃ a : Nat, 1 ≤ a ∧ (gw j a).isError = false then Nat.find h - 1 else 0
  let d : Nat → String := fun j =>
    match gw j (k j + 1) with
    | .ok data => data
    | .error _ => ""
  obtain ⟨hsplit, hlen⟩ := split_at_index steps n failing hn
  have hpre : ∀ (j : Nat) (s : Step), (steps.take n)[j]? = some s →
      SucceedsAfter gw (0 + j) s (k (0 + j)) (d (0 + j)) := by
    intro j s hj
    rw [List.getElem?_take] at hj
    by_cases hjn : j < n
    · rw [if_pos hjn] at hj
      obtain ⟨a, ha1, ha2, ha3⟩ := hfirst j s hjn hj
      have hex : ∃ a : Nat, 1 ≤ a ∧ (gw j a).isError = false := ⟨a, ha1, ha3⟩
      have hk : k j = Nat.find hex - 1 := by simp only [k, dif_pos hex]
      have hspec := Nat.find_spec hex
      have hle : Nat.find hex ≤ a := Nat.find_le ⟨ha1, ha3⟩
      have hk1 : k j + 1 = Nat.find hex := by omega
      rw [Nat.zero_add]
      refine ⟨by omega, ?_, ?_⟩
      · intro b hb1 hb2
        have hmin := Nat.find_min hex (m := b) (by omega)
        cases hb : (gw j b).isError with
        | true => rfl
        | false => exact absurd ⟨hb1, hb⟩ hmin
      · have hok : (gw j (k j + 1)).isError = false := by rw [hk1]; exact hspec.2
        show gw j (k j + 1) = .ok (match gw j (k j + 1) with | .ok data => data | .error _ => "")
        cases hg : gw j (k j + 1) with
        | ok data => rfl
        | error r => rw [hg] at hok; simp [Outcome.isError] at hok
    · rw [if_neg hjn] at hj; exact absurd hj (by simp)
  obtain ⟨response, hex⟩ := attemptLoop_exhausted gw n failing hcount hfail
    (prefixEntries k d (steps.take n) 0) (prefixEvents k (steps.take n) 0)
  have hrun : orchestrate gw ⟨some instanceId, some steps⟩ =
      stepLoop gw (failing :: steps.drop (n + 1)) n
        (prefixEntries k d (steps.take n) 0) (prefixEvents k (steps.take n) 0) := by
    have h := stepLoop_prefix gw k d (steps.take n) (failing :: steps.drop (n + 1)) 0 [] [] hpre
    rw [← hsplit, hlen, Nat.zero_add, List.nil_append, List.nil_append] at h
    simp only [orchestrate, hid, if_false]
    exact h
  rw [hrun]
  simp only [stepLoop, hex, Bool.false_eq_true, ↓reduceIte]
  refine ⟨_, _, rfl, rfl, ?_, ?_, ?_⟩
  · simp [prefixEntries_eq_map, hlen]
  · simp [prefixEntries_eq_map, hlen, Function.comp_def]
  · intro s a c p hmem
    have hpos := dispatch_mem_filter _ s a c p hmem
    simp only [List.filter_append, List.length_append,
      prefixEvents_filter, failEvents_filter, hlen] at hpos
    by_contra hgt
    have h1 : ¬ (0 < s ∧ s ≤ 0 + n) := by omega
    have h2 : ¬ s = n + 1 := by omega
    rw [if_neg h1, if_neg h2] at hpos
    omega

/-- Witness of C1: three steps, the first resolving on its second attempt, the second
rejected on both of its attempts; the third is never dispatched. -/
theorem orchestrate_aborts_at_first_exhausted_step_witness :
    ∃ (message : String) (results : List ResultEntry),
      (orchestrate (fun i a => if i = 0 ∧ a = 2 then .ok "done" else .error none)
        ⟨some "inst-1", some [⟨"shell", "p", some 2, none⟩, ⟨"install", "q", some 2, some 0⟩,
          ⟨"launch", "r", none, none⟩]⟩).reply = .ok (.failed message results) ∧
      (Reply.failed message results).status = 500 ∧
      results.length = 1 + 1 ∧
      results.map (fun e => (e.step, e.status)) =
        (List.range 1).map (fun j => (j + 1, "success")) ++ [(1 + 1, "failed")] ∧
      (∀ (s a : Nat) (c p : String),
        Event.dispatch s a c p ∈
          (orchestrate (fun i a => if i = 0 ∧ a = 2 then .ok "done" else .error none)
            ⟨some "inst-1", some [⟨"shell", "p", some 2, none⟩,
              ⟨"install", "q", some 2, some 0⟩, ⟨"launch", "r", none, none⟩]⟩).trace →
          s ≤ 1 + 1) :=
  orchestrate_aborts_at_first_exhausted_step
    (fun i a => if i = 0 ∧ a = 2 then .ok "done" else .error none) "inst-1"
    [⟨"shell", "p", some 2, none⟩, ⟨"install", "q", some 2, some 0⟩, ⟨"launch", "r", none, none⟩]
    1 ⟨"install", "q", some 2, some 0⟩ (by decide) (by simp) (by decide)
    (by intro a _ _; simp [Outcome.isError])
    (by
      intro j s hj hs
      have hj0 : j = 0 := by omega
      subst hj0
      simp only [List.getElem?_cons_zero, Option.some.injEq] at hs
      subst hs
      exact ⟨2, by decide, by decide, by simp [Outcome.isError]⟩)

/-- C2: in `POST /orchestrate` with a present instanceId, when each of the steps at
indices `0..n` is rejected on its first `k j` attempts (`k j` below its retry count)
and resolves on attempt `k j + 1`, each such step is dispatched exactly `k j + 1`
times and gets exactly one result entry, with attempt `k j + 1` and status success;
the handler then goes on to the next step, and when step `n + 1` was the last one it
answers 200 with exactly one entry per step, in step order. -/
theorem orchestrate_retries_until_success
    (gw : Gateway) (instanceId : String) (steps : List Step) (k : Nat → Nat) (d : Nat → String)
    (n : Nat)
    (hid : instanceId ≠ "")
    (hn : n < steps.length)
    (hsucc : ∀ (j : Nat) (s : Step), j ≤ n → steps[j]? = some s →
      (k j : Int) < (retryPolicy s).count ∧
      (∀ a : Nat, 1 ≤ a → a ≤ k j → (gw j a).isError = true) ∧
      gw j (k j + 1) = .ok (d j)) :
    (∀ j : Nat, j ≤ n →
      ((orchestrate gw ⟨some instanceId, some steps⟩).trace.filter
        (Event.isDispatchOf (j + 1))).length = k j + 1) ∧
    (∀ j : Nat, j ≤ n →
      (orchestrate gw ⟨some instanceId, some steps⟩).results.filter (fun e => e.step = j + 1) =
        [⟨j + 1, ((k j + 1 : Nat) : Int), "success", some (d j), none⟩]) ∧
    (∀ s : Step, steps[n + 1]? = some s → 1 ≤ (retryPolicy s).count →
      Event.dispatch (n + 2) 1 s.command s.payload ∈
        (orchestrate gw ⟨some instanceId, some steps⟩).trace) ∧
    (n + 1 = steps.length →
      (orchestrate gw ⟨some instanceId, some steps⟩).reply =
        .ok (.completed "Orchestration completed successfully"
          ((List.range steps.length).map
            (fun j => ⟨j + 1, ((k j + 1 : Nat) : Int), "success", some (d j), none⟩))) ∧
      (Reply.completed "Orchestration completed successfully"
          ((List.range steps.length).map
            (fun j => ⟨j + 1, ((k j + 1 : Nat) : Int), "success", some (d j), none⟩))).status =
        200) := by
  have hsplit : steps = steps.take (n + 1) ++ steps.drop (n + 1) :=
    (List.take_append_drop (n + 1) steps).symm
  have hlen : (steps.take (n + 1)).length = n + 1 := by rw [List.length_take]; omega
  have hpre : ∀ (j : Nat) (s : Step), (steps.take (n + 1))[j]? = some s →
      SucceedsAfter gw (0 + j) s (k (0 + j)) (d (0 + j)) := by
    intro j s hj
    rw [List.getElem?_take] at hj
    by_cases hjn : j < n + 1
    · rw [if_pos hjn] at hj
      rw [Nat.zero_add]
      exact hsucc j s (by omega) hj
    · rw [if_neg hjn] at hj; exact absurd hj (by simp)
  have hrun : orchestrate gw ⟨some instanceId, some steps⟩ =
      stepLoop gw (steps.drop (n + 1)) (n + 1)
        (prefixEntries k d (steps.take (n + 1)) 0) (prefixEvents k (steps.take (n + 1)) 0) := by
    have h := stepLoop_prefix gw k d (steps.take (n + 1)) (steps.drop (n + 1)) 0 [] [] hpre
    rw [← hsplit, hlen, Nat.zero_add, List.nil_append, List.nil_append] at h
    simp only [orchestrate, hid, if_false]
    exact h
  obtain ⟨rs, es, h1, h2, h3, h4, h5⟩ := stepLoop_extends gw (steps.drop (n + 1)) (n + 1)
    (prefixEntries k d (steps.take (n + 1)) 0) (prefixEvents k (steps.take (n + 1)) 0)
  rw [hrun]
  refine ⟨?_, ?_, ?_, ?_⟩
  · intro j hj
    have hin : 0 < j + 1 ∧ j + 1 ≤ 0 + (n + 1) := by omega
    rw [h2, List.filter_append, List.length_append, prefixEvents_filter, hlen, if_pos hin,
      h3 (j + 1) (by omega)]
    simp
  · intro j hj
    have hin : 0 < j + 1 ∧ j + 1 ≤ 0 + (n + 1) := by omega
    have hrs : rs.filter (fun e => decide (e.step = j + 1)) = [] := by
      apply List.filter_eq_nil_iff.mpr
      intro e he
      have := h4 e he
      simp only [decide_eq_true_eq]
      omega
    rw [h1, List.filter_append, prefixEntries_filter, hlen, if_pos hin, hrs]
    simp
  · intro s hs hcount
    obtain ⟨hlt, hget⟩ := List.getElem?_eq_some.mp hs
    have hdrop : steps.drop (n + 1) = s :: steps.drop (n + 1 + 1) := by
      rw [List.drop_eq_getElem_cons hlt, hget]
    rw [h2]
    exact List.mem_append_right _ (h5 s _ hdrop hcount)
  · intro hlast
    have hnil : steps.drop (n + 1) = [] := by
      apply List.drop_eq_nil_of_le; omega
    have htake : steps.take (n + 1) = steps := by
      apply List.take_of_length_le; omega
    rw [hnil, htake]
    refine ⟨?_, rfl⟩
    simp only [stepLoop, prefixEntries_eq_map, Nat.zero_add]

/-- Witness of C2: two steps, the first with retry `{count: 2, delay: 0}` rejected once;
step 1 is recorded with attempt 2, step 2 with attempt 1, and the answer is 200. -/
theorem orchestrate_retries_until_success_witness :
    (orchestrate (fun i a => if i = 0 ∧ a = 1 then .error none else .ok "done")
        ⟨some "inst-1", some [⟨"shell", "p", some 2, some 0⟩, ⟨"launch", "q", none, none⟩]⟩).reply =
      .ok (.completed "Orchestration completed successfully"
        [⟨1, 2, "success", some "done", none⟩, ⟨2, 1, "success", some "done", none⟩]) ∧
    (Reply.completed "Orchestration completed successfully"
        [⟨1, 2, "success", some "done", none⟩, ⟨2, 1, "success", some "done", none⟩]).status = 200 :=
  (orchestrate_retries_until_success
    (fun i a => if i = 0 ∧ a = 1 then .error none else .ok "done") "inst-1"
    [⟨"shell", "p", some 2, some 0⟩, ⟨"launch", "q", none, none⟩]
    (fun j => if j = 0 then 1 else 0) (fun _ => "done") 1 (by decide) (by decide)
    (by
      intro j s hj hs
      have hj2 : j = 0 ∨ j = 1 := by omega
      rcases hj2 with rfl | rfl
      · simp only [List.getElem?_cons_zero, Option.some.injEq] at hs
        subst hs
        refine ⟨by decide, ?_, by simp⟩
        intro a ha1 ha2
        have ha : a = 1 := by simp at ha2; omega
        subst ha
        simp [Outcome.isError]
      · simp only [List.getElem?_cons_succ, List.getElem?_cons_zero, Option.some.injEq] at hs
        subst hs
        refine ⟨by decide, ?_, by simp⟩
        intro a ha1 ha2
        simp at ha2
        omega)).2.2.2 rfl

end Orchestrator

/-! ## Properties of `executeWorkflow` -/

namespace Workflows

theorem runSteps_returns (gw : Gateway) (workflowId instanceId : String)
    (payloadValues : JsObject) (options : Options) (total : Nat) :
    ∀ (steps : List WorkflowStep) (stepIndex : Nat) (results : List StepResult)
      (trace : List Event),
      ∃ run, (runSteps gw workflowId instanceId payloadValues options total steps stepIndex
        results trace).outcome = .ok run := by
  intro steps
  induction steps with
  | nil => intro stepIndex results trace; exact ⟨_, rfl⟩
  | cons step rest ih =>
    intro stepIndex results trace
    cases hg : gw stepIndex with
    | error message => simp only [runSteps, hg]; exact ⟨_, rfl⟩
    | ok data => simp only [runSteps, hg]; exact ih _ _ _

theorem filter_waited (options : Options) (stepIndex total : Nat) (sent : List Event) :
    (match options.stepDelay with
      | some ms => if ms ≠ 0 ∧ stepIndex + 1 < total then sent ++ [Event.wait ms] else sent
      | none => sent).filter Event.isDispatch = sent.filter Event.isDispatch := by
  cases options.stepDelay with
  | none => rfl
  | some ms =>
    by_cases h : ms ≠ 0 ∧ stepIndex + 1 < total
    · show (if ms ≠ 0 ∧ stepIndex + 1 < total then sent ++ [Event.wait ms] else sent).filter
        Event.isDispatch = _
      rw [if_pos h, List.filter_append]
      simp [Event.isDispatch]
    · show (if ms ≠ 0 ∧ stepIndex + 1 < total then sent ++ [Event.wait ms] else sent).filter
        Event.isDispatch = _
      rw [if_neg h]

theorem runSteps_completed (gw : Gateway) (workflowId instanceId : String)
    (payloadValues : JsObject) (options : Options) (total : Nat) (d : Nat → String) :
    ∀ (steps : List WorkflowStep) (stepIndex : Nat) (results : List StepResult)
      (trace : List Event),
      (∀ j : Nat, j < steps.length → gw (stepIndex + j) = .ok (d (stepIndex + j))) →
      (runSteps gw workflowId instanceId payloadValues options total steps stepIndex
          results trace).outcome =
        .ok ⟨workflowId, instanceId, "completed", none,
          results ++ (steps.enumFrom stepIndex).map (fun p =>
            ⟨p.1, p.2.name, p.2.command, mergePayload p.2.payloadTemplate payloadValues, d p.1⟩),
          none⟩ ∧
      (runSteps gw workflowId instanceId payloadValues options total steps stepIndex
          results trace).trace.filter Event.isDispatch =
        trace.filter Event.isDispatch ++ steps.map (fun s =>
          Event.dispatch instanceId s.command (mergePayload s.payloadTemplate payloadValues)) := by
  intro steps
  induction steps with
  | nil => intro stepIndex results trace _; simp [runSteps]
  | cons step rest ih =>
    intro stepIndex results trace h
    have h0 : gw stepIndex = .ok (d stepIndex) := by simpa using h 0 (by simp)
    have hrest : ∀ j : Nat, j < rest.length →
        gw (stepIndex + 1 + j) = .ok (d (stepIndex + 1 + j)) := by
      intro j hj
      have := h (j + 1) (by simp; omega)
      have hidx : stepIndex + (j + 1) = stepIndex + 1 + j := by omega
      rwa [hidx] at this
    simp only [runSteps, h0]
    obtain ⟨g1, g2⟩ := ih (stepIndex + 1) (results ++
      [⟨stepIndex, step.name, step.command, mergePayload step.payloadTemplate payloadValues,
        d stepIndex⟩]) (match options.stepDelay with
      | some ms =>
        if ms ≠ 0 ∧ stepIndex + 1 < total then
          (trace ++ [Event.dispatch instanceId step.command
            (mergePayload step.payloadTemplate payloadValues)]) ++ [Event.wait ms]
        else trace ++ [Event.dispatch instanceId step.command
            (mergePayload step.payloadTemplate payloadValues)]
      | none => trace ++ [Event.dispatch instanceId step.command
            (mergePayload step.payloadTemplate payloadValues)]) hrest
    refine ⟨?_, ?_⟩
    · rw [g1]; simp [List.enumFrom]
    · rw [g2, filter_waited]; simp [List.filter_append, Event.isDispatch]

theorem runSteps_failed (gw : Gateway) (workflowId instanceId : String)
    (payloadValues : JsObject) (options : Options) (total : Nat) (d : Nat → String)
    (message : String) :
    ∀ (steps : List WorkflowStep) (k stepIndex : Nat) (results : List StepResult)
      (trace : List Event),
      k < steps.length →
      (∀ j : Nat, j < k → gw (stepIndex + j) = .ok (d (stepIndex + j))) →
      gw (stepIndex + k) = .error message →
      (runSteps gw workflowId instanceId payloadValues options total steps stepIndex
          results trace).outcome =
        .ok ⟨workflowId, instanceId, "failed", some message,
          results ++ ((steps.take k).enumFrom stepIndex).map (fun p =>
            ⟨p.1, p.2.name, p.2.command, mergePayload p.2.payloadTemplate payloadValues, d p.1⟩),
          some (stepIndex + k)⟩ ∧
      (runSteps gw workflowId instanceId payloadValues options total steps stepIndex
          results trace).trace.filter Event.isDispatch =
        trace.filter Event.isDispatch ++ (steps.take (k + 1)).map (fun s =>
          Event.dispatch instanceId s.command (mergePayload s.payloadTemplate payloadValues)) := by
  intro steps
  induction steps with
  | nil => intro k stepIndex results trace hk; simp at hk
  | cons step rest ih =>
    intro k stepIndex results trace hk hok herr
    cases k with
    | zero =>
      rw [Nat.add_zero] at herr
      simp only [runSteps, herr]
      simp [List.filter_append, Event.isDispatch]
    | succ k =>
      have h0 : gw stepIndex = .ok (d stepIndex) := by simpa using hok 0 (by omega)
      have hrest : ∀ j : Nat, j < k → gw (stepIndex + 1 + j) = .ok (d (stepIndex + 1 + j)) := by
        intro j hj
        have := hok (j + 1) (by omega)
        have hidx : stepIndex + (j + 1) = stepIndex + 1 + j := by omega
        rwa [hidx] at this
      have herr2 : gw (stepIndex + 1 + k) = .error message := by
        have hidx : stepIndex + (k + 1) = stepIndex + 1 + k := by omega
        rwa [hidx] at herr
      simp only [runSteps, h0]
      obtain ⟨g1, g2⟩ := ih k (stepIndex + 1) (results ++
        [⟨stepIndex, step.name, step.command, mergePayload step.payloadTemplate payloadValues,
          d stepIndex⟩]) (match options.stepDelay with
        | some ms =>
          if ms ≠ 0 ∧ stepIndex + 1 < total then
            (trace ++ [Event.dispatch instanceId step.command
              (mergePayload step.payloadTemplate payloadValues)]) ++ [Event.wait ms]
          else trace ++ [Event.dispatch instanceId step.command
              (mergePayload step.payloadTemplate payloadValues)]
        | none => trace ++ [Event.dispatch instanceId step.command
              (mergePayload step.payloadTemplate payloadValues)])
        (by simpa using hk) hrest herr2
      refine ⟨?_, ?_⟩
      · rw [g1]
        have hidx : stepIndex + 1 + k = stepIndex + (k + 1) := by omega
        simp [List.enumFrom, hidx]
      · rw [g2, filter_waited]; simp [List.filter_append, Event.isDispatch]

theorem runSteps_dispatches (gw : Gateway) (workflowId instanceId : String)
    (payloadValues : JsObject) (options : Options) (total : Nat) (d : Nat → String) :
    ∀ (steps : List WorkflowStep) (n stepIndex : Nat) (results : List StepResult)
      (trace : List Event),
      n < steps.length →
      (∀ j : Nat, j < n → gw (stepIndex + j) = .ok (d (stepIndex + j))) →
      ∃ more : List Event,
        (runSteps gw workflowId instanceId payloadValues options total steps stepIndex
            results trace).trace.filter Event.isDispatch =
          trace.filter Event.isDispatch ++ (steps.take (n + 1)).map (fun s =>
            Event.dispatch instanceId s.command (mergePayload s.payloadTemplate payloadValues))
            ++ more := by
  intro steps
  induction steps with
  | nil => intro n stepIndex results trace hn; simp at hn
  | cons step rest ih =>
    intro n stepIndex results trace hn hok
    cases n with
    | zero =>
      cases hg : gw stepIndex with
      | error message =>
        refine ⟨[], ?_⟩
        simp only [runSteps, hg]
        simp [List.filter_append, Event.isDispatch]
      | ok data =>
        cases rest with
        | nil =>
          refine ⟨[], ?_⟩
          simp only [runSteps, hg, filter_waited]
          simp [List.filter_append, Event.isDispatch]
        | cons step2 rest2 =>
          obtain ⟨more, hmore⟩ := ih 0 (stepIndex + 1) (results ++
            [⟨stepIndex, step.name, step.command,
              mergePayload step.payloadTemplate payloadValues, data⟩])
            (match options.stepDelay with
            | some ms =>
              if ms ≠ 0 ∧ stepIndex + 1 < total then
                (trace ++ [Event.dispatch instanceId step.command
                  (mergePayload step.payloadTemplate payloadValues)]) ++ [Event.wait ms]
              else trace ++ [Event.dispatch instanceId step.command
                  (mergePayload step.payloadTemplate payloadValues)]
            | none => trace ++ [Event.dispatch instanceId step.command
                  (mergePayload step.payloadTemplate payloadValues)])
            (by simp) (by intro j hj; omega)
          refine ⟨Event.dispatch instanceId step2.command
            (mergePayload step2.payloadTemplate payloadValues) :: more, ?_⟩
          simp only [runSteps, hg] at hmore ⊢
          rw [hmore, filter_waited]
          simp [List.filter_append, Event.isDispatch]
    | succ n =>
      have h0 : gw stepIndex = .ok (d stepIndex) := by simpa using hok 0 (by omega)
      have hrest : ∀ j : Nat, j < n → gw (stepIndex + 1 + j) = .ok (d (stepIndex + 1 + j)) := by
        intro j hj
        have := hok (j + 1) (by omega)
        have hidx : stepIndex + (j + 1) = stepIndex + 1 + j := by omega
        rwa [hidx] at this
      obtain ⟨more, hmore⟩ := ih n (stepIndex + 1) (results ++
        [⟨stepIndex, step.name, step.command, mergePayload step.payloadTemplate payloadValues,
          d stepIndex⟩]) (match options.stepDelay with
        | some ms =>
          if ms ≠ 0 ∧ stepIndex + 1 < total then
            (trace ++ [Event.dispatch instanceId step.command
              (mergePayload step.payloadTemplate payloadValues)]) ++ [Event.wait ms]
          else trace ++ [Event.dispatch instanceId step.command
              (mergePayload step.payloadTemplate payloadValues)]
        | none => trace ++ [Event.dispatch instanceId step.command
              (mergePayload step.payloadTemplate payloadValues)])
        (by simpa using hn) hrest
      refine ⟨more, ?_⟩
      simp only [runSteps, h0]
      rw [hmore, filter_waited]
      simp [List.filter_append, Event.isDispatch]

theorem mergePayload_keys (payloadTemplate payloadValues : JsObject) :
    (mergePayload payloadTemplate payloadValues).map Prod.fst = payloadTemplate.map Prod.fst := by
  simp only [mergePayload, List.map_map]
  apply List.map_congr_left
  intro entry _
  simp only [Function.comp]
  cases payloadValues.lookup entry.1 with
  | none => rfl
  | some value => cases h : value.truthy <;> simp [h]

theorem mergePayload_lookup (payloadValues : JsObject) (key : String) :
    ∀ payloadTemplate : JsObject,
      (mergePayload payloadTemplate payloadValues).lookup key =
        (payloadTemplate.lookup key).map (fun dflt =>
          match payloadValues.lookup key with
          | some value => if value.truthy then value else dflt
          | none => dflt) := by
  intro payloadTemplate
  induction payloadTemplate with
  | nil => rfl
  | cons entry rest ih =>
    obtain ⟨name, dflt⟩ := entry
    have hstep : mergePayload ((name, dflt) :: rest) payloadValues =
        (name, match payloadValues.lookup name with
          | some value => if value.truthy then value else dflt
          | none => dflt) :: mergePayload rest payloadValues := by
      simp only [mergePayload, List.map_cons]
      congr 1
      cases payloadValues.lookup name with
      | none => rfl
      | some value => cases h : value.truthy <;> simp [h]
    rw [hstep]
    by_cases hk : key = name
    · subst hk
      simp [List.lookup]
    · have hne : (key == name) = false := by simpa using hk
      simp only [List.lookup, hne]
      exact ih

theorem lookup_isSome_of_mem_keys (key : String) :
    ∀ o : JsObject, key ∈ o.map Prod.fst → ∃ v, o.lookup key = some v := by
  intro o
  induction o with
  | nil => intro h; simp at h
  | cons entry rest ih =>
    intro h
    obtain ⟨name, value⟩ := entry
    by_cases hk : key = name
    · subst hk
      exact ⟨value, by simp [List.lookup]⟩
    · have hne : (key == name) = false := by simpa using hk
      have hmem : key ∈ rest.map Prod.fst := by
        simp only [List.map_cons, List.mem_cons] at h
        rcases h with h | h
        · exact absurd h hk
        · exact h
      obtain ⟨v, hv⟩ := ih hmem
      exact ⟨v, by simp only [List.lookup, hne]; exact hv⟩

/-- C3: for a workflow defined in the table, `executeWorkflow` always returns a run (it
never throws). When the first rejected dispatch is at index `k`, the run is marked
failed with `failedStep = k` and holds the results of the steps `0..k-1` in order,
and the dispatches issued are those of the steps `0..k` in order, none for a later
step. When no dispatch is rejected, the run is marked completed, holds one result
per step in order, and every step was dispatched once, in order. -/
theorem executeWorkflow_runs_in_order
    (gw : Gateway) (workflowId instanceId : String) (payloadValues : JsObject)
    (options : Options) (workflow : Workflow)
    (hknown : workflows.lookup workflowId = some workflow) :
    (∃ run, (executeWorkflow gw workflowId instanceId payloadValues options).outcome = .ok run) ∧
    (∀ (k : Nat) (d : Nat → String) (message : String),
      k < workflow.steps.length → (∀ j : Nat, j < k → gw j = .ok (d j)) →
      gw k = .error message →
      (executeWorkflow gw workflowId instanceId payloadValues options).outcome =
        .ok ⟨workflowId, instanceId, "failed", some message,
          (workflow.steps.take k).enum.map (fun p =>
            ⟨p.1, p.2.name, p.2.command, mergePayload p.2.payloadTemplate payloadValues, d p.1⟩),
          some k⟩ ∧
      (executeWorkflow gw workflowId instanceId payloadValues options).trace.filter
          Event.isDispatch =
        (workflow.steps.take (k + 1)).map (fun s =>
          Event.dispatch instanceId s.command (mergePayload s.payloadTemplate payloadValues))) ∧
    (∀ (d : Nat → String), (∀ j : Nat, j < workflow.steps.length → gw j = .ok (d j)) →
      (executeWorkflow gw workflowId instanceId payloadValues options).outcome =
        .ok ⟨workflowId, instanceId, "completed", none,
          workflow.steps.enum.map (fun p =>
            ⟨p.1, p.2.name, p.2.command, mergePayload p.2.payloadTemplate payloadValues, d p.1⟩),
          none⟩ ∧
      (executeWorkflow gw workflowId instanceId payloadValues options).trace.filter
          Event.isDispatch =
        workflow.steps.map (fun s =>
          Event.dispatch instanceId s.command (mergePayload s.payloadTemplate payloadValues))) := by
  have hrun : executeWorkflow gw workflowId instanceId payloadValues options =
      runSteps gw workflowId instanceId payloadValues options workflow.steps.length
        workflow.steps 0 [] [] := by
    simp only [executeWorkflow, hknown]
  rw [hrun]
  refine ⟨runSteps_returns gw workflowId instanceId payloadValues options _ _ _ _ _, ?_, ?_⟩
  · intro k d message hk hok herr
    have h := runSteps_failed gw workflowId instanceId payloadValues options
      workflow.steps.length d message workflow.steps k 0 [] [] hk
      (by intro j hj; rw [Nat.zero_add]; exact hok j hj) (by rw [Nat.zero_add]; exact herr)
    simpa [List.enum] using h
  · intro d hok
    have h := runSteps_completed gw workflowId instanceId payloadValues options
      workflow.steps.length d workflow.steps 0 [] []
      (by intro j hj; rw [Nat.zero_add]; exact hok j hj)
    simpa [List.enum] using h

/-- Witness of C3: the workflow `appInstallAndLaunch` with its second dispatch rejected
returns a failed run with `failedStep = 1` and the result of step 0 only. -/
theorem executeWorkflow_runs_in_order_witness :
    (executeWorkflow (fun j => if j = 1 then .error "Request failed" else .ok "Success")
        "appInstallAndLaunch" "inst-1" [("apkPath", .str "/tmp/app.apk")] {}).outcome =
      .ok ⟨"appInstallAndLaunch", "inst-1", "failed", some "Request failed",
        [⟨0, "Install APK", "install", [("apkPath", .str "/tmp/app.apk")], "Success"⟩],
        some 1⟩ :=
  ((executeWorkflow_runs_in_order
    (fun j => if j = 1 then .error "Request failed" else .ok "Success")
    "appInstallAndLaunch" "inst-1" [("apkPath", .str "/tmp/app.apk")] {}
    ⟨"App Installation and Launch", "Installs an APK and launches the app",
      [ ⟨"Install APK", "install", [("apkPath", .str "")]⟩,
        ⟨"Launch App", "launch", [("packageName", .str ""), ("activityName", .str "")]⟩ ]⟩
    (by decide)).2.1 1 (fun _ => "Success") "Request failed" (by decide)
    (by intro j hj; have hj0 : j = 0 := by omega
        subst hj0; rfl)
    (by rfl)).1

/-- C4 as stated fails: in the workflow `uiTestAutomation` the caller value `""` is
present for the template key `shellCommand`, yet the payload dispatched for step 1
keeps the template default `sleep 2`. -/
theorem mergePayload_keeps_default_on_falsy_value :
    List.lookup "shellCommand" [("shellCommand", JsValue.str "")] = some (JsValue.str "") ∧
    ((executeWorkflow (fun _ => .ok "Success") "uiTestAutomation" "inst-1"
        [("shellCommand", JsValue.str "")] {}).trace.filter Event.isDispatch)[1]? =
      some (Event.dispatch "inst-1" "shell" [("shellCommand", JsValue.str "sleep 2")]) := by
  decide

/-- C4 (amended): when the step at index `n` of a defined workflow is reached, the
payload dispatched for it has exactly the keys of the payload template, in the same
order; a template key whose caller value is present and truthy takes the caller
value; a template key whose caller value is absent or falsy (empty string, zero,
false, null) keeps its template default. -/
theorem executeWorkflow_payload_merge
    (gw : Gateway) (workflowId instanceId : String) (payloadValues : JsObject)
    (options : Options) (workflow : Workflow) (n : Nat) (step : WorkflowStep) (d : Nat → String)
    (hknown : workflows.lookup workflowId = some workflow)
    (hstep : workflow.steps[n]? = some step)
    (hreached : ∀ j : Nat, j < n → gw j = .ok (d j)) :
    ∃ payload : JsObject,
      ((executeWorkflow gw workflowId instanceId payloadValues options).trace.filter
        Event.isDispatch)[n]? = some (Event.dispatch instanceId step.command payload) ∧
      payload.map Prod.fst = step.payloadTemplate.map Prod.fst ∧
      (∀ (key : String) (value : JsValue), key ∈ step.payloadTemplate.map Prod.fst →
        payloadValues.lookup key = some value → value.truthy = true →
        payload.lookup key = some value) ∧
      (∀ (key : String), key ∈ step.payloadTemplate.map Prod.fst →
        (payloadValues.lookup key = none ∨
          ∃ value, payloadValues.lookup key = some value ∧ value.truthy = false) →
        payload.lookup key = step.payloadTemplate.lookup key) := by
  obtain ⟨hlt, hget⟩ := List.getElem?_eq_some.mp hstep
  have hrun : executeWorkflow gw workflowId instanceId payloadValues options =
      runSteps gw workflowId instanceId payloadValues options workflow.steps.length
        workflow.steps 0 [] [] := by
    simp only [executeWorkflow, hknown]
  obtain ⟨more, hmore⟩ := runSteps_dispatches gw workflowId instanceId payloadValues options
    workflow.steps.length d workflow.steps n 0 [] [] hlt
    (by intro j hj; rw [Nat.zero_add]; exact hreached j hj)
  refine ⟨mergePayload step.payloadTemplate payloadValues, ?_, mergePayload_keys _ _, ?_, ?_⟩
  · rw [hrun, hmore]
    have hlen : n < ((workflow.steps.take (n + 1)).map (fun s =>
        Event.dispatch instanceId s.command
          (mergePayload s.payloadTemplate payloadValues))).length := by
      rw [List.length_map, List.length_take]; omega
    simp only [List.filter_nil, List.nil_append]
    rw [List.getElem?_append_left hlen, List.getElem?_map,
      List.getElem?_take_of_lt (Nat.lt_succ_self n), hstep]
    rfl
  · intro key value hkey hval htruthy
    obtain ⟨dflt, hd⟩ := lookup_isSome_of_mem_keys key _ hkey
    rw [mergePayload_lookup, hd, hval]
    simp [htruthy]
  · intro key hkey hval
    obtain ⟨dflt, hd⟩ := lookup_isSome_of_mem_keys key _ hkey
    rw [mergePayload_lookup, hd]
    rcases hval with hnone | ⟨value, hsome, hfalsy⟩
    · rw [hnone]; rfl
    · rw [hsome]; simp [hfalsy]

/-- Witness of C4 (amended): in `appInstallAndLaunch` the second step is dispatched with
the caller value for `packageName` and the template default `""` for the
`activityName` that the caller left out. -/
theorem executeWorkflow_payload_merge_witness :
    ∃ payload : JsObject,
      ((executeWorkflow (fun _ => .ok "Success") "appInstallAndLaunch" "inst-1"
          [("packageName", .str "com.example.app")] {}).trace.filter
        Event.isDispatch)[1]? = some (Event.dispatch "inst-1" "launch" payload) ∧
      payload.map Prod.fst = ["packageName", "activityName"] ∧
      payload.lookup "packageName" = some (.str "com.example.app") ∧
      payload.lookup "activityName" = some (.str "") := by
  obtain ⟨payload, h1, h2, h3, h4⟩ := executeWorkflow_payload_merge
    (fun _ => .ok "Success") "appInstallAndLaunch" "inst-1"
    [("packageName", .str "com.example.app")] {}
    ⟨"App Installation and Launch", "Installs an APK and launches the app",
      [ ⟨"Install APK", "install", [("apkPath", .str "")]⟩,
        ⟨"Launch App", "launch", [("packageName", .str ""), ("activityName", .str "")]⟩ ]⟩
    1 ⟨"Launch App", "launch", [("packageName", .str ""), ("activityName", .str "")]⟩
    (fun _ => "Success") (by decide) (by decide) (by intro j _; rfl)
  exact ⟨payload, h1, h2, h3 "packageName" (.str "com.example.app") (by decide) (by decide)
    (by decide), h4 "activityName" (by decide) (Or.inl (by decide))⟩

end Workflows

/-! ## Properties of the instance registry -/

namespace InstanceManager

theorem findInstance_eq_none (db : List Instance) (instanceId : String) :
    findInstance db instanceId = none ↔ ∀ r ∈ db, r.instanceId ≠ instanceId := by
  simp [findInstance, List.find?_eq_none]

theorem findInstance_some_id (db : List Instance) (instanceId : String) (r : Instance)
    (h : findInstance db instanceId = some r) : r ∈ db ∧ r.instanceId = instanceId := by
  have h1 := List.find?_some h
  have h2 := List.mem_of_find?_eq_some h
  exact ⟨h2, by simpa using h1⟩

theorem assignFirst_length (instanceId : String) (data : Instance) :
    ∀ db : List Instance, (assignFirst instanceId data db).length = db.length := by
  intro db
  induction db with
  | nil => rfl
  | cons r rest ih =>
    by_cases h : (r.instanceId == instanceId) = true
    · simp [assignFirst, h]
    · simp [assignFirst, h, ih]

theorem assignFirst_ids (instanceId : String) (data : Instance)
    (hdata : data.instanceId = instanceId) :
    ∀ db : List Instance,
      (assignFirst instanceId data db).map (fun r => r.instanceId) =
        db.map (fun r => r.instanceId) := by
  intro db
  induction db with
  | nil => rfl
  | cons r rest ih =>
    by_cases h : (r.instanceId == instanceId) = true
    · have hr : r.instanceId = instanceId := by simpa using h
      simp [assignFirst, h, hdata, hr]
    · simp [assignFirst, h, ih]

theorem assignFirst_find (instanceId : String) (data : Instance)
    (hdata : data.instanceId = instanceId) :
    ∀ db : List Instance, (∃ r ∈ db, r.instanceId = instanceId) →
      findInstance (assignFirst instanceId data db) instanceId = some data := by
  intro db
  induction db with
  | nil => intro h; simp at h
  | cons r rest ih =>
    intro h
    by_cases hr : (r.instanceId == instanceId) = true
    · simp [assignFirst, hr, findInstance, hdata]
    · have hne : r.instanceId ≠ instanceId := by simpa using hr
      have hrest : ∃ r ∈ rest, r.instanceId = instanceId := by
        obtain ⟨x, hx, hxid⟩ := h
        rcases List.mem_cons.mp hx with rfl | hx
        · exact absurd hxid hne
        · exact ⟨x, hx, hxid⟩
      have := ih hrest
      simp only [findInstance] at this ⊢
      simp [assignFirst, hr, List.find?_cons, this]

theorem assignFirst_eq_set (instanceId : String) (data : Instance) :
    ∀ (db : List Instance) (i : Nat) (old : Instance),
      db[i]? = some old → old.instanceId = instanceId →
      (∀ (j : Nat) (r : Instance), j < i → db[j]? = some r → r.instanceId ≠ instanceId) →
      assignFirst instanceId data db = db.set i data := by
  intro db
  induction db with
  | nil => intro i old h; simp at h
  | cons r rest ih =>
    intro i old hi hold hfirst
    cases i with
    | zero =>
      simp only [List.getElem?_cons_zero, Option.some.injEq] at hi
      subst hi
      simp [assignFirst, hold]
    | succ i =>
      have hr : r.instanceId ≠ instanceId := hfirst 0 r (by omega) (by simp)
      have hr2 : (r.instanceId == instanceId) = false := by simpa using hr
      simp only [assignFirst, hr2, List.set_cons_succ]
      rw [ih i old (by simpa using hi) hold
        (fun j x hj hx => hfirst (j + 1) x (by omega) (by simpa using hx))]
      simp

theorem count_assignFirst (instanceId : String) (data : Instance)
    (hdata : data.instanceId = instanceId) (db : List Instance) :
    ((assignFirst instanceId data db).filter (fun r => r.instanceId = instanceId)).length =
      (db.filter (fun r => r.instanceId = instanceId)).length := by
  have h := assignFirst_ids instanceId data hdata db
  have hc : ∀ l : List Instance, (l.filter (fun r => r.instanceId = instanceId)).length =
      ((l.map (fun r => r.instanceId)).filter (fun s => s = instanceId)).length := by
    intro l
    rw [List.filter_map, List.length_map]
    rfl
  rw [hc, hc, h]

theorem register_valid (db : List Instance) (now : Nat) (body : RegisterBody)
    (instanceId address : String)
    (hid : body.instanceId = some instanceId) (haddr : body.address = some address)
    (hid2 : instanceId ≠ "") (haddr2 : address ≠ "") :
    register db now body =
      match findInstance db instanceId with
      | some _ =>
        (⟨201, .record ⟨instanceId, address, body.deviceSerial, body.avdName, "registered", now⟩⟩,
          assignFirst instanceId
            ⟨instanceId, address, body.deviceSerial, body.avdName, "registered", now⟩ db)
      | none =>
        (⟨201, .record ⟨instanceId, address, body.deviceSerial, body.avdName, "registered", now⟩⟩,
          db ++ [⟨instanceId, address, body.deviceSerial, body.avdName, "registered", now⟩]) := by
  simp only [register, hid, haddr, hid2, haddr2, or_self, if_false]

theorem register_find (db : List Instance) (now : Nat) (body : RegisterBody)
    (instanceId address : String)
    (hid : body.instanceId = some instanceId) (haddr : body.address = some address)
    (hid2 : instanceId ≠ "") (haddr2 : address ≠ "") :
    findInstance (register db now body).2 instanceId =
      some ⟨instanceId, address, body.deviceSerial, body.avdName, "registered", now⟩ := by
  rw [register_valid db now body instanceId address hid haddr hid2 haddr2]
  cases hf : findInstance db instanceId with
  | some old =>
    obtain ⟨hmem, hold⟩ := findInstance_some_id db instanceId old hf
    exact assignFirst_find instanceId _ rfl db ⟨old, hmem, hold⟩
  | none =>
    have hnone := (findInstance_eq_none db instanceId).mp hf
    simp only [findInstance] at hf ⊢
    simp [List.find?_append, hf]

theorem register_length_of_found (db : List Instance) (now : Nat) (body : RegisterBody)
    (instanceId address : String) (old : Instance)
    (hid : body.instanceId = some instanceId) (haddr : body.address = some address)
    (hid2 : instanceId ≠ "") (haddr2 : address ≠ "")
    (hf : findInstance db instanceId = some old) :
    (register db now body).2.length = db.length ∧
    ((register db now body).2.filter (fun r => r.instanceId = instanceId)).length =
      (db.filter (fun r => r.instanceId = instanceId)).length := by
  rw [register_valid db now body instanceId address hid haddr hid2 haddr2, hf]
  exact ⟨assignFirst_length instanceId _ db, count_assignFirst instanceId _ rfl db⟩

theorem register_count (db : List Instance) (now : Nat) (body : RegisterBody)
    (instanceId address : String)
    (hid : body.instanceId = some instanceId) (haddr : body.address = some address)
    (hid2 : instanceId ≠ "") (haddr2 : address ≠ "")
    (hunique : (db.filter (fun r => r.instanceId = instanceId)).length ≤ 1) :
    ((register db now body).2.filter (fun r => r.instanceId = instanceId)).length = 1 := by
  cases hf : findInstance db instanceId with
  | some old =>
    obtain ⟨_, hcount⟩ := register_length_of_found db now body instanceId address old
      hid haddr hid2 haddr2 hf
    obtain ⟨hmem, hold⟩ := findInstance_some_id db instanceId old hf
    have hpos : 0 < (db.filter (fun r => r.instanceId = instanceId)).length :=
      List.length_pos_of_mem (List.mem_filter.mpr ⟨hmem, by simpa using hold⟩)
    omega
  | none =>
    have hnone := (findInstance_eq_none db instanceId).mp hf
    rw [register_valid db now body instanceId address hid haddr hid2 haddr2, hf]
    have h0 : db.filter (fun r => decide (r.instanceId = instanceId)) = [] := by
      apply List.filter_eq_nil_iff.mpr
      intro r hr
      simpa using hnone r hr
    simp [List.filter_append, h0]

/-- C5: for a store in which at most one record has the instanceId of a valid
registration body (instanceId and address present), two `POST /register` calls with
that body leave exactly one record with that instanceId, and the second call does
not change the number of records. -/
theorem register_twice_one_record (db : List Instance) (now1 now2 : Nat) (body : RegisterBody)
    (instanceId address : String)
    (hid : body.instanceId = some instanceId) (haddr : body.address = some address)
    (hid2 : instanceId ≠ "") (haddr2 : address ≠ "")
    (hunique : (db.filter (fun r => r.instanceId = instanceId)).length ≤ 1) :
    ((register (register db now1 body).2 now2 body).2.filter
      (fun r => r.instanceId = instanceId)).length = 1 ∧
    (register (register db now1 body).2 now2 body).2.length = (register db now1 body).2.length := by
  have h1 := register_count db now1 body instanceId address hid haddr hid2 haddr2 hunique
  have hf := register_find db now1 body instanceId address hid haddr hid2 haddr2
  refine ⟨?_, ?_⟩
  · exact register_count _ now2 body instanceId address hid haddr hid2 haddr2 (by omega)
  · exact (register_length_of_found _ now2 body instanceId address _ hid haddr hid2 haddr2 hf).1

/-- Witness of C5: registering `emu-1` twice in a store that holds `emu-0`. -/
theorem register_twice_one_record_witness :
    ((register (register [⟨"emu-0", "http://localhost:1", none, none, "registered", 5⟩] 10
        ⟨some "emu-1", some "http://localhost:2", none, none⟩).2 20
        ⟨some "emu-1", some "http://localhost:2", none, none⟩).2.filter
      (fun r => r.instanceId = "emu-1")).length = 1 ∧
    (register (register [⟨"emu-0", "http://localhost:1", none, none, "registered", 5⟩] 10
        ⟨some "emu-1", some "http://localhost:2", none, none⟩).2 20
        ⟨some "emu-1", some "http://localhost:2", none, none⟩).2.length =
      (register [⟨"emu-0", "http://localhost:1", none, none, "registered", 5⟩] 10
        ⟨some "emu-1", some "http://localhost:2", none, none⟩).2.length :=
  register_twice_one_record [⟨"emu-0", "http://localhost:1", none, none, "registered", 5⟩] 10 20
    ⟨some "emu-1", some "http://localhost:2", none, none⟩ "emu-1" "http://localhost:2"
    rfl rfl (by decide) (by decide) (by decide)

theorem register_ids_nodup (db : List Instance) (now : Nat) (body : RegisterBody)
    (h : (db.map (fun r => r.instanceId)).Nodup) :
    ((register db now body).2.map (fun r => r.instanceId)).Nodup := by
  unfold register
  split
  · rename_i instanceId address _ _
    by_cases hbad : instanceId = "" ∨ address = ""
    · simpa only [if_pos hbad] using h
    · simp only [if_neg hbad]
      cases hf : findInstance db instanceId with
      | some old =>
        simp only
        rw [assignFirst_ids instanceId _ rfl db]
        exact h
      | none =>
        have hnone := (findInstance_eq_none db instanceId).mp hf
        simp only [List.map_append, List.map_cons, List.map_nil]
        apply List.Nodup.append h (List.nodup_singleton _)
        intro x hx1 hx2
        simp only [List.mem_singleton] at hx2
        subst hx2
        obtain ⟨r, hr, hrid⟩ := List.mem_map.mp hx1
        exact hnone r hr hrid
  · exact h

theorem deregister_ids_nodup (db : List Instance) (instanceId : Option String)
    (h : (db.map (fun r => r.instanceId)).Nodup) :
    ((deregister db instanceId).2.map (fun r => r.instanceId)).Nodup := by
  unfold deregister
  cases instanceId with
  | none => exact h
  | some instanceId =>
    by_cases hbad : instanceId = ""
    · simpa only [if_pos hbad] using h
    · simp only [if_neg hbad]
      cases hf : findInstance db instanceId with
      | some old =>
        simp only
        exact List.Nodup.sublist (List.Sublist.map _ (List.filter_sublist db)) h
      | none => exact h

/-- C6: in every store reached from the empty `instances` collection by a sequence of
`POST /register` and `POST /deregister` requests (valid or not, at any clock
readings), no two records have the same instanceId. -/
theorem instanceId_unique (requests : List Request) :
    ((applyRequests [] requests).map (fun r => r.instanceId)).Nodup := by
  have hgen : ∀ (requests : List Request) (db : List Instance),
      (db.map (fun r => r.instanceId)).Nodup →
      ((applyRequests db requests).map (fun r => r.instanceId)).Nodup := by
    intro requests
    induction requests with
    | nil => intro db h; exact h
    | cons request rest ih =>
      intro db h
      simp only [applyRequests, List.foldl_cons]
      apply ih
      cases request with
      | register now body => exact register_ids_nodup db now body h
      | deregister instanceId => exact deregister_ids_nodup db instanceId h
  exact hgen requests [] List.nodup_nil

/-- C7: for a valid registration body, when a record with that instanceId exists,
`POST /register` replaces the first such record, at its own position, by the new
data and leaves every other position of the list as it was; when none exists the new
record is appended at the end; the reply is 201 with the new record, and
`GET /instances` returns the collection in exactly that order. -/
theorem register_in_place_or_append (db : List Instance) (now : Nat) (body : RegisterBody)
    (instanceId address : String)
    (hid : body.instanceId = some instanceId) (haddr : body.address = some address)
    (hid2 : instanceId ≠ "") (haddr2 : address ≠ "") :
    (∀ (i : Nat) (old : Instance), db[i]? = some old → old.instanceId = instanceId →
      (∀ (j : Nat) (r : Instance), j < i → db[j]? = some r → r.instanceId ≠ instanceId) →
      (register db now body).2 =
        db.set i ⟨instanceId, address, body.deviceSerial, body.avdName, "registered", now⟩) ∧
    ((∀ r ∈ db, r.instanceId ≠ instanceId) →
      (register db now body).2 =
        db ++ [⟨instanceId, address, body.deviceSerial, body.avdName, "registered", now⟩]) ∧
    (register db now body).1 =
      ⟨201, .record ⟨instanceId, address, body.deviceSerial, body.avdName, "registered", now⟩⟩ ∧
    getInstances (register db now body).2 = ⟨200, .records (register db now body).2⟩ := by
  rw [register_valid db now body instanceId address hid haddr hid2 haddr2]
  refine ⟨?_, ?_, ?_, rfl⟩
  · intro i old hi hold hfirst
    have hmem : old ∈ db := by
      obtain ⟨hlt, hget⟩ := List.getElem?_eq_some.mp hi
      exact hget ▸ List.getElem_mem hlt
    cases hf : findInstance db instanceId with
    | none => exact absurd hold ((findInstance_eq_none db instanceId).mp hf old hmem)
    | some found => exact assignFirst_eq_set instanceId _ db i old hi hold hfirst
  · intro hnone
    rw [(findInstance_eq_none db instanceId).mpr hnone]
  · cases findInstance db instanceId <;> rfl

/-- Witness of C7: re-registering `emu-0`, the first of two records, rewrites it in
place and leaves `emu-1` behind it. -/
theorem register_in_place_or_append_witness :
    (register [⟨"emu-0", "http://localhost:1", none, none, "registered", 5⟩,
        ⟨"emu-1", "http://localhost:2", none, none, "registered", 6⟩] 30
        ⟨some "emu-0", some "http://localhost:9", some "emulator-5554", none⟩).2 =
      [⟨"emu-0", "http://localhost:9", some "emulator-5554", none, "registered", 30⟩,
        ⟨"emu-1", "http://localhost:2", none, none, "registered", 6⟩] :=
  (register_in_place_or_append
    [⟨"emu-0", "http://localhost:1", none, none, "registered", 5⟩,
      ⟨"emu-1", "http://localhost:2", none, none, "registered", 6⟩] 30
    ⟨some "emu-0", some "http://localhost:9", some "emulator-5554", none⟩
    "emu-0" "http://localhost:9" rfl rfl (by decide) (by decide)).1 0
    ⟨"emu-0", "http://localhost:1", none, none, "registered", 5⟩ rfl rfl
    (by intro j r hj; omega)

/-- C8 as stated fails: two successive `POST /register` calls for `emu-0` served at the
same clock reading store the same `lastSeen`, not a strictly greater one. -/
theorem lastSeen_not_strictly_increasing :
    getInstance (register [] 1000 ⟨some "emu-0", some "http://localhost:1", none, none⟩).2
        "emu-0" =
      ⟨200, .record ⟨"emu-0", "http://localhost:1", none, none, "registered", 1000⟩⟩ ∧
    getInstance (register (register [] 1000
        ⟨some "emu-0", some "http://localhost:1", none, none⟩).2 1000
        ⟨some "emu-0", some "http://localhost:1", none, none⟩).2 "emu-0" =
      ⟨200, .record ⟨"emu-0", "http://localhost:1", none, none, "registered", 1000⟩⟩ ∧
    ¬ ((1000 : Nat) < 1000) := by
  decide

/-- C8 (amended): after a valid `POST /register` the record found under that instanceId
carries the clock reading of the call as `lastSeen`; across two successive calls for
the same instanceId the stored `lastSeen` is strictly greater after the second call
exactly when the clock reading of the second call is strictly greater than that of
the first. -/
theorem lastSeen_follows_clock (db : List Instance) (now1 now2 : Nat) (body1 body2 : RegisterBody)
    (instanceId address1 address2 : String)
    (hid1 : body1.instanceId = some instanceId) (haddr1 : body1.address = some address1)
    (hid2 : body2.instanceId = some instanceId) (haddr2 : body2.address = some address2)
    (hid : instanceId ≠ "") (ha1 : address1 ≠ "") (ha2 : address2 ≠ "") :
    ∃ r1 r2 : Instance,
      getInstance (register db now1 body1).2 instanceId = ⟨200, .record r1⟩ ∧
      getInstance (register (register db now1 body1).2 now2 body2).2 instanceId =
        ⟨200, .record r2⟩ ∧
      r1.lastSeen = now1 ∧ r2.lastSeen = now2 ∧
      (r1.lastSeen < r2.lastSeen ↔ now1 < now2) := by
  refine ⟨⟨instanceId, address1, body1.deviceSerial, body1.avdName, "registered", now1⟩,
    ⟨instanceId, address2, body2.deviceSerial, body2.avdName, "registered", now2⟩,
    ?_, ?_, rfl, rfl, Iff.rfl⟩
  · simp only [getInstance, register_find db now1 body1 instanceId address1 hid1 haddr1 hid ha1]
  · simp only [getInstance, register_find _ now2 body2 instanceId address2 hid2 haddr2 hid ha2]

/-- Witness of C8 (amended): two registrations of `emu-0` at clock readings 1000 and
1001. -/
theorem lastSeen_follows_clock_witness :
    ∃ r1 r2 : Instance,
      getInstance (register [] 1000 ⟨some "emu-0", some "http://localhost:1", none, none⟩).2
        "emu-0" = ⟨200, .record r1⟩ ∧
      getInstance (register (register [] 1000
          ⟨some "emu-0", some "http://localhost:1", none, none⟩).2 1001
          ⟨some "emu-0", some "http://localhost:1", none, none⟩).2 "emu-0" =
        ⟨200, .record r2⟩ ∧
      r1.lastSeen = 1000 ∧ r2.lastSeen = 1001 ∧
      (r1.lastSeen < r2.lastSeen ↔ 1000 < 1001) :=
  lastSeen_follows_clock [] 1000 1001 ⟨some "emu-0", some "http://localhost:1", none, none⟩
    ⟨some "emu-0", some "http://localhost:1", none, none⟩ "emu-0" "http://localhost:1"
    "http://localhost:1" rfl rfl rfl rfl (by decide) (by decide) (by decide)

/-- C9: for a present (non-empty) instanceId, when a record with that id exists
`POST /deregister` answers 200 and leaves the collection without the records of that
id, all other records unchanged and in order, after which `GET /instances/:id`
answers 404; when no record with that id exists, `POST /deregister` answers 404 and
leaves the collection unchanged, and `GET /instances/:id` answers 404. -/
theorem deregister_removes_or_not_found (db : List Instance) (instanceId : String)
    (hid : instanceId ≠ "") :
    ((∃ r ∈ db, r.instanceId = instanceId) →
      (deregister db (some instanceId)).1.status = 200 ∧
      (deregister db (some instanceId)).2 = db.filter (fun r => r.instanceId ≠ instanceId) ∧
      (getInstance (deregister db (some instanceId)).2 instanceId).status = 404) ∧
    ((∀ r ∈ db, r.instanceId ≠ instanceId) →
      (deregister db (some instanceId)).1.status = 404 ∧
      (deregister db (some instanceId)).2 = db ∧
      (getInstance db instanceId).status = 404) := by
  refine ⟨?_, ?_⟩
  · intro hex
    cases hf : findInstance db instanceId with
    | none =>
      obtain ⟨r, hr, hrid⟩ := hex
      exact absurd hrid ((findInstance_eq_none db instanceId).mp hf r hr)
    | some found =>
      have hgone : findInstance (db.filter (fun r => r.instanceId != instanceId)) instanceId =
          none := by
        apply (findInstance_eq_none _ instanceId).mpr
        intro r hr
        simpa using (List.mem_filter.mp hr).2
      have hfilter : db.filter (fun r => r.instanceId != instanceId) =
          db.filter (fun r => decide (r.instanceId ≠ instanceId)) := by
        apply List.filter_congr
        intro r _
        by_cases hr : r.instanceId = instanceId
        · simp [hr]
        · simp [hr]
      simp only [deregister, hid, if_false, hf]
      refine ⟨trivial, hfilter, ?_⟩
      simp only [getInstance, hgone]
  · intro hnone
    have hf := (findInstance_eq_none db instanceId).mpr hnone
    simp only [deregister, hid, if_false, hf, getInstance]
    exact ⟨trivial, trivial, trivial⟩

/-- Witness of C9: de-registering `emu-0` from a store of two records, then looking it
up. -/
theorem deregister_removes_or_not_found_witness :
    (deregister [⟨"emu-0", "http://localhost:1", none, none, "registered", 5⟩,
        ⟨"emu-1", "http://localhost:2", none, none, "registered", 6⟩] (some "emu-0")).1.status =
      200 ∧
    (deregister [⟨"emu-0", "http://localhost:1", none, none, "registered", 5⟩,
        ⟨"emu-1", "http://localhost:2", none, none, "registered", 6⟩] (some "emu-0")).2 =
      [⟨"emu-0", "http://localhost:1", none, none, "registered", 5⟩,
        ⟨"emu-1", "http://localhost:2", none, none, "registered", 6⟩].filter
        (fun r => r.instanceId ≠ "emu-0") ∧
    (getInstance (deregister [⟨"emu-0", "http://localhost:1", none, none, "registered", 5⟩,
        ⟨"emu-1", "http://localhost:2", none, none, "registered", 6⟩] (some "emu-0")).2
      "emu-0").status = 404 :=
  (deregister_removes_or_not_found
    [⟨"emu-0", "http://localhost:1", none, none, "registered", 5⟩,
      ⟨"emu-1", "http://localhost:2", none, none, "registered", 6⟩] "emu-0" (by decide)).1
    ⟨⟨"emu-0", "http://localhost:1", none, none, "registered", 5⟩, by simp, rfl⟩

end InstanceManager

/-! ## Properties of device discovery -/

namespace AdbManager

theorem scanLines_skip (skipped rest : List String)
    (hskipped : ∀ l ∈ skipped, ¬ ∃ (serial state : String) (more : List String),
      jsSplit l '\t' = serial :: state :: more ∧ startsWith serial "emulator-" = true ∧
        state = "device") :
    scanLines (skipped ++ rest) = scanLines rest := by
  induction skipped with
  | nil => rfl
  | cons l skipped ih =>
    have hrest := ih (fun x hx => hskipped x (List.mem_cons_of_mem _ hx))
    have hl := hskipped l (List.mem_cons_self _ _)
    simp only [List.cons_append, scanLines]
    split
    · rename_i serial state more hsplit
      have hno : ¬ (serial ≠ "" ∧ startsWith serial "emulator-" = true ∧ state = "device") :=
        fun h => hl ⟨serial, state, more, hsplit, h.2.1, h.2.2⟩
      rw [if_neg hno]
      exact hrest
    · exact hrest

/-- C10: when the lines after the first (header) line of the device-list output are
`skipped`, then `line`, then `later`, where `line` has a first tab-separated field
`serial` starting with `emulator-` and a second field equal to `device`, and no line
of `skipped` is of that form, `findNewEmulatorDevice` returns `serial`: the first
match in the order of the output, whatever the serials of the later lines. -/
theorem findNewEmulatorDevice_first_match (output : String) (skipped later : List String)
    (line serial state : String) (more : List String)
    (hlines : (jsSplit output '\n').drop 1 = skipped ++ line :: later)
    (hline : jsSplit line '\t' = serial :: state :: more)
    (hserial : startsWith serial "emulator-" = true) (hstate : state = "device")
    (hskipped : ∀ l ∈ skipped, ¬ ∃ (serial state : String) (more : List String),
      jsSplit l '\t' = serial :: state :: more ∧ startsWith serial "emulator-" = true ∧
        state = "device") :
    findNewEmulatorDevice (.ok output) = .ok serial := by
  have hne : serial ≠ "" := by
    intro h
    subst h
    exact absurd hserial (by decide)
  simp only [findNewEmulatorDevice, hlines]
  rw [scanLines_skip skipped (line :: later) hskipped]
  simp only [scanLines, hline]
  rw [if_pos ⟨hne, hserial, hstate⟩]

/-- Witness of C10: a non-emulator device and an offline emulator are skipped, and of
the two running emulators the one listed first, `emulator-5556`, is returned. -/
theorem findNewEmulatorDevice_first_match_witness :
    findNewEmulatorDevice (.ok ("List of devices attached\n192.168.1.10:5555\tdevice\n" ++
      "emulator-5558\toffline\nemulator-5556\tdevice\nemulator-5554\tdevice")) =
      .ok "emulator-5556" :=
  findNewEmulatorDevice_first_match
    ("List of devices attached\n192.168.1.10:5555\tdevice\n" ++
      "emulator-5558\toffline\nemulator-5556\tdevice\nemulator-5554\tdevice")
    ["192.168.1.10:5555\tdevice", "emulator-5558\toffline"] ["emulator-5554\tdevice"]
    "emulator-5556\tdevice" "emulator-5556" "device" [] (by decide) (by decide) (by decide) rfl
    (by
      intro l hl
      rintro ⟨serial, state, more, hsplit, hserial, hstate⟩
      simp only [List.mem_cons, List.mem_singleton, List.not_mem_nil, or_false] at hl
      rcases hl with rfl | rfl
      · have h : jsSplit "192.168.1.10:5555\tdevice" '\t' = ["192.168.1.10:5555", "device"] := by
          decide
        rw [h] at hsplit
        obtain ⟨rfl, _⟩ := List.cons.inj hsplit
        exact absurd hserial (by decide)
      · have h : jsSplit "emulator-5558\toffline" '\t' = ["emulator-5558", "offline"] := by
          decide
        rw [h] at hsplit
        obtain ⟨_, htail⟩ := List.cons.inj hsplit
        obtain ⟨rfl, _⟩ := List.cons.inj htail
        exact absurd hstate (by decide))

end AdbManager

/-! ## Properties of the device bridge functions -/

namespace AdbManager

theorem splitChars_no_sep (sep : Char) :
    ∀ l : List Char, (∀ c ∈ l, c ≠ sep) → splitChars sep l = [l] := by
  intro l
  induction l with
  | nil => intro _; rfl
  | cons c cs ih =>
    intro h
    have hc : c ≠ sep := h c (List.mem_cons_self _ _)
    have hcs := ih (fun x hx => h x (List.mem_cons_of_mem _ hx))
    simp only [splitChars, hc, if_false, hcs]

theorem splitChars_append_sep (sep : Char) (back : List Char) :
    ∀ front : List Char, (∀ c ∈ front, c ≠ sep) →
      splitChars sep (front ++ sep :: back) = front :: splitChars sep back := by
  intro front
  induction front with
  | nil => intro _; simp [splitChars]
  | cons c cs ih =>
    intro h
    have hc : c ≠ sep := h c (List.mem_cons_self _ _)
    have hcs := ih (fun x hx => h x (List.mem_cons_of_mem _ hx))
    simp only [List.cons_append, splitChars, hc, if_false, List.append_eq, hcs]

theorem splitChars_uncons (sep : Char) :
    ∀ (l first : List Char) (rest : List (List Char)), splitChars sep l = first :: rest →
      (∀ c ∈ first, c ≠ sep) ∧
      ((rest = [] ∧ l = first) ∨
        ∃ back : List Char, l = first ++ sep :: back ∧ splitChars sep back = rest) := by
  intro l
  induction l with
  | nil =>
    intro first rest h
    simp only [splitChars, List.cons.injEq] at h
    obtain ⟨rfl, rfl⟩ := h
    exact ⟨by simp, Or.inl ⟨rfl, rfl⟩⟩
  | cons c cs ih =>
    intro first rest h
    by_cases hc : c = sep
    · simp only [splitChars, hc, if_true, List.cons.injEq] at h
      obtain ⟨rfl, rfl⟩ := h
      exact ⟨by simp, Or.inr ⟨cs, by simp [hc], rfl⟩⟩
    · cases hsplit : splitChars sep cs with
      | nil =>
        simp only [splitChars, hc, if_false, hsplit, List.cons.injEq] at h
        obtain ⟨rfl, rfl⟩ := h
        have hnil : ∀ m : List Char, splitChars sep m ≠ [] := by
          intro m
          cases m with
          | nil => simp [splitChars]
          | cons d ds =>
            by_cases hd : d = sep
            · simp [splitChars, hd]
            · cases hds : splitChars sep ds <;> simp [splitChars, hd, hds]
        exact absurd hsplit (hnil cs)
      | cons piece pieces =>
        simp only [splitChars, hc, if_false, hsplit, List.cons.injEq] at h
        obtain ⟨rfl, rfl⟩ := h
        obtain ⟨hfree, hshape⟩ := ih piece pieces hsplit
        refine ⟨?_, ?_⟩
        · intro x hx
          rcases List.mem_cons.mp hx with rfl | hx
          · exact hc
          · exact hfree x hx
        · rcases hshape with ⟨hnil, hcs⟩ | ⟨back, hcs, hback⟩
          · exact Or.inl ⟨hnil, by rw [hcs]⟩
          · exact Or.inr ⟨back, by rw [hcs]; rfl, hback⟩

theorem foldr_lines_data (lines : List String) :
    (lines.foldr (fun l acc => "\n" ++ l ++ acc) "").data =
      lines.foldr (fun l acc => '\n' :: (l.data ++ acc)) [] := by
  induction lines with
  | nil => rfl
  | cons l ls ih =>
    simp only [List.foldr_cons, String.data_append, ih]
    rfl

theorem splitChars_lines :
    ∀ (lines : List String) (header : List Char), (∀ c ∈ header, c ≠ '\n') →
      (∀ l ∈ lines, ∀ c ∈ l.data, c ≠ '\n') →
      splitChars '\n' (header ++ lines.foldr (fun l acc => '\n' :: (l.data ++ acc)) []) =
        header :: lines.map String.data := by
  intro lines
  induction lines with
  | nil =>
    intro header hheader _
    simpa using splitChars_no_sep '\n' header hheader
  | cons l ls ih =>
    intro header hheader hlines
    simp only [List.foldr_cons, List.map_cons]
    rw [splitChars_append_sep '\n' _ header hheader,
      ih l.data (hlines l (List.mem_cons_self _ _))
        (fun x hx => hlines x (List.mem_cons_of_mem _ hx))]

theorem jsSplit_lines (header : String) (lines : List String)
    (hheader : ∀ c ∈ header.data, c ≠ '\n') (hlines : ∀ l ∈ lines, ∀ c ∈ l.data, c ≠ '\n') :
    jsSplit (header ++ lines.foldr (fun l acc => "\n" ++ l ++ acc) "") '\n' = header :: lines := by
  simp only [jsSplit, String.data_append, foldr_lines_data,
    splitChars_lines lines header.data hheader hlines, List.map_cons, List.map_map]
  refine congrArg₂ _ rfl ?_
  induction lines with
  | nil => rfl
  | cons l ls ih =>
    simp only [List.map_cons, Function.comp]
    exact congrArg₂ _ rfl (ih (fun x hx => hlines x (List.mem_cons_of_mem _ hx)))

theorem scanLines_error_iff (lines : List String) :
    scanLines lines = .error "No running emulator device found." ↔
      ∀ l ∈ lines, ¬ ∃ (serial state : String) (more : List String),
        jsSplit l '\t' = serial :: state :: more ∧ startsWith serial "emulator-" = true ∧
          state = "device" := by
  induction lines with
  | nil => simp [scanLines]
  | cons line rest ih =>
    simp only [scanLines, List.mem_cons, forall_eq_or_imp]
    split
    · rename_i serial state more hsplit
      by_cases hcond : serial ≠ "" ∧ startsWith serial "emulator-" = true ∧ state = "device"
      · rw [if_pos hcond]
        constructor
        · intro h; cases h
        · intro h
          exact absurd ⟨serial, state, more, hsplit, hcond.2.1, hcond.2.2⟩ h.1
      · rw [if_neg hcond, ih]
        constructor
        · intro h
          refine ⟨?_, h⟩
          rintro ⟨s, st, m, hs, hstart, hstate⟩
          rw [hsplit] at hs
          obtain ⟨rfl, htail⟩ := List.cons.inj hs
          obtain ⟨rfl, _⟩ := List.cons.inj htail
          apply hcond
          refine ⟨?_, hstart, hstate⟩
          intro hempty
          rw [hempty] at hstart
          exact absurd hstart (by decide)
        · intro h; exact h.2
    · rename_i hno
      rw [ih]
      constructor
      · intro h
        refine ⟨?_, h⟩
        rintro ⟨s, st, m, hs, _, _⟩
        exact hno s st m hs
      · intro h; exact h.2

theorem startsWith_iff (s start : String) :
    startsWith s start = true ↔ ∃ tail : String, s = start ++ tail := by
  unfold startsWith
  rw [List.isPrefixOf_iff_prefix]
  constructor
  · rintro ⟨t, ht⟩
    exact ⟨String.mk t, by apply String.ext; simp [String.data_append, ht]⟩
  · rintro ⟨tail, rfl⟩
    exact ⟨tail.data, by simp [String.data_append]⟩

theorem line_matches_iff (line : String) :
    (∃ (serial state : String) (more : List String),
      jsSplit line '\t' = serial :: state :: more ∧ startsWith serial "emulator-" = true ∧
        state = "device") ↔
    ∃ serial tail rest : String, serial = "emulator-" ++ tail ∧
      (∀ c ∈ serial.data, c ≠ '\t') ∧
      (line = serial ++ "\tdevice" ∨ line = serial ++ "\tdevice\t" ++ rest) := by
  constructor
  · rintro ⟨serial, state, more, hsplit, hstart, rfl⟩
    obtain ⟨tail, htail⟩ := (startsWith_iff serial "emulator-").mp hstart
    simp only [jsSplit] at hsplit
    cases hpieces : splitChars '\t' line.data with
    | nil => rw [hpieces] at hsplit; simp at hsplit
    | cons first others =>
      cases others with
      | nil => rw [hpieces] at hsplit; simp at hsplit
      | cons second further =>
        rw [hpieces] at hsplit
        simp only [List.map_cons, List.cons.injEq] at hsplit
        obtain ⟨hfirst, hsecond, _⟩ := hsplit
        have hfirst2 : first = serial.data := by rw [← hfirst]
        have hsecond2 : second = "device".data := by rw [← hsecond]
        obtain ⟨hfree, hshape⟩ := splitChars_uncons '\t' line.data first (second :: further) hpieces
        rcases hshape with ⟨hnil, _⟩ | ⟨back, hline, hback⟩
        · cases hnil
        · obtain ⟨_, hshape2⟩ := splitChars_uncons '\t' back second further hback
          rcases hshape2 with ⟨_, hb⟩ | ⟨back2, hb, _⟩
          · refine ⟨serial, tail, "", htail, by rw [← hfirst2]; exact hfree, Or.inl ?_⟩
            apply String.ext
            rw [hline, hb, hfirst2, hsecond2]
            simp [String.data_append]
          · refine ⟨serial, tail, String.mk back2, htail, by rw [← hfirst2]; exact hfree,
              Or.inr ?_⟩
            apply String.ext
            rw [hline, hb, hfirst2, hsecond2]
            simp [String.data_append]
  · rintro ⟨serial, tail, rest, hserial, hfree, hline | hline⟩
    · refine ⟨serial, "device", [], ?_, (startsWith_iff serial "emulator-").mpr ⟨tail, hserial⟩,
        rfl⟩
      have hdata : line.data = serial.data ++ '\t' :: "device".data := by
        rw [hline]; simp [String.data_append]
      have hdev : splitChars '\t' "device".data = ["device".data] := by decide
      simp only [jsSplit, hdata, splitChars_append_sep '\t' _ serial.data hfree, hdev,
        List.map_cons, List.map_nil]
    · have hdata : line.data = serial.data ++ '\t' :: ("device".data ++ '\t' :: rest.data) := by
        rw [hline]; simp [String.data_append]
      have hdev : ∀ c ∈ "device".data, c ≠ '\t' := by decide
      refine ⟨serial, "device", (splitChars '\t' rest.data).map String.mk, ?_,
        (startsWith_iff serial "emulator-").mpr ⟨tail, hserial⟩, rfl⟩
      simp only [jsSplit, hdata, splitChars_append_sep '\t' _ serial.data hfree,
        splitChars_append_sep '\t' _ "device".data hdev, List.map_cons]

theorem output_has_lines (output : String) :
    ∃ (header : String) (lines : List String),
      (∀ c ∈ header.data, c ≠ '\n') ∧ (∀ l ∈ lines, ∀ c ∈ l.data, c ≠ '\n') ∧
      output = header ++ lines.foldr (fun l acc => "\n" ++ l ++ acc) "" := by
  have hchars : ∀ cs : List Char, ∃ (header : List Char) (lines : List String),
      (∀ c ∈ header, c ≠ '\n') ∧ (∀ l ∈ lines, ∀ c ∈ l.data, c ≠ '\n') ∧
      cs = header ++ lines.foldr (fun l acc => '\n' :: (l.data ++ acc)) [] := by
    intro cs
    induction cs with
    | nil => exact ⟨[], [], by simp, by simp, rfl⟩
    | cons c cs ih =>
      obtain ⟨header, lines, hheader, hlines, hcs⟩ := ih
      by_cases hc : c = '\n'
      · refine ⟨[], String.mk header :: lines, by simp, ?_, ?_⟩
        · intro l hl
          rcases List.mem_cons.mp hl with rfl | hl
          · exact hheader
          · exact hlines l hl
        · simp [hc, hcs]
      · refine ⟨c :: header, lines, ?_, hlines, by simp [hcs]⟩
        intro x hx
        rcases List.mem_cons.mp hx with rfl | hx
        · exact hc
        · exact hheader x hx
  obtain ⟨header, lines, hheader, hlines, hcs⟩ := hchars output.data
  refine ⟨String.mk header, lines, hheader, hlines, ?_⟩
  apply String.ext
  rw [hcs, String.data_append, foldr_lines_data]

/-- C11: for a device-list output made of a header line followed by the lines `lines`
(each preceded by a line feed), `findNewEmulatorDevice` fails with the error
`No running emulator device found.` exactly when no line of `lines` is a serial that
begins with `emulator-` and holds no tab, followed by a tab and `device`, and then by
nothing or by a further tab and any text. Every output is of that form. -/
theorem findNewEmulatorDevice_fails_iff_no_match (header : String) (lines : List String)
    (hheader : ∀ c ∈ header.data, c ≠ '\n') (hlines : ∀ l ∈ lines, ∀ c ∈ l.data, c ≠ '\n') :
    findNewEmulatorDevice (.ok (header ++ lines.foldr (fun l acc => "\n" ++ l ++ acc) "")) =
        .error "No running emulator device found." ↔
      ∀ l ∈ lines, ¬ ∃ serial tail rest : String, serial = "emulator-" ++ tail ∧
        (∀ c ∈ serial.data, c ≠ '\t') ∧
        (l = serial ++ "\tdevice" ∨ l = serial ++ "\tdevice\t" ++ rest) := by
  simp only [findNewEmulatorDevice, jsSplit_lines header lines hheader hlines, List.drop_one,
    List.tail_cons]
  rw [scanLines_error_iff]
  constructor
  · intro h l hl hmatch
    exact h l hl ((line_matches_iff l).mpr hmatch)
  · intro h l hl hmatch
    exact h l hl ((line_matches_iff l).mp hmatch)

/-- Witness of C11: the header-only output fails; so does an output whose lines are an
offline emulator and a running device that is no emulator; an output with a running
emulator on its second line does not fail and gives that serial. -/
theorem findNewEmulatorDevice_fails_iff_no_match_witness :
    findNewEmulatorDevice (.ok "List of devices attached") =
      .error "No running emulator device found." ∧
    findNewEmulatorDevice (.ok "List of devices attached\nemulator-5554\toffline\nR58M\tdevice") =
      .error "No running emulator device found." ∧
    findNewEmulatorDevice (.ok "List of devices attached\nemulator-5554\toffline\nemulator-5556\tdevice") ≠
      .error "No running emulator device found." ∧
    findNewEmulatorDevice (.ok "List of devices attached\nemulator-5554\toffline\nemulator-5556\tdevice") =
      .ok "emulator-5556" := by
  refine ⟨?_, ?_, ?_, rfl⟩
  · exact (findNewEmulatorDevice_fails_iff_no_match "List of devices attached" []
      (by decide) (by simp)).mpr (by simp)
  · have hout : "List of devices attached\nemulator-5554\toffline\nR58M\tdevice" =
        "List of devices attached" ++
          ["emulator-5554\toffline", "R58M\tdevice"].foldr (fun l acc => "\n" ++ l ++ acc) "" := by
      decide
    rw [hout]
    refine (findNewEmulatorDevice_fails_iff_no_match "List of devices attached"
      ["emulator-5554\toffline", "R58M\tdevice"] (by decide) (by decide)).mpr ?_
    intro l hl hmatch
    obtain ⟨serial, state, more, hsplit, hstart, hstate⟩ := (line_matches_iff l).mpr hmatch
    simp only [List.mem_cons, List.mem_singleton, List.not_mem_nil, or_false] at hl
    rcases hl with rfl | rfl
    · have h : jsSplit "emulator-5554\toffline" '\t' = ["emulator-5554", "offline"] := by decide
      rw [h] at hsplit
      obtain ⟨_, htail⟩ := List.cons.inj hsplit
      obtain ⟨rfl, _⟩ := List.cons.inj htail
      exact absurd hstate (by decide)
    · have h : jsSplit "R58M\tdevice" '\t' = ["R58M", "device"] := by decide
      rw [h] at hsplit
      obtain ⟨rfl, _⟩ := List.cons.inj hsplit
      exact absurd hstart (by decide)
  · have hout : "List of devices attached\nemulator-5554\toffline\nemulator-5556\tdevice" =
        "List of devices attached" ++
          ["emulator-5554\toffline", "emulator-5556\tdevice"].foldr
            (fun l acc => "\n" ++ l ++ acc) "" := by
      decide
    rw [hout]
    intro hfails
    exact (findNewEmulatorDevice_fails_iff_no_match "List of devices attached"
      ["emulator-5554\toffline", "emulator-5556\tdevice"] (by decide) (by decide)).mp hfails
      "emulator-5556\tdevice" (by simp)
      ⟨"emulator-5556", "5556", "", by decide, by decide, Or.inl (by decide)⟩

theorem bootLoop_not_booted (env : BootEnv) (deviceSerial : String) (timeoutMs : Int) :
    ∀ (d n fuel : Nat) (events : List BootEvent),
      (∀ j : Nat, n ≤ j → j < n + d → env.clock (j + 1) - env.clock 0 < timeoutMs) →
      (∀ j : Nat, n ≤ j → j < n + d → runAdbCommand (env.poll j) ≠ .ok "1") →
      bootLoop env deviceSerial timeoutMs (d + fuel) n events =
        bootLoop env deviceSerial timeoutMs fuel (n + d)
          (events ++ (List.replicate d
            [BootEvent.poll ("-s " ++ deviceSerial ++ " shell getprop sys.boot_completed"),
              BootEvent.sleep 3000]).flatten) := by
  intro d
  induction d with
  | zero => intro n fuel events _ _; simp
  | succ d ih =>
    intro n fuel events hclock hpoll
    have hc := hclock n (le_refl _) (by omega)
    have hp := hpoll n (le_refl _) (by omega)
    have hshape : d + 1 + fuel = (d + fuel) + 1 := by omega
    have hidx : n + 1 + d = n + (d + 1) := by omega
    have hnext := ih (n + 1) fuel
      (events ++ [BootEvent.poll ("-s " ++ deviceSerial ++ " shell getprop sys.boot_completed")]
        ++ [BootEvent.sleep 3000])
      (fun j h1 h2 => hclock j (by omega) (by omega))
      (fun j h1 h2 => hpoll j (by omega) (by omega))
    rw [hidx] at hnext
    rw [hshape]
    simp only [bootLoop, hc, if_true]
    cases hr : runAdbCommand (env.poll n) with
    | error e =>
      simp only
      rw [hnext]
      simp [List.replicate_succ, List.append_assoc]
    | ok output =>
      have hne : output ≠ "1" := by
        intro h
        rw [h] at hr
        exact hp hr
      simp only [hne, if_false]
      rw [hnext]
      simp [List.replicate_succ, List.append_assoc]

theorem filter_isPoll_rounds (command : String) (d : Nat) :
    ((List.replicate d [BootEvent.poll command, BootEvent.sleep 3000]).flatten.filter
      BootEvent.isPoll).length = d := by
  induction d with
  | zero => simp
  | succ d ih =>
    simp only [List.replicate_succ, List.flatten_cons, List.filter_append, List.length_append, ih]
    simp [List.filter_cons, BootEvent.isPoll]
    omega

/-- C13: when the poll of iteration `m` (the poll number `m + 1`) is the first whose
trimmed output is `1`, and the elapsed time read before each of the polls up to that
one is below the timeout, `waitForBoot` resolves after exactly `m + 1` polls, given
fuel for them; the earlier polls, rejected or with another output, are each followed
by the 3000 ms wait and do not make it fail. -/
theorem waitForBoot_resolves_at_first_boot (env : BootEnv) (deviceSerial : String)
    (timeoutMs : Int) (m fuel : Nat)
    (hclock : ∀ j : Nat, j ≤ m → env.clock (j + 1) - env.clock 0 < timeoutMs)
    (hearlier : ∀ j : Nat, j < m → runAdbCommand (env.poll j) ≠ .ok "1")
    (hboot : runAdbCommand (env.poll m) = .ok "1")
    (hfuel : m < fuel) :
    ∃ events : List BootEvent,
      waitForBoot env deviceSerial timeoutMs fuel = some ⟨.ok (), events⟩ ∧
      events = (List.replicate m
          [BootEvent.poll ("-s " ++ deviceSerial ++ " shell getprop sys.boot_completed"),
            BootEvent.sleep 3000]).flatten ++
        [BootEvent.poll ("-s " ++ deviceSerial ++ " shell getprop sys.boot_completed")] ∧
      (events.filter BootEvent.isPoll).length = m + 1 := by
  obtain ⟨rest, hrest⟩ : ∃ rest, fuel = m + (rest + 1) := ⟨fuel - m - 1, by omega⟩
  refine ⟨_, ?_, rfl, ?_⟩
  · rw [waitForBoot, hrest, bootLoop_not_booted env deviceSerial timeoutMs m 0 (rest + 1) []
      (fun j _ h2 => hclock j (by omega)) (fun j _ h2 => hearlier j (by omega))]
    have hc := hclock m (le_refl _)
    simp only [Nat.zero_add, List.nil_append, bootLoop, hc, if_true, hboot]
  · rw [List.filter_append, List.length_append, filter_isPoll_rounds]
    simp [BootEvent.isPoll]

/-- Witness of C13: outputs `0`, `0`, `1` resolve after 3 polls, and a rejected poll
followed by the output `1` resolves after 2 polls. -/
theorem waitForBoot_resolves_at_first_boot_witness :
    (∃ events : List BootEvent,
      waitForBoot ⟨fun _ => 0, fun n => if n < 2 then ⟨none, "0", ""⟩ else ⟨none, "1", ""⟩⟩
        "emulator-5554" 5000 3 = some ⟨.ok (), events⟩ ∧
      events = (List.replicate 2
          [BootEvent.poll ("-s " ++ "emulator-5554" ++ " shell getprop sys.boot_completed"),
            BootEvent.sleep 3000]).flatten ++
        [BootEvent.poll ("-s " ++ "emulator-5554" ++ " shell getprop sys.boot_completed")] ∧
      (events.filter BootEvent.isPoll).length = 2 + 1) ∧
    (∃ events : List BootEvent,
      waitForBoot ⟨fun _ => 0, fun n =>
          if n < 1 then ⟨some "device offline", "", "error"⟩ else ⟨none, "1", ""⟩⟩
        "emulator-5554" 5000 2 = some ⟨.ok (), events⟩ ∧
      events = (List.replicate 1
          [BootEvent.poll ("-s " ++ "emulator-5554" ++ " shell getprop sys.boot_completed"),
            BootEvent.sleep 3000]).flatten ++
        [BootEvent.poll ("-s " ++ "emulator-5554" ++ " shell getprop sys.boot_completed")] ∧
      (events.filter BootEvent.isPoll).length = 1 + 1) :=
  ⟨waitForBoot_resolves_at_first_boot
      ⟨fun _ => 0, fun n => if n < 2 then ⟨none, "0", ""⟩ else ⟨none, "1", ""⟩⟩
      "emulator-5554" 5000 2 3 (by intro j _; simp)
      (by
        intro j hj h
        simp only [hj, if_true] at h
        exact absurd (Except.ok.inj h) (by decide))
      rfl (by decide),
    waitForBoot_resolves_at_first_boot
      ⟨fun _ => 0, fun n =>
        if n < 1 then ⟨some "device offline", "", "error"⟩ else ⟨none, "1", ""⟩⟩
      "emulator-5554" 5000 1 2 (by intro j _; simp)
      (by
        intro j hj h
        simp only [hj, if_true] at h
        cases h)
      rfl (by decide)⟩

theorem bootLoop_error_is_timeout (env : BootEnv) (deviceSerial : String) (timeoutMs : Int) :
    ∀ (fuel n : Nat) (events : List BootEvent) (run : BootRun) (error : String),
      bootLoop env deviceSerial timeoutMs fuel n events = some run →
      run.outcome = .error error →
      error = "Timeout waiting for device " ++ deviceSerial ++ " to boot." := by
  intro fuel
  induction fuel with
  | zero => intro n events run error h; simp [bootLoop] at h
  | succ fuel ih =>
    intro n events run error h herr
    by_cases hc : env.clock (n + 1) - env.clock 0 < timeoutMs
    · simp only [bootLoop, hc, if_true] at h
      cases hr : runAdbCommand (env.poll n) with
      | error e =>
        rw [hr] at h
        exact ih _ _ run error h herr
      | ok output =>
        rw [hr] at h
        by_cases hone : output = "1"
        · simp only [hone, if_true, Option.some.injEq] at h
          subst h
          cases herr
        · simp only [hone, if_false] at h
          exact ih _ _ run error h herr
    · simp only [bootLoop, hc, if_false, Option.some.injEq] at h
      subst h
      exact (Except.error.inj herr).symm

/-- C14: when iteration `m` is the first at whose head the elapsed time is not below
`timeoutMs`, and none of the `m` polls before it had the trimmed output `1`,
`waitForBoot` fails with `Timeout waiting for device <serial> to boot.` after those
`m` polls, given fuel for them; and whenever `waitForBoot` fails, it fails with that
message. -/
theorem waitForBoot_fails_only_by_timeout (env : BootEnv) (deviceSerial : String)
    (timeoutMs : Int) :
    (∀ m fuel : Nat,
      (∀ j : Nat, j < m → env.clock (j + 1) - env.clock 0 < timeoutMs) →
      ¬ (env.clock (m + 1) - env.clock 0 < timeoutMs) →
      (∀ j : Nat, j < m → runAdbCommand (env.poll j) ≠ .ok "1") →
      m < fuel →
      ∃ events : List BootEvent,
        waitForBoot env deviceSerial timeoutMs fuel =
          some ⟨.error ("Timeout waiting for device " ++ deviceSerial ++ " to boot."), events⟩ ∧
        (events.filter BootEvent.isPoll).length = m) ∧
    (∀ (fuel : Nat) (run : BootRun) (error : String),
      waitForBoot env deviceSerial timeoutMs fuel = some run →
      run.outcome = .error error →
      error = "Timeout waiting for device " ++ deviceSerial ++ " to boot.") := by
  refine ⟨?_, ?_⟩
  · intro m fuel hclock hout hpolls hfuel
    obtain ⟨rest, hrest⟩ : ∃ rest, fuel = m + (rest + 1) := ⟨fuel - m - 1, by omega⟩
    refine ⟨(List.replicate m
      [BootEvent.poll ("-s " ++ deviceSerial ++ " shell getprop sys.boot_completed"),
        BootEvent.sleep 3000]).flatten, ?_, ?_⟩
    · rw [waitForBoot, hrest, bootLoop_not_booted env deviceSerial timeoutMs m 0 (rest + 1) []
        (fun j _ h2 => hclock j (by omega)) (fun j _ h2 => hpolls j (by omega))]
      simp only [Nat.zero_add, List.nil_append, bootLoop, hout, if_false]
    · exact filter_isPoll_rounds _ m
  · intro fuel run error h herr
    exact bootLoop_error_is_timeout env deviceSerial timeoutMs fuel 0 [] run error h herr

/-- Witness of C14: every poll answers `0` and the second reading of the elapsed time
has reached the timeout of 10 ms, so the call fails after one poll. -/
theorem waitForBoot_fails_only_by_timeout_witness :
    ∃ events : List BootEvent,
      waitForBoot ⟨fun n => 5 * n, fun _ => ⟨none, "0", ""⟩⟩ "emulator-5554" 10 2 =
        some ⟨.error ("Timeout waiting for device " ++ "emulator-5554" ++ " to boot."), events⟩ ∧
      (events.filter BootEvent.isPoll).length = 1 :=
  (waitForBoot_fails_only_by_timeout ⟨fun n => 5 * n, fun _ => ⟨none, "0", ""⟩⟩
    "emulator-5554" 10).1 1 2
    (by intro j hj; have hj0 : j = 0 := by omega
        subst hj0; decide)
    (by decide)
    (by
      intro j _ h
      have h2 : jsTrim "0" = "1" := Except.ok.inj h
      exact absurd h2 (by decide))
    (by decide)

theorem falsy_some (value : String) (h : value ≠ "") : falsy (some value) = false := by
  simp [falsy, h]

theorem runSingle_spec (exec : String → ExecResult) (command : String) :
    (runSingle exec command).commands = [command] ∧
    (∀ stdout stderr : String, exec command = ⟨none, stdout, stderr⟩ →
      (runSingle exec command).outcome = .ok ⟨jsTrim stdout, none⟩) ∧
    (∀ error stdout stderr : String, exec command = ⟨some error, stdout, stderr⟩ →
      (runSingle exec command).outcome = .error error) := by
  refine ⟨?_, ?_, ?_⟩
  · unfold runSingle
    cases runAdbCommand (exec command) <;> rfl
  · intro stdout stderr h
    simp [runSingle, runAdbCommand, h]
  · intro error stdout stderr h
    simp [runSingle, runAdbCommand, h]

theorem dropWhile_head_not (p : Char → Bool) :
    ∀ (l : List Char) (c : Char), (l.dropWhile p).head? = some c → p c = false := by
  intro l
  induction l with
  | nil => intro c h; simp at h
  | cons x xs ih =>
    intro c h
    by_cases hx : p x = true
    · rw [List.dropWhile_cons_of_pos hx] at h
      exact ih c h
    · rw [List.dropWhile_cons_of_neg hx] at h
      simp only [List.head?_cons, Option.some.injEq] at h
      subst h
      simpa using hx

theorem takeWhile_all (p : Char → Bool) (l : List Char) : ∀ c ∈ l.takeWhile p, p c = true :=
  fun _ hc => List.mem_takeWhile_imp hc

theorem jsTrim_spec (s : String) :
    ∃ lead trail : List Char,
      s.data = lead ++ (jsTrim s).data ++ trail ∧
      (∀ c ∈ lead, isJsWhiteSpace c = true) ∧ (∀ c ∈ trail, isJsWhiteSpace c = true) ∧
      (∀ c, (jsTrim s).data.head? = some c → isJsWhiteSpace c = false) ∧
      (∀ c, (jsTrim s).data.getLast? = some c → isJsWhiteSpace c = false) := by
  have hback : (s.data.dropWhile isJsWhiteSpace) =
      ((s.data.dropWhile isJsWhiteSpace).reverse.dropWhile isJsWhiteSpace).reverse ++
        ((s.data.dropWhile isJsWhiteSpace).reverse.takeWhile isJsWhiteSpace).reverse := by
    rw [← List.reverse_append, List.takeWhile_append_dropWhile, List.reverse_reverse]
  refine ⟨s.data.takeWhile isJsWhiteSpace,
    ((s.data.dropWhile isJsWhiteSpace).reverse.takeWhile isJsWhiteSpace).reverse, ?_, ?_, ?_, ?_, ?_⟩
  · simp only [jsTrim]
    rw [List.append_assoc, ← hback, List.takeWhile_append_dropWhile]
  · exact takeWhile_all _ _
  · intro c hc
    exact takeWhile_all isJsWhiteSpace _ c (List.mem_reverse.mp hc)
  · intro c hc
    simp only [jsTrim] at hc
    apply dropWhile_head_not isJsWhiteSpace s.data c
    rw [hback]
    cases hr : ((s.data.dropWhile isJsWhiteSpace).reverse.dropWhile isJsWhiteSpace).reverse with
    | nil => rw [hr] at hc; simp at hc
    | cons x xs => rw [hr] at hc; simpa using hc
  · intro c hc
    simp only [jsTrim, List.getLast?_reverse] at hc
    exact dropWhile_head_not isJsWhiteSpace _ c hc

/-- C15 as stated fails: `install` with the member `apkPath` present but empty is
rejected with `APK path is required in payload` and runs no bridge command, where the
claim has one bridge command run whenever the required members are present. -/
theorem executeCommand_rejects_empty_member :
    ({ apkPath := some "" } : Payload).apkPath.isSome = true ∧
    (executeCommand (fun _ => ⟨none, "Success\n", ""⟩) 0 "emulator-5554" "install"
      { apkPath := some "" }).outcome = .error "APK path is required in payload" ∧
    (executeCommand (fun _ => ⟨none, "Success\n", ""⟩) 0 "emulator-5554" "install"
      { apkPath := some "" }).commands = [] :=
  ⟨rfl, rfl, rfl⟩

/-- C15 (amended): `executeCommand` fails with a descriptive error and runs no bridge
command when a required payload member is missing or empty: `install` without
`apkPath`, `shell` without `shellCommand`, `uninstall` without `packageName`,
`launch` without `packageName` or without `activityName`. When the required members
are present and non-empty, exactly one bridge command is run; when the bridge reports
no error for it the result is `{ output }` with the trimmed standard output, and an
error of the bridge is passed on. The trimmed output is the standard output without
the white space and line terminators at its two ends. -/
theorem executeCommand_validates_payload (exec : String → ExecResult) (now : Nat)
    (deviceSerial : String) (payload : Payload) :
    (payload.apkPath = none ∨ payload.apkPath = some "" →
      (executeCommand exec now deviceSerial "install" payload).outcome =
        .error "APK path is required in payload" ∧
      (executeCommand exec now deviceSerial "install" payload).commands = []) ∧
    (payload.shellCommand = none ∨ payload.shellCommand = some "" →
      (executeCommand exec now deviceSerial "shell" payload).outcome =
        .error "Shell command is required in payload" ∧
      (executeCommand exec now deviceSerial "shell" payload).commands = []) ∧
    (payload.packageName = none ∨ payload.packageName = some "" →
      (executeCommand exec now deviceSerial "uninstall" payload).outcome =
        .error "Package name is required in payload" ∧
      (executeCommand exec now deviceSerial "uninstall" payload).commands = []) ∧
    ((payload.packageName = none ∨ payload.packageName = some "") ∨
        (payload.activityName = none ∨ payload.activityName = some "") →
      (executeCommand exec now deviceSerial "launch" payload).outcome =
        .error "Package name and activity name are required in payload" ∧
      (executeCommand exec now deviceSerial "launch" payload).commands = []) ∧
    (∀ apkPath : String, payload.apkPath = some apkPath → apkPath ≠ "" →
      (executeCommand exec now deviceSerial "install" payload).commands =
        ["-s " ++ deviceSerial ++ " install -r " ++ apkPath] ∧
      (∀ stdout stderr : String,
        exec ("-s " ++ deviceSerial ++ " install -r " ++ apkPath) = ⟨none, stdout, stderr⟩ →
        (executeCommand exec now deviceSerial "install" payload).outcome =
          .ok ⟨jsTrim stdout, none⟩) ∧
      (∀ error stdout stderr : String,
        exec ("-s " ++ deviceSerial ++ " install -r " ++ apkPath) =
          ⟨some error, stdout, stderr⟩ →
        (executeCommand exec now deviceSerial "install" payload).outcome = .error error)) ∧
    (∀ shellCommand : String, payload.shellCommand = some shellCommand → shellCommand ≠ "" →
      (executeCommand exec now deviceSerial "shell" payload).commands =
        ["-s " ++ deviceSerial ++ " shell " ++ shellCommand] ∧
      (∀ stdout stderr : String,
        exec ("-s " ++ deviceSerial ++ " shell " ++ shellCommand) = ⟨none, stdout, stderr⟩ →
        (executeCommand exec now deviceSerial "shell" payload).outcome =
          .ok ⟨jsTrim stdout, none⟩) ∧
      (∀ error stdout stderr : String,
        exec ("-s " ++ deviceSerial ++ " shell " ++ shellCommand) =
          ⟨some error, stdout, stderr⟩ →
        (executeCommand exec now deviceSerial "shell" payload).outcome = .error error)) ∧
    (∀ packageName : String, payload.packageName = some packageName → packageName ≠ "" →
      (executeCommand exec now deviceSerial "uninstall" payload).commands =
        ["-s " ++ deviceSerial ++ " uninstall " ++ packageName] ∧
      (∀ stdout stderr : String,
        exec ("-s " ++ deviceSerial ++ " uninstall " ++ packageName) = ⟨none, stdout, stderr⟩ →
        (executeCommand exec now deviceSerial "uninstall" payload).outcome =
          .ok ⟨jsTrim stdout, none⟩) ∧
      (∀ error stdout stderr : String,
        exec ("-s " ++ deviceSerial ++ " uninstall " ++ packageName) =
          ⟨some error, stdout, stderr⟩ →
        (executeCommand exec now deviceSerial "uninstall" payload).outcome = .error error)) ∧
    (∀ packageName activityName : String, payload.packageName = some packageName →
      payload.activityName = some activityName → packageName ≠ "" → activityName ≠ "" →
      (executeCommand exec now deviceSerial "launch" payload).commands =
        ["-s " ++ deviceSerial ++ " shell am start -n " ++ packageName ++ "/" ++ activityName] ∧
      (∀ stdout stderr : String,
        exec ("-s " ++ deviceSerial ++ " shell am start -n " ++ packageName ++ "/" ++
          activityName) = ⟨none, stdout, stderr⟩ →
        (executeCommand exec now deviceSerial "launch" payload).outcome =
          .ok ⟨jsTrim stdout, none⟩) ∧
      (∀ error stdout stderr : String,
        exec ("-s " ++ deviceSerial ++ " shell am start -n " ++ packageName ++ "/" ++
          activityName) = ⟨some error, stdout, stderr⟩ →
        (executeCommand exec now deviceSerial "launch" payload).outcome = .error error)) ∧
    (∀ stdout : String, ∃ lead trail : List Char,
      stdout.data = lead ++ (jsTrim stdout).data ++ trail ∧
      (∀ c ∈ lead, isJsWhiteSpace c = true) ∧ (∀ c ∈ trail, isJsWhiteSpace c = true) ∧
      (∀ c, (jsTrim stdout).data.head? = some c → isJsWhiteSpace c = false) ∧
      (∀ c, (jsTrim stdout).data.getLast? = some c → isJsWhiteSpace c = false)) := by
  have hfalsy : ∀ member : Option String, member = none ∨ member = some "" →
      falsy member = true := by
    intro member h
    rcases h with rfl | rfl <;> rfl
  refine ⟨?_, ?_, ?_, ?_, ?_, ?_, ?_, ?_, jsTrim_spec⟩
  · intro h
    simp [executeCommand, hfalsy _ h]
  · intro h
    simp [executeCommand, hfalsy _ h]
  · intro h
    simp [executeCommand, hfalsy _ h]
  · intro h
    rcases h with h | h
    · simp [executeCommand, hfalsy _ h]
    · simp [executeCommand, hfalsy _ h]
  · intro apkPath hp hne
    have hf := falsy_some apkPath hne
    have hrun : executeCommand exec now deviceSerial "install" payload =
        runSingle exec ("-s " ++ deviceSerial ++ " install -r " ++ apkPath) := by
      simp [executeCommand, hp, hf]
    rw [hrun]
    exact runSingle_spec exec _
  · intro shellCommand hp hne
    have hf := falsy_some shellCommand hne
    have hrun : executeCommand exec now deviceSerial "shell" payload =
        runSingle exec ("-s " ++ deviceSerial ++ " shell " ++ shellCommand) := by
      simp [executeCommand, hp, hf]
    rw [hrun]
    exact runSingle_spec exec _
  · intro packageName hp hne
    have hf := falsy_some packageName hne
    have hrun : executeCommand exec now deviceSerial "uninstall" payload =
        runSingle exec ("-s " ++ deviceSerial ++ " uninstall " ++ packageName) := by
      simp [executeCommand, hp, hf]
    rw [hrun]
    exact runSingle_spec exec _
  · intro packageName activityName hp ha hne1 hne2
    have hf1 := falsy_some packageName hne1
    have hf2 := falsy_some activityName hne2
    have hrun : executeCommand exec now deviceSerial "launch" payload =
        runSingle exec ("-s " ++ deviceSerial ++ " shell am start -n " ++ packageName ++ "/" ++
          activityName) := by
      simp [executeCommand, hp, ha, hf1, hf2]
    rw [hrun]
    exact runSingle_spec exec _

/-- Witness of C15 (amended): `install` with an empty payload fails before any bridge
command, and `shell` with `ls` runs one command and returns the output ` file.txt`
followed by a line feed as `file.txt`. -/
theorem executeCommand_validates_payload_witness :
    ((executeCommand (fun _ => ⟨none, " file.txt\n", ""⟩) 0 "emulator-5554" "install" {}).outcome =
        .error "APK path is required in payload" ∧
      (executeCommand (fun _ => ⟨none, " file.txt\n", ""⟩) 0 "emulator-5554" "install"
        {}).commands = []) ∧
    (executeCommand (fun _ => ⟨none, " file.txt\n", ""⟩) 0 "emulator-5554" "shell"
        { shellCommand := some "ls" }).commands = ["-s emulator-5554 shell ls"] ∧
    (executeCommand (fun _ => ⟨none, " file.txt\n", ""⟩) 0 "emulator-5554" "shell"
        { shellCommand := some "ls" }).outcome = .ok ⟨"file.txt", none⟩ :=
  ⟨(executeCommand_validates_payload (fun _ => ⟨none, " file.txt\n", ""⟩) 0 "emulator-5554"
      {}).1 (Or.inl rfl),
    ((executeCommand_validates_payload (fun _ => ⟨none, " file.txt\n", ""⟩) 0 "emulator-5554"
      { shellCommand := some "ls" }).2.2.2.2.2.1 "ls" rfl (by decide)).1,
    ((executeCommand_validates_payload (fun _ => ⟨none, " file.txt\n", ""⟩) 0 "emulator-5554"
      { shellCommand := some "ls" }).2.2.2.2.2.1 "ls" rfl (by decide)).2.1 " file.txt\n" "" rfl⟩

/-- C16: for every command string other than `shell`, `install`, `uninstall`,
`screenshot` and `launch`, `executeCommand` fails with `Unsupported command:
<command>` and runs no bridge command. -/
theorem executeCommand_unsupported (exec : String → ExecResult) (now : Nat)
    (deviceSerial command : String) (payload : Payload)
    (h1 : command ≠ "shell") (h2 : command ≠ "install") (h3 : command ≠ "uninstall")
    (h4 : command ≠ "screenshot") (h5 : command ≠ "launch") :
    (executeCommand exec now deviceSerial command payload).outcome =
      .error ("Unsupported command: " ++ command) ∧
    (executeCommand exec now deviceSerial command payload).commands = [] := by
  simp [executeCommand, h1, h2, h3, h4, h5]

/-- Witness of C16: the command `reboot`. -/
theorem executeCommand_unsupported_witness :
    (executeCommand (fun _ => ⟨none, "", ""⟩) 0 "emulator-5554" "reboot" {}).outcome =
      .error ("Unsupported command: " ++ "reboot") ∧
    (executeCommand (fun _ => ⟨none, "", ""⟩) 0 "emulator-5554" "reboot" {}).commands = [] :=
  executeCommand_unsupported (fun _ => ⟨none, "", ""⟩) 0 "emulator-5554" "reboot" {}
    (by decide) (by decide) (by decide) (by decide) (by decide)

/-- C17: for every serial and payload, `executeCommand` with `screenshot`, when the
bridge reports no error for either command, runs exactly two bridge commands in
order, the capture to `/sdcard/screenshot.png` and the pull of that path to
`/tmp/screenshot_<serial>_<timestamp>.png`, and returns that host path as `filePath`. -/
theorem executeCommand_screenshot (exec : String → ExecResult) (now : Nat)
    (deviceSerial : String) (payload : Payload)
    (hcapture : (exec ("-s " ++ deviceSerial ++
      " shell screencap -p /sdcard/screenshot.png")).error = none)
    (hpull : (exec ("-s " ++ deviceSerial ++ " pull /sdcard/screenshot.png " ++
      ("/tmp/screenshot_" ++ deviceSerial ++ "_" ++ toString now ++ ".png"))).error = none) :
    (executeCommand exec now deviceSerial "screenshot" payload).commands =
      ["-s " ++ deviceSerial ++ " shell screencap -p /sdcard/screenshot.png",
        "-s " ++ deviceSerial ++ " pull /sdcard/screenshot.png " ++
          ("/tmp/screenshot_" ++ deviceSerial ++ "_" ++ toString now ++ ".png")] ∧
    (executeCommand exec now deviceSerial "screenshot" payload).outcome =
      .ok ⟨"Screenshot captured",
        some ("/tmp/screenshot_" ++ deviceSerial ++ "_" ++ toString now ++ ".png")⟩ := by
  simp [executeCommand, runAdbCommand, hcapture, hpull]

/-- Witness of C17: a screenshot of `emulator-5554` at the clock reading
1700000000000, with an empty payload. -/
theorem executeCommand_screenshot_witness :
    (executeCommand (fun _ => ⟨none, "", ""⟩) 1700000000000 "emulator-5554" "screenshot"
        {}).commands =
      ["-s emulator-5554 shell screencap -p /sdcard/screenshot.png",
        "-s emulator-5554 pull /sdcard/screenshot.png " ++
          "/tmp/screenshot_emulator-5554_1700000000000.png"] ∧
    (executeCommand (fun _ => ⟨none, "", ""⟩) 1700000000000 "emulator-5554" "screenshot"
        {}).outcome =
      .ok ⟨"Screenshot captured", some "/tmp/screenshot_emulator-5554_1700000000000.png"⟩ :=
  executeCommand_screenshot (fun _ => ⟨none, "", ""⟩) 1700000000000 "emulator-5554" {} rfl rfl

end AdbManager

/-! ## Properties of the instance lifecycle -/

namespace EmulatorManager

open AdbManager

theorem lookup_mapDelete (key : String) :
    ∀ m : Tracking, (mapDelete m key).lookup key = none := by
  intro m
  induction m with
  | nil => rfl
  | cons kv rest ih =>
    obtain ⟨k, v⟩ := kv
    by_cases h : k = key
    · subst h
      simpa [mapDelete, List.filter_cons] using ih
    · have hne : (key == k) = false := by simpa using fun h2 : key = k => h h2.symm
      have hne2 : (k != key) = true := by simpa using h
      simp only [mapDelete, List.filter_cons, hne2, if_true, List.lookup, hne]
      exact ih

theorem mapDelete_of_lookup_none (key : String) :
    ∀ m : Tracking, m.lookup key = none → mapDelete m key = m := by
  intro m
  induction m with
  | nil => intro _; rfl
  | cons kv rest ih =>
    obtain ⟨k, v⟩ := kv
    intro h
    by_cases hk : key = k
    · subst hk
      simp [List.lookup] at h
    · have hne : (key == k) = false := by simpa using hk
      have hne2 : (k != key) = true := by simpa using fun h2 : k = key => hk h2.symm
      simp only [List.lookup, hne] at h
      simp only [mapDelete, List.filter_cons, hne2, if_true]
      have := ih h
      simp only [mapDelete] at this
      rw [this]

theorem mapDelete_mapSet (key : String) (value : Entry) :
    ∀ m : Tracking, mapDelete (mapSet m key value) key = mapDelete m key := by
  intro m
  induction m with
  | nil => simp [mapSet, mapDelete, List.filter_cons]
  | cons kv rest ih =>
    obtain ⟨k, v⟩ := kv
    by_cases h : k = key
    · subst h
      simp [mapSet, mapDelete, List.filter_cons]
    · have hne2 : (k != key) = true := by simpa using h
      simp only [mapSet, h, if_false, mapDelete, List.filter_cons, hne2, if_true]
      have := ih
      simp only [mapDelete] at this
      rw [this]

theorem mapDelete_idem (key : String) (m : Tracking) :
    mapDelete (mapDelete m key) key = mapDelete m key :=
  mapDelete_of_lookup_none key _ (lookup_mapDelete key m)

theorem lookup_mapSet (key : String) (value : Entry) :
    ∀ m : Tracking, (mapSet m key value).lookup key = some value := by
  intro m
  induction m with
  | nil => simp [mapSet, List.lookup]
  | cons kv rest ih =>
    obtain ⟨k, v⟩ := kv
    by_cases h : k = key
    · subst h
      simp [mapSet, List.lookup]
    · have hne : (key == k) = false := by simpa using fun h2 : key = k => h h2.symm
      simp only [mapSet, h, if_false, List.lookup, hne]
      exact ih

/-- The map that `startEmulator` holds once the child is spawned and the settle delay
is over. -/
theorem tracked_delete (running : Tracking) (env : StartEnv) (entry : Entry) :
    mapDelete (if env.exited then mapDelete (mapSet running env.instanceId entry) env.instanceId
      else mapSet running env.instanceId entry) env.instanceId =
      mapDelete running env.instanceId := by
  cases env.exited
  · simp only [Bool.false_eq_true, if_false]
    exact mapDelete_mapSet _ _ _
  · simp only [if_true]
    rw [mapDelete_idem, mapDelete_mapSet]

theorem cleanup_eq (env : StartEnv) (tracked : Tracking) (effects : List Effect)
    (error : String) :
    cleanup env tracked effects error =
      ⟨.error error, mapDelete tracked env.instanceId,
        effects ++ [Effect.kill env.pid "SIGTERM"]⟩ := by
  unfold cleanup
  cases env.killThrows <;> rfl

theorem startEmulator_ready (running : Tracking) (config : Config) (env : StartEnv)
    (avdName deviceSerial : String) (events : List BootEvent)
    (hname : config.opts.avdName = some avdName) (hne : avdName ≠ "")
    (hdisc : findNewEmulatorDevice (runAdbCommand env.devices) = .ok deviceSerial)
    (hboot : waitForBoot env.boot deviceSerial 120000 env.bootFuel = some ⟨.ok (), events⟩)
    (hforward : ∃ out, runAdbCommand env.forward = .ok out)
    (hagent : ∃ out, runAdbCommand env.agent = .ok out) :
    startEmulator running config env =
      some ⟨.ok ⟨env.instanceId, deviceSerial, avdName,
          "http://localhost:" ++ toString env.hostPort⟩,
        mapSet
          (if env.exited then
            mapDelete (mapSet running env.instanceId ⟨some env.pid, avdName, none, none, none⟩)
              env.instanceId
          else mapSet running env.instanceId ⟨some env.pid, avdName, none, none, none⟩)
          env.instanceId
          ⟨((if env.exited then
              mapDelete (mapSet running env.instanceId ⟨some env.pid, avdName, none, none, none⟩)
                env.instanceId
            else mapSet running env.instanceId
              ⟨some env.pid, avdName, none, none, none⟩).lookup env.instanceId).bind
              (fun e => e.process),
            avdName, some env.instanceId, some deviceSerial,
            some ("http://localhost:" ++ toString env.hostPort)⟩,
        [Effect.spawn (launchArgs avdName config.opts), Effect.sleep 5000] ++
          (if env.exited then [Effect.deregisterPost env.instanceId] else []) ++
          [Effect.adb "devices"] ++ events.map bootEffect ++
          [Effect.adb (forwardCommand deviceSerial env.hostPort 8080)] ++
          [Effect.adb (startAgentCommand deviceSerial)] ++
          [Effect.registerPost ⟨env.instanceId, deviceSerial, avdName,
            "http://localhost:" ++ toString env.hostPort⟩]⟩ := by
  obtain ⟨out1, hf⟩ := hforward
  obtain ⟨out2, ha⟩ := hagent
  simp only [startEmulator, hname, hne, if_false, hdisc, hboot, hf, ha]
  cases env.registration <;> rfl

theorem startEmulator_ok_inv (running : Tracking) (config : Config) (env : StartEnv)
    (run : StartRun) (details : InstanceDetails)
    (h : startEmulator running config env = some run) (hok : run.outcome = .ok details) :
    ∃ (avdName : String) (events : List BootEvent),
      config.opts.avdName = some avdName ∧ avdName ≠ "" ∧
      findNewEmulatorDevice (runAdbCommand env.devices) = .ok details.deviceSerial ∧
      waitForBoot env.boot details.deviceSerial 120000 env.bootFuel = some ⟨.ok (), events⟩ ∧
      (∃ out, runAdbCommand env.forward = .ok out) ∧
      (∃ out, runAdbCommand env.agent = .ok out) ∧
      details = ⟨env.instanceId, details.deviceSerial, avdName,
        "http://localhost:" ++ toString env.hostPort⟩ := by
  unfold startEmulator at h
  cases hn : config.opts.avdName with
  | none =>
    rw [hn] at h
    simp only [Option.some.injEq] at h
    subst h
    cases hok
  | some avdName =>
    rw [hn] at h
    by_cases hne : avdName = ""
    · simp only [hne, if_true, Option.some.injEq] at h
      subst h
      cases hok
    · simp only [hne, if_false] at h
      cases hd : findNewEmulatorDevice (runAdbCommand env.devices) with
      | error e =>
        rw [hd] at h
        simp only [cleanup_eq, Option.some.injEq] at h
        subst h
        cases hok
      | ok serial =>
        rw [hd] at h
        simp only at h
        cases hb : waitForBoot env.boot serial 120000 env.bootFuel with
        | none => rw [hb] at h; simp at h
        | some boot =>
          rw [hb] at h
          simp only at h
          obtain ⟨outcome, events⟩ := boot
          cases outcome with
          | error e =>
            simp only [cleanup_eq, Option.some.injEq] at h
            subst h
            cases hok
          | ok u =>
            simp only at h
            cases hf : runAdbCommand env.forward with
            | error e =>
              rw [hf] at h
              simp only [cleanup_eq, Option.some.injEq] at h
              subst h
              cases hok
            | ok out1 =>
              rw [hf] at h
              simp only at h
              cases ha : runAdbCommand env.agent with
              | error e =>
                rw [ha] at h
                simp only [cleanup_eq, Option.some.injEq] at h
                subst h
                cases hok
              | ok out2 =>
                rw [ha] at h
                have hrun : run.outcome = .ok ⟨env.instanceId, serial, avdName,
                    "http://localhost:" ++ toString env.hostPort⟩ := by
                  cases hr : env.registration <;> rw [hr] at h <;>
                    simp only [Option.some.injEq] at h <;> subst h <;> rfl
                rw [hrun] at hok
                have hdet := Except.ok.inj hok
                subst hdet
                exact ⟨avdName, events, rfl, hne, rfl, hb, ⟨out1, rfl⟩, ⟨out2, rfl⟩, rfl⟩

/-- C12 at the failing input: with `inst-a` tracked on `emulator-5554`, a
`startEmulator` call for a new emulator, made while the device list shows
`emulator-5554` in state `device` and the new `emulator-5556` still `offline`,
discovers `emulator-5554`, the serial of the instance already tracked, and afterwards
two tracked instances share that serial. -/
theorem startEmulator_rediscovers_tracked_device :
    ∃ run : StartRun,
      startEmulator
        [("inst-a", ⟨some 100, "Pixel_34", some "inst-a", some "emulator-5554",
          some "http://localhost:12000"⟩)]
        (.name "Pixel_35")
        { instanceId := "inst-b", pid := 200, exited := false,
          devices := ⟨none,
            "List of devices attached\nemulator-5554\tdevice\nemulator-5556\toffline\n", ""⟩,
          boot := ⟨fun n => 3000 * n, fun _ => ⟨none, "1\n", ""⟩⟩, bootFuel := 1,
          hostPort := 12345, forward := ⟨none, "12345\n", ""⟩, agent := ⟨none, "", ""⟩,
          registration := .ok (), killThrows := false } = some run ∧
      run.outcome = .ok ⟨"inst-b", "emulator-5554", "Pixel_35", "http://localhost:12345"⟩ ∧
      run.running.map (fun kv => (kv.1, kv.2.deviceSerial)) =
        [("inst-a", some "emulator-5554"), ("inst-b", some "emulator-5554")] :=
  ⟨_, rfl, rfl, by decide⟩

/-- Discovery never reads the tracking map: the deviceSerial of a successful
`startEmulator` call is the one that `findNewEmulatorDevice` reads from the device list
of the bridge, and the same call made with any other tracking map returns the same
details. -/
theorem startEmulator_discovery_ignores_tracking (running : Tracking) (config : Config)
    (env : StartEnv) (run : StartRun) (details : InstanceDetails)
    (h : startEmulator running config env = some run) (hok : run.outcome = .ok details) :
    findNewEmulatorDevice (runAdbCommand env.devices) = .ok details.deviceSerial ∧
    ∀ other : Tracking, ∃ run2 : StartRun,
      startEmulator other config env = some run2 ∧ run2.outcome = .ok details := by
  obtain ⟨avdName, events, hname, hne, hdisc, hboot, hforward, hagent, hdetails⟩ :=
    startEmulator_ok_inv running config env run details h hok
  refine ⟨hdisc, ?_⟩
  intro other
  refine ⟨_, startEmulator_ready other config env avdName details.deviceSerial events hname hne
    hdisc hboot hforward hagent, ?_⟩
  rw [hdetails]

/-- An instance of the lemma above: a start with nothing tracked and two running
emulators listed returns the first one listed. -/
theorem startEmulator_discovery_ignores_tracking_witness :
    findNewEmulatorDevice (runAdbCommand ⟨none,
      "List of devices attached\nemulator-5556\tdevice\nemulator-5554\tdevice\n", ""⟩) =
      .ok "emulator-5556" := by
  obtain ⟨run, hrun, hout⟩ : ∃ run : StartRun,
      startEmulator [] (.name "Pixel_34")
        { instanceId := "inst-a", pid := 100, exited := false,
          devices := ⟨none,
            "List of devices attached\nemulator-5556\tdevice\nemulator-5554\tdevice\n", ""⟩,
          boot := ⟨fun n => 3000 * n, fun _ => ⟨none, "1\n", ""⟩⟩, bootFuel := 1,
          hostPort := 12000, forward := ⟨none, "12000\n", ""⟩, agent := ⟨none, "", ""⟩,
          registration := .ok (), killThrows := false } = some run ∧
      run.outcome = .ok ⟨"inst-a", "emulator-5556", "Pixel_34", "http://localhost:12000"⟩ :=
    ⟨_, rfl, rfl⟩
  exact (startEmulator_discovery_ignores_tracking _ _ _ run _ hrun hout).1

/-- C18 as stated fails: when the child exits during the settle delay of a start that
goes on to succeed, the id ends up tracked by an entry without a process, and
`stopEmulator` on that tracked id returns `false` and leaves the entry in place. -/
theorem stopEmulator_false_on_tracked_id :
    ∃ run : StartRun,
      startEmulator [] (.name "Pixel_34")
        { instanceId := "inst-a", pid := 100, exited := true,
          devices := ⟨none, "List of devices attached\nemulator-5554\tdevice\n", ""⟩,
          boot := ⟨fun n => 3000 * n, fun _ => ⟨none, "1\n", ""⟩⟩, bootFuel := 1,
          hostPort := 12000, forward := ⟨none, "12000\n", ""⟩, agent := ⟨none, "", ""⟩,
          registration := .ok (), killThrows := false } = some run ∧
      run.running = [("inst-a", ⟨none, "Pixel_34", some "inst-a", some "emulator-5554",
        some "http://localhost:12000"⟩)] ∧
      (stopEmulator run.running "inst-a").stopped = false ∧
      (stopEmulator run.running "inst-a").running = run.running :=
  ⟨_, rfl, by decide, by decide, by decide⟩

/-- C18 (amended): `stopEmulator` on an untracked id, or on a tracked id whose entry
holds no process, returns `false`, issues nothing and leaves the tracking map
unchanged (the route answers 404); on a tracked id whose entry holds a process it
returns `true`, sends SIGTERM to that process and deletes the entry (the route
answers 200), so that a second `stopEmulator` on the same id returns `false`. -/
theorem stopEmulator_spec (running : Tracking) (instanceId : String) :
    (running.lookup instanceId = none →
      (stopEmulator running instanceId).stopped = false ∧
      (stopEmulator running instanceId).running = running ∧
      (stopEmulator running instanceId).effects = [] ∧
      (stopRoute running instanceId).1 = 404) ∧
    (∀ entry : Entry, running.lookup instanceId = some entry → entry.process = none →
      (stopEmulator running instanceId).stopped = false ∧
      (stopEmulator running instanceId).running = running ∧
      (stopEmulator running instanceId).effects = [] ∧
      (stopRoute running instanceId).1 = 404) ∧
    (∀ (entry : Entry) (pid : Nat), running.lookup instanceId = some entry →
      entry.process = some pid →
      (stopEmulator running instanceId).stopped = true ∧
      (stopEmulator running instanceId).running = mapDelete running instanceId ∧
      (stopEmulator running instanceId).running.lookup instanceId = none ∧
      (stopEmulator running instanceId).effects =
        [Effect.kill pid "SIGTERM", Effect.deregisterPost instanceId] ∧
      (stopRoute running instanceId).1 = 200 ∧
      (stopEmulator (stopEmulator running instanceId).running instanceId).stopped = false ∧
      (stopEmulator (stopEmulator running instanceId).running instanceId).running =
        (stopEmulator running instanceId).running) := by
  refine ⟨?_, ?_, ?_⟩
  · intro h
    simp [stopEmulator, stopRoute, h]
  · intro entry h hp
    simp [stopEmulator, stopRoute, h, hp]
  · intro entry pid h hp
    have hgone := lookup_mapDelete instanceId running
    simp [stopEmulator, stopRoute, h, hp, hgone]

/-- Witness of C18 (amended): stopping the tracked instance `inst-a`, which holds
process 100, and then stopping it again. -/
theorem stopEmulator_spec_witness :
    (stopEmulator [("inst-a", ⟨some 100, "Pixel_34", none, none, none⟩)] "inst-a").stopped =
      true ∧
    (stopEmulator (stopEmulator [("inst-a", ⟨some 100, "Pixel_34", none, none, none⟩)]
      "inst-a").running "inst-a").stopped = false :=
  ⟨((stopEmulator_spec [("inst-a", ⟨some 100, "Pixel_34", none, none, none⟩)] "inst-a").2.2
      ⟨some 100, "Pixel_34", none, none, none⟩ 100 (by decide) rfl).1,
    ((stopEmulator_spec [("inst-a", ⟨some 100, "Pixel_34", none, none, none⟩)] "inst-a").2.2
      ⟨some 100, "Pixel_34", none, none, none⟩ 100 (by decide) rfl).2.2.2.2.2.1⟩

/-- C19: in a `startEmulator` call with a non-empty avdName in which discovery, the
boot wait, the port forwarding or the agent start fails with `error`, the spawned
child is sent SIGTERM, the call rejects with that same `error`, and the tracking map
is left without an entry for the new instanceId; when the new instanceId was not
tracked before the call, the map equals the map before the call. -/
theorem startEmulator_cleans_up_on_failure (running : Tracking) (config : Config)
    (env : StartEnv) (avdName error : String)
    (hname : config.opts.avdName = some avdName) (hne : avdName ≠ "")
    (hfail :
      findNewEmulatorDevice (runAdbCommand env.devices) = .error error ∨
      ∃ deviceSerial : String,
        findNewEmulatorDevice (runAdbCommand env.devices) = .ok deviceSerial ∧
        ((∃ events, waitForBoot env.boot deviceSerial 120000 env.bootFuel =
            some ⟨.error error, events⟩) ∨
          (∃ events, waitForBoot env.boot deviceSerial 120000 env.bootFuel =
            some ⟨.ok (), events⟩) ∧
          (runAdbCommand env.forward = .error error ∨
            (∃ out, runAdbCommand env.forward = .ok out) ∧
              runAdbCommand env.agent = .error error))) :
    ∃ run : StartRun,
      startEmulator running config env = some run ∧
      run.outcome = .error error ∧
      Effect.kill env.pid "SIGTERM" ∈ run.effects ∧
      run.running = mapDelete running env.instanceId ∧
      run.running.lookup env.instanceId = none ∧
      (running.lookup env.instanceId = none → run.running = running) := by
  have hclean : ∀ (effects : List Effect),
      (cleanup env
        (if env.exited then
          mapDelete (mapSet running env.instanceId ⟨some env.pid, avdName, none, none, none⟩)
            env.instanceId
        else mapSet running env.instanceId ⟨some env.pid, avdName, none, none, none⟩)
        effects error).outcome = .error error ∧
      Effect.kill env.pid "SIGTERM" ∈ (cleanup env
        (if env.exited then
          mapDelete (mapSet running env.instanceId ⟨some env.pid, avdName, none, none, none⟩)
            env.instanceId
        else mapSet running env.instanceId ⟨some env.pid, avdName, none, none, none⟩)
        effects error).effects ∧
      (cleanup env
        (if env.exited then
          mapDelete (mapSet running env.instanceId ⟨some env.pid, avdName, none, none, none⟩)
            env.instanceId
        else mapSet running env.instanceId ⟨some env.pid, avdName, none, none, none⟩)
        effects error).running = mapDelete running env.instanceId ∧
      (cleanup env
        (if env.exited then
          mapDelete (mapSet running env.instanceId ⟨some env.pid, avdName, none, none, none⟩)
            env.instanceId
        else mapSet running env.instanceId ⟨some env.pid, avdName, none, none, none⟩)
        effects error).running.lookup env.instanceId = none ∧
      (running.lookup env.instanceId = none →
        (cleanup env
          (if env.exited then
            mapDelete (mapSet running env.instanceId ⟨some env.pid, avdName, none, none, none⟩)
              env.instanceId
          else mapSet running env.instanceId ⟨some env.pid, avdName, none, none, none⟩)
          effects error).running = running) := by
    intro effects
    have hdel := tracked_delete running env ⟨some env.pid, avdName, none, none, none⟩
    rw [cleanup_eq]
    refine ⟨rfl, by simp, hdel, ?_, ?_⟩
    · show (mapDelete _ env.instanceId).lookup env.instanceId = none
      exact lookup_mapDelete _ _
    · intro hfresh
      show mapDelete _ env.instanceId = running
      rw [hdel]
      exact mapDelete_of_lookup_none _ _ hfresh
  rcases hfail with hdisc | ⟨deviceSerial, hdisc, hrest⟩
  · refine ⟨_, ?_, hclean ([Effect.spawn (launchArgs avdName config.opts), Effect.sleep 5000] ++
      (if env.exited then [Effect.deregisterPost env.instanceId] else []) ++
      [Effect.adb "devices"])⟩
    simp only [startEmulator, hname, hne, if_false, hdisc]
  · rcases hrest with ⟨events, hboot⟩ | ⟨⟨events, hboot⟩, hlater⟩
    · refine ⟨_, ?_, hclean ([Effect.spawn (launchArgs avdName config.opts),
        Effect.sleep 5000] ++
        (if env.exited then [Effect.deregisterPost env.instanceId] else []) ++
        [Effect.adb "devices"] ++ events.map bootEffect)⟩
      simp only [startEmulator, hname, hne, if_false, hdisc, hboot]
    · rcases hlater with hforward | ⟨⟨out, hforward⟩, hagent⟩
      · refine ⟨_, ?_, hclean ([Effect.spawn (launchArgs avdName config.opts),
          Effect.sleep 5000] ++
          (if env.exited then [Effect.deregisterPost env.instanceId] else []) ++
          [Effect.adb "devices"] ++ events.map bootEffect ++
          [Effect.adb (forwardCommand deviceSerial env.hostPort 8080)])⟩
        simp only [startEmulator, hname, hne, if_false, hdisc, hboot, hforward]
      · refine ⟨_, ?_, hclean ([Effect.spawn (launchArgs avdName config.opts),
          Effect.sleep 5000] ++
          (if env.exited then [Effect.deregisterPost env.instanceId] else []) ++
          [Effect.adb "devices"] ++ events.map bootEffect ++
          [Effect.adb (forwardCommand deviceSerial env.hostPort 8080)] ++
          [Effect.adb (startAgentCommand deviceSerial)])⟩
        simp only [startEmulator, hname, hne, if_false, hdisc, hboot, hforward, hagent]

/-- Witness of C19: the agent start fails with `device offline` after discovery, boot
wait and forwarding succeeded; the child 200 is killed and `inst-a` stays the only
tracked instance. -/
theorem startEmulator_cleans_up_on_failure_witness :
    ∃ run : StartRun,
      startEmulator
        [("inst-a", ⟨some 100, "Pixel_34", some "inst-a", some "emulator-5554",
          some "http://localhost:12000"⟩)]
        (.name "Pixel_35")
        { instanceId := "inst-b", pid := 200, exited := false,
          devices := ⟨none, "List of devices attached\nemulator-5556\tdevice\n", ""⟩,
          boot := ⟨fun n => 3000 * n, fun _ => ⟨none, "1\n", ""⟩⟩, bootFuel := 1,
          hostPort := 12345, forward := ⟨none, "12345\n", ""⟩,
          agent := ⟨some "device offline", "", "error"⟩,
          registration := .ok (), killThrows := true } = some run ∧
      run.outcome = .error "device offline" ∧
      Effect.kill 200 "SIGTERM" ∈ run.effects ∧
      run.running =
        [("inst-a", ⟨some 100, "Pixel_34", some "inst-a", some "emulator-5554",
          some "http://localhost:12000"⟩)] := by
  obtain ⟨run, h1, h2, h3, _, _, h6⟩ := startEmulator_cleans_up_on_failure
    [("inst-a", ⟨some 100, "Pixel_34", some "inst-a", some "emulator-5554",
      some "http://localhost:12000"⟩)]
    (.name "Pixel_35")
    { instanceId := "inst-b", pid := 200, exited := false,
      devices := ⟨none, "List of devices attached\nemulator-5556\tdevice\n", ""⟩,
      boot := ⟨fun n => 3000 * n, fun _ => ⟨none, "1\n", ""⟩⟩, bootFuel := 1,
      hostPort := 12345, forward := ⟨none, "12345\n", ""⟩,
      agent := ⟨some "device offline", "", "error"⟩,
      registration := .ok (), killThrows := true }
    "Pixel_35" "device offline" rfl (by decide)
    (Or.inr ⟨"emulator-5556", rfl, Or.inr ⟨⟨_, rfl⟩, Or.inr ⟨⟨_, rfl⟩, rfl⟩⟩⟩)
  exact ⟨run, h1, h2, h3, h6 (by decide)⟩

/-- C20: in a `startEmulator` call with a non-empty avdName in which discovery, boot
wait, port forwarding and agent start succeed, the call with a failing registration
and the call with a succeeding registration end in the same way: they return
`{instanceId, deviceSerial, avdName, address}` with the address
`http://localhost:<hostPort>`, and the instance is tracked with these details. -/
theorem startEmulator_registration_best_effort (running : Tracking) (config : Config)
    (env : StartEnv) (avdName deviceSerial message : String) (events : List BootEvent)
    (hname : config.opts.avdName = some avdName) (hne : avdName ≠ "")
    (hdisc : findNewEmulatorDevice (runAdbCommand env.devices) = .ok deviceSerial)
    (hboot : waitForBoot env.boot deviceSerial 120000 env.bootFuel = some ⟨.ok (), events⟩)
    (hforward : ∃ out, runAdbCommand env.forward = .ok out)
    (hagent : ∃ out, runAdbCommand env.agent = .ok out) :
    ∃ run : StartRun,
      startEmulator running config { env with registration := .error message } = some run ∧
      startEmulator running config { env with registration := .ok () } = some run ∧
      run.outcome = .ok ⟨env.instanceId, deviceSerial, avdName,
        "http://localhost:" ++ toString env.hostPort⟩ ∧
      ∃ entry : Entry, run.running.lookup env.instanceId = some entry ∧
        entry.instanceId = some env.instanceId ∧ entry.deviceSerial = some deviceSerial ∧
        entry.avdName = avdName ∧
        entry.address = some ("http://localhost:" ++ toString env.hostPort) := by
  have h1 := startEmulator_ready running config { env with registration := .error message }
    avdName deviceSerial events hname hne hdisc hboot hforward hagent
  have h2 := startEmulator_ready running config { env with registration := .ok () }
    avdName deviceSerial events hname hne hdisc hboot hforward hagent
  refine ⟨_, h1, h2, rfl, _, lookup_mapSet _ _ _, rfl, rfl, rfl, rfl⟩

/-- Witness of C20: the registry is down, and the start of `Pixel_34` still returns the
details of `inst-a`. -/
theorem startEmulator_registration_best_effort_witness :
    ∃ run : StartRun,
      startEmulator [] (.name "Pixel_34")
        { instanceId := "inst-a", pid := 100, exited := false,
          devices := ⟨none, "List of devices attached\nemulator-5554\tdevice\n", ""⟩,
          boot := ⟨fun n => 3000 * n, fun _ => ⟨none, "1\n", ""⟩⟩, bootFuel := 1,
          hostPort := 12000, forward := ⟨none, "12000\n", ""⟩, agent := ⟨none, "", ""⟩,
          registration := .error "connect ECONNREFUSED", killThrows := false } = some run ∧
      run.outcome = .ok ⟨"inst-a", "emulator-5554", "Pixel_34", "http://localhost:12000"⟩ := by
  obtain ⟨run, h1, _, h3, _⟩ := startEmulator_registration_best_effort []
    (.name "Pixel_34")
    { instanceId := "inst-a", pid := 100, exited := false,
      devices := ⟨none, "List of devices attached\nemulator-5554\tdevice\n", ""⟩,
      boot := ⟨fun n => 3000 * n, fun _ => ⟨none, "1\n", ""⟩⟩, bootFuel := 1,
      hostPort := 12000, forward := ⟨none, "12000\n", ""⟩, agent := ⟨none, "", ""⟩,
      registration := .ok (), killThrows := false }
    "Pixel_34" "emulator-5554" "connect ECONNREFUSED" _ rfl (by decide) rfl rfl
    ⟨_, rfl⟩ ⟨_, rfl⟩
  exact ⟨run, h1, h3⟩

end EmulatorManager

/-! ## Further properties of `POST /orchestrate` -/

namespace Orchestrator

theorem orchestrate_after_prefix (gw : Gateway) (instanceId : String) (steps : List Step)
    (k : Nat → Nat) (d : Nat → String) (n : Nat) (step : Step)
    (hid : instanceId ≠ "") (hn : steps[n]? = some step)
    (hearlier : ∀ (j : Nat) (s : Step), j < n → steps[j]? = some s →
      SucceedsAfter gw j s (k j) (d j)) :
    orchestrate gw ⟨some instanceId, some steps⟩ =
        stepLoop gw (step :: steps.drop (n + 1)) n
          (prefixEntries k d (steps.take n) 0) (prefixEvents k (steps.take n) 0) ∧
      (prefixEvents k (steps.take n) 0).filter (Event.isDispatchOf (n + 1)) = [] := by
  obtain ⟨hsplit, hlen⟩ := split_at_index steps n step hn
  have hpre : ∀ (j : Nat) (s : Step), (steps.take n)[j]? = some s →
      SucceedsAfter gw (0 + j) s (k (0 + j)) (d (0 + j)) := by
    intro j s hj
    rw [List.getElem?_take] at hj
    by_cases hjn : j < n
    · rw [if_pos hjn] at hj
      rw [Nat.zero_add]
      exact hearlier j s hjn hj
    · rw [if_neg hjn] at hj; exact absurd hj (by simp)
  refine ⟨?_, ?_⟩
  · have h := stepLoop_prefix gw k d (steps.take n) (step :: steps.drop (n + 1)) 0 [] [] hpre
    rw [← hsplit, hlen, Nat.zero_add, List.nil_append, List.nil_append] at h
    simp only [orchestrate, hid, if_false]
    exact h
  · apply List.length_eq_zero.mp
    rw [prefixEvents_filter, hlen]
    have hout : ¬ (0 < n + 1 ∧ n + 1 ≤ 0 + n) := by omega
    rw [if_neg hout]

theorem attemptLoop_lastError (gw : Gateway) (i : Nat) (step : Step) (policy : RetryPolicy) :
    ∀ (remaining attempt : Nat) (st : AttemptState), 0 < remaining →
      (attemptLoop gw i step policy remaining attempt st).success = true ∨
      ∃ response : Option String,
        (attemptLoop gw i step policy remaining attempt st).lastError = some response ∧
        gw i (attempt + remaining - 1) = .error response := by
  intro remaining
  induction remaining with
  | zero => intro attempt st h; omega
  | succ r ih =>
    intro attempt st _
    cases hg : gw i attempt with
    | ok data => left; simp [attemptLoop, hg]
    | error resp =>
      by_cases hr : r = 0
      · subst hr
        right
        refine ⟨resp, ?_, ?_⟩
        · simp [attemptLoop, hg]
        · simpa using hg
      · have hidx : attempt + (r + 1) - 1 = attempt + 1 + r - 1 := by omega
        rw [hidx]
        simp only [attemptLoop, hg]
        exact ih (attempt + 1) _ (by omega)

theorem stepLoop_replies (gw : Gateway) :
    ∀ (steps : List Step) (i : Nat) (results : List ResultEntry) (trace : List Event),
      (∀ s ∈ steps, 1 ≤ (retryPolicy s).count) →
      ∃ reply : Reply,
        (stepLoop gw steps i results trace).reply = .ok reply ∧
        ∀ (message : String) (rs : List ResultEntry), reply = .failed message rs →
          ∃ (j : Nat) (step : Step) (response : Option String),
            steps[j]? = some step ∧
            gw (i + j) (retryPolicy step).count.toNat = .error response ∧
            rs.getLast? = some ⟨i + j + 1, (retryPolicy step).count, "failed", none,
              some (response.getD "Communication error")⟩ := by
  intro steps
  induction steps with
  | nil =>
    intro i results trace _
    exact ⟨.completed "Orchestration completed successfully" results, by simp [stepLoop],
      by intro message rs h; cases h⟩
  | cons step rest ih =>
    intro i results trace hall
    have hcount : 1 ≤ (retryPolicy step).count := hall step (List.mem_cons_self _ _)
    have hpos : 0 < (retryPolicy step).count.toNat := by omega
    by_cases hs : (attemptLoop gw i step (retryPolicy step) (retryPolicy step).count.toNat 1
        { results := results, trace := trace, lastError := none, success := false }).success = true
    · obtain ⟨reply, hreply, hfailed⟩ := ih (i + 1)
        (attemptLoop gw i step (retryPolicy step) (retryPolicy step).count.toNat 1
          { results := results, trace := trace, lastError := none, success := false }).results
        (attemptLoop gw i step (retryPolicy step) (retryPolicy step).count.toNat 1
          { results := results, trace := trace, lastError := none, success := false }).trace
        (fun s hmem => hall s (List.mem_cons_of_mem _ hmem))
      refine ⟨reply, ?_, ?_⟩
      · simp only [stepLoop, hs, if_true]
        exact hreply
      · intro message rs hrs
        obtain ⟨j, s, response, hj, hgw, hlast⟩ := hfailed message rs hrs
        have hidx : i + (j + 1) = i + 1 + j := by omega
        refine ⟨j + 1, s, response, by simpa using hj, ?_, ?_⟩
        · rw [hidx]; exact hgw
        · rw [hidx]; exact hlast
    · rcases attemptLoop_lastError gw i step (retryPolicy step) (retryPolicy step).count.toNat 1
        { results := results, trace := trace, lastError := none, success := false } hpos with
        hsucc | ⟨response, hle, hgw⟩
      · exact absurd hsucc hs
      · have hidx : 1 + (retryPolicy step).count.toNat - 1 = (retryPolicy step).count.toNat := by
          omega
        rw [hidx] at hgw
        refine ⟨.failed ("Orchestration failed at step " ++ toString (i + 1))
          ((attemptLoop gw i step (retryPolicy step) (retryPolicy step).count.toNat 1
            { results := results, trace := trace, lastError := none, success := false }).results ++
            [⟨i + 1, (retryPolicy step).count, "failed", none,
              some (response.getD "Communication error")⟩]), ?_, ?_⟩
        · simp only [stepLoop, hs, hle]
          rfl
        · intro message rs hrs
          injection hrs with _ hrs2
          subst hrs2
          exact ⟨0, step, response, by simp, by simpa using hgw, by simp⟩

/-- C30: in `POST /orchestrate` with a present instanceId: (a) when every step has a
retry count of at least 1 the handler always answers, it never faults, and a 500
answer ends with a failed entry whose error was read from the rejection of the last
attempt of the failing step; (b) for a single step with count at least 1 that is
reached, either one of its attempts resolves or the answer is the 500 reply built from
the rejection of its last attempt; (c) the precondition is needed: when a reached step
has a count below 1, no dispatch is issued for it and the handler faults with a
`TypeError` on reading `lastError.response`. -/
theorem orchestrate_failure_branch_has_error
    (gw : Gateway) (instanceId : String) (steps : List Step) (hid : instanceId ≠ "") :
    ((∀ s ∈ steps, 1 ≤ (retryPolicy s).count) →
      ∃ reply : Reply,
        (orchestrate gw ⟨some instanceId, some steps⟩).reply = .ok reply ∧
        ∀ (message : String) (results : List ResultEntry), reply = .failed message results →
          ∃ (n : Nat) (step : Step) (response : Option String),
            steps[n]? = some step ∧
            gw n (retryPolicy step).count.toNat = .error response ∧
            results.getLast? = some ⟨n + 1, (retryPolicy step).count, "failed", none,
              some (response.getD "Communication error")⟩) ∧
    (∀ (k : Nat → Nat) (d : Nat → String) (n : Nat) (step : Step),
      steps[n]? = some step → 1 ≤ (retryPolicy step).count →
      (∀ (j : Nat) (s : Step), j < n → steps[j]? = some s → SucceedsAfter gw j s (k j) (d j)) →
      (∃ (a : Nat) (data : String),
        1 ≤ a ∧ (a : Int) ≤ (retryPolicy step).count ∧ gw n a = .ok data) ∨
      (∃ response : Option String,
        gw n (retryPolicy step).count.toNat = .error response ∧
        (orchestrate gw ⟨some instanceId, some steps⟩).reply =
          .ok (.failed ("Orchestration failed at step " ++ toString (n + 1))
            (prefixEntries k d (steps.take n) 0 ++
              [⟨n + 1, (retryPolicy step).count, "failed", none,
                some (response.getD "Communication error")⟩])))) ∧
    (∀ (k : Nat → Nat) (d : Nat → String) (n : Nat) (step : Step),
      steps[n]? = some step → (retryPolicy step).count < 1 →
      (∀ (j : Nat) (s : Step), j < n → steps[j]? = some s → SucceedsAfter gw j s (k j) (d j)) →
      (orchestrate gw ⟨some instanceId, some steps⟩).reply =
          .error "TypeError: Cannot read properties of null (reading \x27response\x27)" ∧
        (orchestrate gw ⟨some instanceId, some steps⟩).trace.filter
          (Event.isDispatchOf (n + 1)) = []) := by
  refine ⟨?_, ?_, ?_⟩
  · intro hall
    obtain ⟨reply, hreply, hfailed⟩ := stepLoop_replies gw steps 0 [] [] hall
    refine ⟨reply, by simpa only [orchestrate, hid, if_false] using hreply, ?_⟩
    intro message results hres
    obtain ⟨j, s, response, hj, hgw, hlast⟩ := hfailed message results hres
    exact ⟨j, s, response, hj, by simpa using hgw, by simpa using hlast⟩
  · intro k d n step hn hcount hearlier
    obtain ⟨hrun, _⟩ := orchestrate_after_prefix gw instanceId steps k d n step hid hn hearlier
    by_cases hrej : ∀ a : Nat, 1 ≤ a → (a : Int) ≤ (retryPolicy step).count →
        (gw n a).isError = true
    · right
      obtain ⟨response, hex⟩ := attemptLoop_exhausted gw n step hcount hrej
        (prefixEntries k d (steps.take n) 0) (prefixEvents k (steps.take n) 0)
      have hpos : 0 < (retryPolicy step).count.toNat := by omega
      rcases attemptLoop_lastError gw n step (retryPolicy step) (retryPolicy step).count.toNat 1
        { results := prefixEntries k d (steps.take n) 0,
          trace := prefixEvents k (steps.take n) 0, lastError := none, success := false }
        hpos with hsucc | ⟨response2, hle, hgw⟩
      · rw [hex] at hsucc
        simp at hsucc
      · rw [hex] at hle
        simp only [Option.some.injEq] at hle
        subst hle
        have hidx : 1 + (retryPolicy step).count.toNat - 1 = (retryPolicy step).count.toNat := by
          omega
        rw [hidx] at hgw
        refine ⟨response, hgw, ?_⟩
        rw [hrun]
        simp only [stepLoop, hex, Bool.false_eq_true, ↓reduceIte]
    · left
      push_neg at hrej
      obtain ⟨a, ha1, ha2, ha3⟩ := hrej
      cases hg : gw n a with
      | ok data => exact ⟨a, data, ha1, ha2, hg⟩
      | error r => rw [hg] at ha3; simp [Outcome.isError] at ha3
  · intro k d n step hn hcount hearlier
    obtain ⟨hrun, hbefore⟩ :=
      orchestrate_after_prefix gw instanceId steps k d n step hid hn hearlier
    have hzero : (retryPolicy step).count.toNat = 0 := by omega
    rw [hrun]
    simp only [stepLoop, hzero, attemptLoop, Bool.false_eq_true, ↓reduceIte]
    exact ⟨by trivial, hbefore⟩

/-- Witness of C30: a single step with retry `{count: 0}` makes the handler fault
without any dispatch, while the same step with the default count and a rejecting
gateway is answered with a failed entry. -/
theorem orchestrate_failure_branch_has_error_witness :
    (orchestrate (fun _ _ => .error (some "busy"))
        ⟨some "inst-1", some [⟨"shell", "p", some 0, none⟩]⟩).reply =
      .error "TypeError: Cannot read properties of null (reading \x27response\x27)" ∧
    (orchestrate (fun _ _ => .error (some "busy"))
        ⟨some "inst-1", some [⟨"shell", "p", some 0, none⟩]⟩).trace.filter
      (Event.isDispatchOf (0 + 1)) = [] ∧
    (orchestrate (fun _ _ => .error (some "busy"))
        ⟨some "inst-1", some [⟨"shell", "p", none, none⟩]⟩).reply =
      .ok (.failed "Orchestration failed at step 1" [⟨1, 1, "failed", none, some "busy"⟩]) :=
  ⟨((orchestrate_failure_branch_has_error (fun _ _ => .error (some "busy")) "inst-1"
      [⟨"shell", "p", some 0, none⟩] (by decide)).2.2 (fun _ => 0) (fun _ => "") 0
      ⟨"shell", "p", some 0, none⟩ rfl (by decide) (by intro j s hj; omega)).1,
   ((orchestrate_failure_branch_has_error (fun _ _ => .error (some "busy")) "inst-1"
      [⟨"shell", "p", some 0, none⟩] (by decide)).2.2 (fun _ => 0) (fun _ => "") 0
      ⟨"shell", "p", some 0, none⟩ rfl (by decide) (by intro j s hj; omega)).2,
   rfl⟩

end Orchestrator

/-! ## Further properties of the workflows -/

namespace Workflows

/-- C23 at the failing input: `POST /workflows/unknownWorkflow/execute` with the body
`{instanceId: "inst-1"}`, for the undefined id `unknownWorkflow`, is answered with
status 500 and the generic error `Workflow execution failed`, the message
`Workflow unknownWorkflow not found` being only the `details`; no step is dispatched. -/
theorem executeRoute_unknown_is_500 :
    (executeRoute (fun _ => .ok "Success") "unknownWorkflow" ⟨some "inst-1", none, none⟩).reply =
      .failed "Workflow execution failed" "Workflow unknownWorkflow not found" ∧
    (executeRoute (fun _ => .ok "Success") "unknownWorkflow"
      ⟨some "inst-1", none, none⟩).reply.status = 500 ∧
    (executeRoute (fun _ => .ok "Success") "unknownWorkflow"
      ⟨some "inst-1", none, none⟩).trace = [] := by
  decide

/-- The same answer for every undefined id: for every workflowId that is neither
defined in the table nor a name inherited from `Object.prototype`, and every request
body with a non-empty instanceId, `POST /workflows/:id/execute` is answered with
status 500, the error `Workflow execution failed` and the details
`Workflow <id> not found`, and no step is dispatched. -/
theorem executeRoute_unknown_workflow (gw : Gateway) (workflowId instanceId : String)
    (body : ExecuteBody)
    (hunknown : workflows.lookup workflowId = none)
    (hown : objectPrototypeKeys.contains workflowId = false)
    (hbody : body.instanceId = some instanceId) (hid : instanceId ≠ "") :
    (executeRoute gw workflowId body).reply =
      .failed "Workflow execution failed" ("Workflow " ++ workflowId ++ " not found") ∧
    (executeRoute gw workflowId body).reply.status = 500 ∧
    (executeRoute gw workflowId body).trace = [] := by
  have hmem : ¬ workflowId ∈ objectPrototypeKeys := by simpa using hown
  simp [executeRoute, executeWorkflow, hunknown, hmem, hbody, hid, RouteReply.status]

/-- An instance of the lemma above: the id `unknownWorkflow`. -/
theorem executeRoute_unknown_workflow_witness :
    (executeRoute (fun _ => .ok "Success") "unknownWorkflow" ⟨some "inst-1", none, none⟩).reply =
      .failed "Workflow execution failed" ("Workflow " ++ "unknownWorkflow" ++ " not found") ∧
    (executeRoute (fun _ => .ok "Success") "unknownWorkflow"
      ⟨some "inst-1", none, none⟩).reply.status = 500 ∧
    (executeRoute (fun _ => .ok "Success") "unknownWorkflow"
      ⟨some "inst-1", none, none⟩).trace = [] :=
  executeRoute_unknown_workflow (fun _ => .ok "Success") "unknownWorkflow" "inst-1"
    ⟨some "inst-1", none, none⟩ (by decide) (by decide) rfl (by decide)

theorem assign_getElem? (heap : Heap) (payload address : Nat) (key : String) (value : JsValue)
    (h : address ≠ payload) : (assign heap payload key value)[address]? = heap[address]? := by
  unfold assign
  exact List.getElem?_set_ne (fun h2 => h h2.symm)

theorem assign_length (heap : Heap) (payload : Nat) (key : String) (value : JsValue) :
    (assign heap payload key value).length = heap.length := by
  simp [assign]

theorem substitute_frame (payloadValues : JsObject) (payload : Nat) :
    ∀ (keys : List String) (heap : Heap),
      (substitute payloadValues payload keys heap).length = heap.length ∧
      ∀ address : Nat, address ≠ payload →
        (substitute payloadValues payload keys heap)[address]? = heap[address]? := by
  intro keys
  induction keys with
  | nil => intro heap; exact ⟨rfl, fun _ _ => rfl⟩
  | cons key keys ih =>
    intro heap
    cases hv : payloadValues.lookup key with
    | none => simpa [substitute, hv] using ih heap
    | some value =>
      cases ht : value.truthy with
      | false => simpa [substitute, hv, ht] using ih heap
      | true =>
        obtain ⟨h1, h2⟩ := ih (assign heap payload key value)
        simp only [substitute, hv, ht, if_true]
        refine ⟨by rw [h1, assign_length], ?_⟩
        intro address ha
        rw [h2 address ha, assign_getElem? heap payload address key value ha]

theorem preparePayload_frame (heap : Heap) (template : Nat) (payloadValues : JsObject) :
    (preparePayload heap template payloadValues).1.length = heap.length + 1 ∧
    (preparePayload heap template payloadValues).2 = heap.length ∧
    ∀ address : Nat, address < heap.length →
      (preparePayload heap template payloadValues).1[address]? = heap[address]? := by
  obtain ⟨h1, h2⟩ := substitute_frame payloadValues heap.length
    (((heap ++ [heap.getD template []]).getD heap.length []).map Prod.fst)
    (heap ++ [heap.getD template []])
  refine ⟨?_, rfl, ?_⟩
  · simp only [preparePayload, spread]
    rw [h1]
    simp
  · intro address ha
    simp only [preparePayload, spread]
    rw [h2 address (by omega), List.getElem?_append_left ha]

theorem runStepsHeap_frame (gw : Gateway) (payloadValues : JsObject) :
    ∀ (steps : List HeapStep) (stepIndex : Nat) (heap : Heap) (sent : List JsObject),
      heap.length ≤ (runStepsHeap gw payloadValues steps stepIndex heap sent).1.length ∧
      ∀ address : Nat, address < heap.length →
        (runStepsHeap gw payloadValues steps stepIndex heap sent).1[address]? =
          heap[address]? := by
  intro steps
  induction steps with
  | nil => intro stepIndex heap sent; exact ⟨le_refl _, fun _ _ => rfl⟩
  | cons step rest ih =>
    intro stepIndex heap sent
    obtain ⟨p1, _, p3⟩ := preparePayload_frame heap step.payloadTemplate payloadValues
    cases hg : gw stepIndex with
    | error message =>
      simp only [runStepsHeap, hg]
      exact ⟨by omega, p3⟩
    | ok data =>
      simp only [runStepsHeap, hg]
      obtain ⟨q1, q2⟩ := ih (stepIndex + 1)
        (preparePayload heap step.payloadTemplate payloadValues).1
        (sent ++ [(preparePayload heap step.payloadTemplate payloadValues).1.getD
          (preparePayload heap step.payloadTemplate payloadValues).2 []])
      refine ⟨by omega, ?_⟩
      intro address ha
      rw [q2 address (by omega), p3 address ha]

theorem substitute_empty (payload : Nat) :
    ∀ (keys : List String) (heap : Heap), substitute [] payload keys heap = heap := by
  intro keys
  induction keys with
  | nil => intro heap; rfl
  | cons key keys ih => intro heap; simpa [substitute] using ih heap

theorem getD_of_getElem? (heap other : Heap) (address : Nat)
    (h : heap[address]? = other[address]?) : heap.getD address [] = other.getD address [] := by
  rw [List.getD_eq_getElem?_getD, List.getD_eq_getElem?_getD, h]

theorem runStepsHeap_empty_values (gw : Gateway) (original : Heap) :
    ∀ (steps : List HeapStep) (stepIndex : Nat) (heap : Heap) (sent : List JsObject),
      original.length ≤ heap.length →
      (∀ address : Nat, address < original.length → heap[address]? = original[address]?) →
      (∀ s ∈ steps, s.payloadTemplate < original.length) →
      ∃ m : Nat,
        (runStepsHeap gw [] steps stepIndex heap sent).2 =
          sent ++ (steps.take m).map (fun s => original.getD s.payloadTemplate []) := by
  intro steps
  induction steps with
  | nil => intro stepIndex heap sent _ _ _; exact ⟨0, by simp [runStepsHeap]⟩
  | cons step rest ih =>
    intro stepIndex heap sent hlen hsame htemplates
    have ht : step.payloadTemplate < original.length := htemplates step (List.mem_cons_self _ _)
    have hobj : (preparePayload heap step.payloadTemplate []).1.getD
        (preparePayload heap step.payloadTemplate []).2 [] =
        original.getD step.payloadTemplate [] := by
      simp only [preparePayload, spread, substitute_empty]
      rw [List.getD_eq_getElem?_getD, List.getElem?_append_right (le_refl _)]
      simp only [Nat.sub_self, List.getElem?_cons_zero, Option.getD_some]
      exact getD_of_getElem? heap original _ (hsame _ ht)
    have hheap : (preparePayload heap step.payloadTemplate []).1 =
        heap ++ [heap.getD step.payloadTemplate []] := by
      simp only [preparePayload, spread, substitute_empty]
    cases hg : gw stepIndex with
    | error message =>
      refine ⟨1, ?_⟩
      simp only [runStepsHeap, hg]
      rw [hobj]
      simp
    | ok data =>
      obtain ⟨m, hm⟩ := ih (stepIndex + 1) (heap ++ [heap.getD step.payloadTemplate []])
        (sent ++ [original.getD step.payloadTemplate []])
        (by simp; omega)
        (by
          intro address ha
          rw [List.getElem?_append_left (by omega)]
          exact hsame address ha)
        (fun s hs => htemplates s (List.mem_cons_of_mem _ hs))
      refine ⟨m + 1, ?_⟩
      simp only [runStepsHeap, hg]
      rw [hobj, hheap, hm]
      simp

/-- C27: on a heap that holds the payload templates of the table by address,
`executeWorkflow` leaves every object that existed before the call as it was, for
every workflowId, caller values and dispatch outcomes: it writes only to the payload
objects it creates. Hence in a later run with empty values every payload dispatched
is the original template of its step. -/
theorem executeWorkflowHeap_keeps_templates (gw : Gateway)
    (table : List (String × List HeapStep)) (workflowId : String) (payloadValues : JsObject)
    (heap : Heap) :
    (∀ address : Nat, address < heap.length →
      (executeWorkflowHeap gw table workflowId payloadValues heap).1[address]? =
        heap[address]?) ∧
    (∀ (later : Gateway) (steps : List HeapStep), table.lookup workflowId = some steps →
      (∀ s ∈ steps, s.payloadTemplate < heap.length) →
      ∃ m : Nat,
        (executeWorkflowHeap later table workflowId []
          (executeWorkflowHeap gw table workflowId payloadValues heap).1).2 =
          (steps.take m).map (fun s => heap.getD s.payloadTemplate [])) := by
  refine ⟨?_, ?_⟩
  · intro address ha
    unfold executeWorkflowHeap
    cases table.lookup workflowId with
    | none => rfl
    | some steps => exact (runStepsHeap_frame gw payloadValues steps 0 heap []).2 address ha
  · intro later steps hsteps htemplates
    simp only [executeWorkflowHeap, hsteps]
    obtain ⟨f1, f2⟩ := runStepsHeap_frame gw payloadValues steps 0 heap []
    obtain ⟨m, hm⟩ := runStepsHeap_empty_values later heap steps 0
      (runStepsHeap gw payloadValues steps 0 heap []).1 [] f1 f2 htemplates
    exact ⟨m, by simpa using hm⟩

/-- Witness of C27: a run of a two-step workflow with a caller value for
`shellCommand` leaves the two templates at addresses 0 and 1 untouched. -/
theorem executeWorkflowHeap_keeps_templates_witness :
    (executeWorkflowHeap (fun _ => .ok "Success")
        [("waitAndLaunch", [⟨"Wait for App", "shell", 0⟩, ⟨"Launch App", "launch", 1⟩])]
        "waitAndLaunch" [("shellCommand", .str "ls")]
        [[("shellCommand", .str "sleep 2")],
          [("packageName", .str ""), ("activityName", .str "")]]).1[0]? =
      some [("shellCommand", .str "sleep 2")] :=
  (executeWorkflowHeap_keeps_templates (fun _ => .ok "Success")
    [("waitAndLaunch", [⟨"Wait for App", "shell", 0⟩, ⟨"Launch App", "launch", 1⟩])]
    "waitAndLaunch" [("shellCommand", .str "ls")]
    [[("shellCommand", .str "sleep 2")],
      [("packageName", .str ""), ("activityName", .str "")]]).1 0 (by decide)

theorem setKey_append (key : String) (value old : JsValue) (rest : JsObject) :
    ∀ front : JsObject, key ∉ front.map Prod.fst →
      setKey (front ++ (key, old) :: rest) key value = front ++ (key, value) :: rest := by
  intro front
  induction front with
  | nil => intro _; simp [setKey]
  | cons entry front ih =>
    intro h
    obtain ⟨k, v⟩ := entry
    have hk : k ≠ key := by
      intro heq
      apply h
      simp [heq]
    have hrest : key ∉ front.map Prod.fst := by
      intro hmem
      apply h
      simp only [List.map_cons, List.mem_cons]
      exact Or.inr hmem
    simp only [List.cons_append, setKey, hk, if_false, List.append_eq]
    rw [ih hrest]

theorem substitute_merges (payloadValues : JsObject) (payload : Nat) :
    ∀ (back front : JsObject) (heap : Heap),
      heap[payload]? = some (front ++ back) →
      (∀ key ∈ back.map Prod.fst, key ∉ front.map Prod.fst) →
      (back.map Prod.fst).Nodup →
      (substitute payloadValues payload (back.map Prod.fst) heap)[payload]? =
        some (front ++ mergePayload back payloadValues) := by
  intro back
  induction back with
  | nil => intro front heap h _ _; simpa [substitute, mergePayload] using h
  | cons entry back ih =>
    intro front heap h hfresh hnodup
    obtain ⟨k, v⟩ := entry
    have hlt : payload < heap.length := by
      obtain ⟨hlt, _⟩ := List.getElem?_eq_some.mp h
      exact hlt
    have hk : k ∉ front.map Prod.fst := hfresh k (by simp)
    have hnodup2 : (back.map Prod.fst).Nodup := (List.nodup_cons.mp hnodup).2
    have hknew : k ∉ back.map Prod.fst := (List.nodup_cons.mp hnodup).1
    have hfresh2 : ∀ (x : JsValue), ∀ key ∈ back.map Prod.fst,
        key ∉ (front ++ [(k, x)]).map Prod.fst := by
      intro x key hkey hmem
      simp only [List.map_append, List.map_cons, List.map_nil, List.mem_append,
        List.mem_singleton] at hmem
      rcases hmem with hmem | hmem
      · exact hfresh key (by simp [hkey]) hmem
      · exact hknew (hmem ▸ hkey)
    have hmerge : ∀ x : JsValue, front ++ (k, x) :: mergePayload back payloadValues =
        (front ++ [(k, x)]) ++ mergePayload back payloadValues := by
      intro x; simp
    cases hv : payloadValues.lookup k with
    | none =>
      have hstep : mergePayload ((k, v) :: back) payloadValues =
          (k, v) :: mergePayload back payloadValues := by
        simp [mergePayload, hv]
      simp only [List.map_cons, substitute, hv]
      rw [hstep, hmerge]
      exact ih (front ++ [(k, v)]) heap (by simpa using h) (hfresh2 v) hnodup2
    | some value =>
      cases ht : value.truthy with
      | false =>
        have hstep : mergePayload ((k, v) :: back) payloadValues =
            (k, v) :: mergePayload back payloadValues := by
          simp [mergePayload, hv, ht]
        simp only [List.map_cons, substitute, hv, ht, Bool.false_eq_true, if_false]
        rw [hstep, hmerge]
        exact ih (front ++ [(k, v)]) heap (by simpa using h) (hfresh2 v) hnodup2
      | true =>
        have hstep : mergePayload ((k, v) :: back) payloadValues =
            (k, value) :: mergePayload back payloadValues := by
          simp [mergePayload, hv, ht]
        simp only [List.map_cons, substitute, hv, ht, if_true]
        rw [hstep, hmerge]
        apply ih (front ++ [(k, value)]) (assign heap payload k value) _ (hfresh2 value) hnodup2
        have hobj : heap.getD payload [] = front ++ (k, v) :: back := by
          rw [List.getD_eq_getElem?_getD, h]; rfl
        unfold assign
        rw [hobj, setKey_append k value v back front hk, List.getElem?_set_self hlt]
        simp

/-- The payload object that lines 107 to 115 build on the heap is the object that
`mergePayload` computes from the template, for a template with distinct keys. -/
theorem preparePayload_eq_mergePayload (heap : Heap) (template : Nat) (payloadValues : JsObject)
    (hkeys : ((heap.getD template []).map Prod.fst).Nodup) :
    (preparePayload heap template payloadValues).1.getD
        (preparePayload heap template payloadValues).2 [] =
      mergePayload (heap.getD template []) payloadValues := by
  have hcopy : (heap ++ [heap.getD template []])[heap.length]? =
      some ([] ++ heap.getD template []) := by
    rw [List.getElem?_append_right (le_refl _)]
    simp
  have hobj : (heap ++ [heap.getD template []]).getD heap.length [] = heap.getD template [] := by
    rw [List.getD_eq_getElem?_getD, hcopy]; rfl
  have h := substitute_merges payloadValues heap.length (heap.getD template []) []
    (heap ++ [heap.getD template []]) hcopy (by simp) hkeys
  simp only [preparePayload, spread]
  rw [hobj, List.getD_eq_getElem?_getD, h]
  rfl

end Workflows

/-! ## Further properties of the instance lifecycle -/

namespace EmulatorManager

open AdbManager

/-- C21: for every successful `startEmulator` call, the returned address is
`http://localhost:P` for the port `P` drawn by `getFreePort`, and the effects of the
call are the spawn, the settle delay, the device list, the boot polls, then the one
forward command `-s <deviceSerial> forward tcp:P tcp:8080` for the returned
deviceSerial, the agent start and the registration. -/
theorem startEmulator_address_matches_forward (running : Tracking) (config : Config)
    (env : StartEnv) (run : StartRun) (details : InstanceDetails)
    (h : startEmulator running config env = some run) (hok : run.outcome = .ok details) :
    details.address = "http://localhost:" ++ toString env.hostPort ∧
    forwardCommand details.deviceSerial env.hostPort 8080 =
      "-s " ++ details.deviceSerial ++ " forward tcp:" ++ toString env.hostPort ++ " tcp:" ++
        toString 8080 ∧
    ∃ events : List BootEvent,
      waitForBoot env.boot details.deviceSerial 120000 env.bootFuel = some ⟨.ok (), events⟩ ∧
      run.effects =
        [Effect.spawn (launchArgs details.avdName config.opts), Effect.sleep 5000] ++
          (if env.exited then [Effect.deregisterPost env.instanceId] else []) ++
          [Effect.adb "devices"] ++ events.map bootEffect ++
          [Effect.adb (forwardCommand details.deviceSerial env.hostPort 8080)] ++
          [Effect.adb (startAgentCommand details.deviceSerial)] ++
          [Effect.registerPost details] := by
  obtain ⟨avdName, events, hname, hne, hdisc, hboot, hforward, hagent, hdetails⟩ :=
    startEmulator_ok_inv running config env run details h hok
  have hready := startEmulator_ready running config env avdName details.deviceSerial events
    hname hne hdisc hboot hforward hagent
  rw [h] at hready
  have hrun := Option.some.inj hready
  have havd : details.avdName = avdName := by rw [hdetails]
  have haddr : details.address = "http://localhost:" ++ toString env.hostPort := by
    rw [hdetails]
  refine ⟨haddr, rfl, events, hboot, ?_⟩
  rw [hrun, havd]
  simp only
  rw [← hdetails]

/-- Witness of C21: a start on `emulator-5554` with port 8081, and the command line of
`setupPortForwarding` for that serial and port. -/
theorem startEmulator_address_matches_forward_witness :
    (∃ run : StartRun,
      startEmulator [] (.name "Pixel_34")
        { instanceId := "inst-a", pid := 100, exited := false,
          devices := ⟨none, "List of devices attached\nemulator-5554\tdevice\n", ""⟩,
          boot := ⟨fun n => 3000 * n, fun _ => ⟨none, "1\n", ""⟩⟩, bootFuel := 1,
          hostPort := 8081, forward := ⟨none, "8081\n", ""⟩, agent := ⟨none, "", ""⟩,
          registration := .ok (), killThrows := false } = some run ∧
      run.outcome = .ok ⟨"inst-a", "emulator-5554", "Pixel_34", "http://localhost:8081"⟩ ∧
      Effect.adb "-s emulator-5554 forward tcp:8081 tcp:8080" ∈ run.effects) ∧
    execLine "adb" (forwardCommand "emulator-5554" 8081 8080) =
      "adb -s emulator-5554 forward tcp:8081 tcp:8080" := by
  refine ⟨?_, by decide⟩
  obtain ⟨run, hrun, hout⟩ : ∃ run : StartRun,
      startEmulator [] (.name "Pixel_34")
        { instanceId := "inst-a", pid := 100, exited := false,
          devices := ⟨none, "List of devices attached\nemulator-5554\tdevice\n", ""⟩,
          boot := ⟨fun n => 3000 * n, fun _ => ⟨none, "1\n", ""⟩⟩, bootFuel := 1,
          hostPort := 8081, forward := ⟨none, "8081\n", ""⟩, agent := ⟨none, "", ""⟩,
          registration := .ok (), killThrows := false } = some run ∧
      run.outcome = .ok ⟨"inst-a", "emulator-5554", "Pixel_34", "http://localhost:8081"⟩ :=
    ⟨_, rfl, rfl⟩
  obtain ⟨_, _, events, _, heff⟩ :=
    startEmulator_address_matches_forward _ _ _ run _ hrun hout
  refine ⟨run, hrun, hout, ?_⟩
  rw [heff]
  have hcmd : forwardCommand "emulator-5554" 8081 8080 =
      "-s emulator-5554 forward tcp:8081 tcp:8080" := by decide
  simp [hcmd]

theorem excessBits_spec :
    ∀ (fuel p : Nat), excessBits fuel p = 0 ∨ 2 ^ 53 * 2 ^ excessBits fuel p ≤ 2 * p := by
  intro fuel
  induction fuel with
  | zero => intro p; left; rfl
  | succ fuel ih =>
    intro p
    by_cases hp : p < 2 ^ 53
    · left
      simp only [excessBits, hp, if_true]
    · right
      simp only [excessBits, hp, if_false]
      have hhalf : 2 * (p / 2) ≤ p := Nat.mul_div_le p 2
      rcases ih (p / 2) with h0 | hbig
      · rw [h0]
        norm_num at hp ⊢
        omega
      · have hpow : 2 ^ (excessBits fuel (p / 2) + 1) = 2 ^ excessBits fuel (p / 2) * 2 :=
          Nat.pow_succ 2 _
        rw [hpow]
        generalize 2 ^ excessBits fuel (p / 2) = x at *
        norm_num at hbig ⊢
        omega

theorem roundToDouble_le (p : Nat) : 2 ^ 53 * roundToDouble p ≤ 2 ^ 53 * p + p := by
  have hdiv : p / 2 ^ excessBits 64 p * 2 ^ excessBits 64 p ≤ p := Nat.div_mul_le_self _ _
  have hsplit : 2 ^ excessBits 64 p * (p / 2 ^ excessBits 64 p) + p % 2 ^ excessBits 64 p = p :=
    Nat.div_add_mod p _
  have hlow : 2 ^ 53 * (p / 2 ^ excessBits 64 p * 2 ^ excessBits 64 p) ≤ 2 ^ 53 * p + p := by
    have := Nat.mul_le_mul_left (2 ^ 53) hdiv
    omega
  unfold roundToDouble
  simp only
  split
  · exact hlow
  · rename_i hhalf
    split
    · exact hlow
    · rcases excessBits_spec 64 p with h0 | hbig
      · rw [h0] at hhalf
        simp [Nat.mod_one] at hhalf
      · have hcomm : 2 ^ excessBits 64 p * (p / 2 ^ excessBits 64 p) =
            p / 2 ^ excessBits 64 p * 2 ^ excessBits 64 p := Nat.mul_comm _ _
        rw [Nat.add_mul, Nat.one_mul]
        generalize 2 ^ excessBits 64 p = x at *
        generalize p / x * x = y at *
        generalize p % x = r at *
        norm_num at hbig ⊢
        omega

theorem getFreePort_le (m e : Nat) (hm : m < 2 ^ 53) (hlt : m < 2 ^ e) :
    getFreePort m e ≤ 49151 := by
  have hround := roundToDouble_le (m * (49151 - 10000 + 1))
  have hquot : roundToDouble (m * (49151 - 10000 + 1)) / 2 ^ e < 39152 := by
    apply (Nat.div_lt_iff_lt_mul (Nat.pos_pow_of_pos e (by decide))).mpr
    generalize 2 ^ e = x at *
    generalize roundToDouble (m * (49151 - 10000 + 1)) = y at *
    norm_num at hround hm ⊢
    omega
  unfold getFreePort
  omega

/-- The rounding of the product matters: for the draw `2264913073736337 / 2 ^ 52` the
exact product lies just below 19690 and the double product is 19690, so the port is
29690 where exact arithmetic would give 29689. -/
theorem getFreePort_rounds_product :
    getFreePort 2264913073736337 52 = 29690 ∧
    2264913073736337 * (49151 - 10000 + 1) / 2 ^ 52 + 10000 = 29689 := by
  decide

/-- C22 as stated fails: two starts whose draws of `Math.random()` are both `1 / 2` get
the same host port, and both instances are then tracked with the address
`http://localhost:29576`. -/
theorem startEmulator_same_port_twice :
    getFreePort 1 1 = 29576 ∧
    ∃ first second : StartRun,
      startEmulator [] (.name "Pixel_34")
        { instanceId := "inst-a", pid := 100, exited := false,
          devices := ⟨none, "List of devices attached\nemulator-5554\tdevice\n", ""⟩,
          boot := ⟨fun n => 3000 * n, fun _ => ⟨none, "1\n", ""⟩⟩, bootFuel := 1,
          hostPort := getFreePort 1 1, forward := ⟨none, "29576\n", ""⟩,
          agent := ⟨none, "", ""⟩, registration := .ok (), killThrows := false } = some first ∧
      startEmulator first.running (.name "Pixel_35")
        { instanceId := "inst-b", pid := 200, exited := false,
          devices := ⟨none,
            "List of devices attached\nemulator-5556\tdevice\nemulator-5554\tdevice\n", ""⟩,
          boot := ⟨fun n => 3000 * n, fun _ => ⟨none, "1\n", ""⟩⟩, bootFuel := 1,
          hostPort := getFreePort 1 1, forward := ⟨none, "29576\n", ""⟩,
          agent := ⟨none, "", ""⟩, registration := .ok (), killThrows := false } = some second ∧
      second.running.map (fun kv => (kv.1, kv.2.deviceSerial, kv.2.address)) =
        [("inst-a", some "emulator-5554", some "http://localhost:29576"),
          ("inst-b", some "emulator-5556", some "http://localhost:29576")] := by
  refine ⟨by decide, _, _, rfl, rfl, by decide⟩

/-- C22 (amended): when `Math.random()` returns a double `m / 2 ^ e` below 1, the port
drawn by `getFreePort` lies between 10000 and 49151; a successful `startEmulator` call
returns the drawn port in its address, and the same call made with any other tracking
map returns the same details, so the port does not depend on the ports of the
instances tracked. -/
theorem getFreePort_range_and_unchecked (m e : Nat) (hm : m < 2 ^ 53) (hlt : m < 2 ^ e) :
    10000 ≤ getFreePort m e ∧ getFreePort m e ≤ 49151 ∧
    ∀ (running : Tracking) (config : Config) (env : StartEnv) (run : StartRun)
      (details : InstanceDetails),
      env.hostPort = getFreePort m e →
      startEmulator running config env = some run → run.outcome = .ok details →
      details.address = "http://localhost:" ++ toString (getFreePort m e) ∧
      ∀ other : Tracking, ∃ run2 : StartRun,
        startEmulator other config env = some run2 ∧ run2.outcome = .ok details := by
  refine ⟨?_, getFreePort_le m e hm hlt, ?_⟩
  · exact Nat.le_add_left _ _
  · intro running config env run details hport h hok
    obtain ⟨avdName, events, hname, hne, hdisc, hboot, hforward, hagent, hdetails⟩ :=
      startEmulator_ok_inv running config env run details h hok
    refine ⟨?_, ?_⟩
    · rw [← hport, hdetails]
    · intro other
      refine ⟨_, startEmulator_ready other config env avdName details.deviceSerial events hname
        hne hdisc hboot hforward hagent, ?_⟩
      rw [hdetails]

/-- Witness of C22 (amended): the draw `1 / 2` gives the port 29576, inside the range,
the largest double below 1 gives the port 49151, and the draw
`2264913073736337 / 2 ^ 52`, whose product is rounded up to 19690, gives 29690. -/
theorem getFreePort_range_and_unchecked_witness :
    (10000 ≤ getFreePort 1 1 ∧ getFreePort 1 1 ≤ 49151) ∧ getFreePort 1 1 = 29576 ∧
    getFreePort (2 ^ 53 - 1) 53 = 49151 ∧ getFreePort 2264913073736337 52 = 29690 :=
  ⟨⟨(getFreePort_range_and_unchecked 1 1 (by decide) (by decide)).1,
    (getFreePort_range_and_unchecked 1 1 (by decide) (by decide)).2.1⟩, by decide, by decide,
    by decide⟩

/-- C24 at the failing input: `POST /dispatch/inst-a` with the command `install` and an
empty payload, for the tracked instance `inst-a`, is answered with status 500,
the generic error `Command execution failed` and the field-specific message only as
`details`; no bridge command is run. -/
theorem dispatchRoute_install_without_apkPath :
    (dispatchRoute
        [("inst-a", ⟨some 100, "Pixel_34", some "inst-a", some "emulator-5554",
          some "http://localhost:12000"⟩)]
        (fun _ => ⟨none, "", ""⟩) 0 "inst-a" ⟨some "install", some {}⟩).reply =
      .failed "Command execution failed" "APK path is required in payload" ∧
    (dispatchRoute
        [("inst-a", ⟨some 100, "Pixel_34", some "inst-a", some "emulator-5554",
          some "http://localhost:12000"⟩)]
        (fun _ => ⟨none, "", ""⟩) 0 "inst-a" ⟨some "install", some {}⟩).reply.status = 500 ∧
    (dispatchRoute
        [("inst-a", ⟨some 100, "Pixel_34", some "inst-a", some "emulator-5554",
          some "http://localhost:12000"⟩)]
        (fun _ => ⟨none, "", ""⟩) 0 "inst-a" ⟨some "install", some {}⟩).commands = [] := by
  decide

theorem startEmulator_effects_start (running : Tracking) (config : Config) (env : StartEnv)
    (run : StartRun) (avdName : String)
    (hname : config.opts.avdName = some avdName) (hne : avdName ≠ "")
    (h : startEmulator running config env = some run) :
    ∃ rest : List Effect,
      run.effects =
        Effect.spawn (launchArgs avdName config.opts) :: Effect.sleep 5000 :: rest := by
  unfold startEmulator at h
  rw [hname] at h
  simp only [hne, if_false] at h
  cases hd : findNewEmulatorDevice (runAdbCommand env.devices) with
  | error e =>
    rw [hd] at h
    simp only [cleanup_eq, Option.some.injEq] at h
    subst h
    exact ⟨_, rfl⟩
  | ok serial =>
    rw [hd] at h
    simp only at h
    cases hb : waitForBoot env.boot serial 120000 env.bootFuel with
    | none => rw [hb] at h; simp at h
    | some boot =>
      rw [hb] at h
      simp only at h
      obtain ⟨outcome, events⟩ := boot
      cases outcome with
      | error e =>
        simp only [cleanup_eq, Option.some.injEq] at h
        subst h
        exact ⟨_, rfl⟩
      | ok u =>
        simp only at h
        cases hf : runAdbCommand env.forward with
        | error e =>
          rw [hf] at h
          simp only [cleanup_eq, Option.some.injEq] at h
          subst h
          exact ⟨_, rfl⟩
        | ok out1 =>
          rw [hf] at h
          simp only at h
          cases ha : runAdbCommand env.agent with
          | error e =>
            rw [ha] at h
            simp only [cleanup_eq, Option.some.injEq] at h
            subst h
            exact ⟨_, rfl⟩
          | ok out2 =>
            rw [ha] at h
            cases hr : env.registration <;> rw [hr] at h <;>
              simp only [Option.some.injEq] at h <;> subst h <;> exact ⟨_, rfl⟩

theorem bootLoop_returns (env : BootEnv) (deviceSerial : String) (timeoutMs : Int) :
    ∀ (fuel n : Nat) (events : List BootEvent),
      (∃ j : Nat, n ≤ j ∧ j < n + fuel ∧
        (¬ env.clock (j + 1) - env.clock 0 < timeoutMs ∨ runAdbCommand (env.poll j) = .ok "1")) →
      ∃ run : BootRun, bootLoop env deviceSerial timeoutMs fuel n events = some run := by
  intro fuel
  induction fuel with
  | zero =>
    intro n events h
    obtain ⟨j, h1, h2, _⟩ := h
    omega
  | succ fuel ih =>
    intro n events h
    obtain ⟨j, h1, h2, hstop⟩ := h
    by_cases hclock : env.clock (n + 1) - env.clock 0 < timeoutMs
    · cases hpoll : runAdbCommand (env.poll n) with
      | ok output =>
        by_cases hout : output = "1"
        · exact ⟨_, by simp only [bootLoop, hclock, if_true, hpoll, hout]; rfl⟩
        · have hj : n + 1 ≤ j := by
            by_contra hlt
            have hjn : j = n := by omega
            subst hjn
            rcases hstop with hstop | hstop
            · exact hstop hclock
            · rw [hpoll] at hstop
              exact hout (Except.ok.inj hstop)
          obtain ⟨run, hrun⟩ := ih (n + 1)
            (events ++
              [BootEvent.poll ("-s " ++ deviceSerial ++ " shell getprop sys.boot_completed")] ++
              [BootEvent.sleep 3000])
            ⟨j, hj, by omega, hstop⟩
          exact ⟨run, by simp only [bootLoop, hclock, if_true, hpoll, hout, if_false]; exact hrun⟩
      | error e =>
        have hj : n + 1 ≤ j := by
          by_contra hlt
          have hjn : j = n := by omega
          subst hjn
          rcases hstop with hstop | hstop
          · exact hstop hclock
          · rw [hpoll] at hstop
            cases hstop
        obtain ⟨run, hrun⟩ := ih (n + 1)
          (events ++
            [BootEvent.poll ("-s " ++ deviceSerial ++ " shell getprop sys.boot_completed")] ++
            [BootEvent.sleep 3000])
          ⟨j, hj, by omega, hstop⟩
        exact ⟨run, by simp only [bootLoop, hclock, if_true, hpoll]; exact hrun⟩
    · exact ⟨_, by simp only [bootLoop, hclock, if_false]; rfl⟩

theorem startEmulator_returns (running : Tracking) (config : Config) (env : StartEnv)
    (avdName : String) (N : Nat)
    (hname : config.opts.avdName = some avdName)
    (hends : ¬ env.boot.clock (N + 1) - env.boot.clock 0 < 120000 ∨
      runAdbCommand (env.boot.poll N) = .ok "1")
    (hfuel : N < env.bootFuel) :
    ∃ run : StartRun, startEmulator running config env = some run := by
  unfold startEmulator
  rw [hname]
  by_cases hne : avdName = ""
  · exact ⟨_, by simp only [hne, if_true]; rfl⟩
  · simp only [hne, if_false]
    cases hd : findNewEmulatorDevice (runAdbCommand env.devices) with
    | error e => exact ⟨_, rfl⟩
    | ok serial =>
      obtain ⟨boot, hboot⟩ := bootLoop_returns env.boot serial 120000 env.bootFuel 0 []
        ⟨N, Nat.zero_le _, by omega, hends⟩
      have hwait : waitForBoot env.boot serial 120000 env.bootFuel = some boot := hboot
      simp only [hwait]
      obtain ⟨outcome, events⟩ := boot
      cases outcome with
      | error e => exact ⟨_, rfl⟩
      | ok u =>
        simp only
        cases hf : runAdbCommand env.forward with
        | error e => exact ⟨_, rfl⟩
        | ok out1 =>
          simp only
          cases ha : runAdbCommand env.agent with
          | error e => exact ⟨_, rfl⟩
          | ok out2 =>
            simp only
            cases hr : env.registration <;> exact ⟨_, rfl⟩

/-- C25: for a non-empty avdName the argument list built by `startEmulator` is `-avd`,
avdName, then `-no-window`, `-no-audio` iff headless (default on), `-read-only` iff
readOnly (default off), `-gpu`, gpu iff gpu (default `host`) is non-empty,
`-no-snapshot` iff noSnapshot (default off), then the extraArgs. Whenever the boot
polling comes to an end (the device reports its boot or the clock passes the timeout
at iteration `N` at the latest) and the fuel exceeds `N`, `startEmulator` returns, and
however the call ends its first effect is the spawn with that list; with no options
supplied the list is exactly `-avd`, avdName, `-no-window`, `-no-audio`, `-gpu`,
`host`. -/
theorem startEmulator_launch_arguments (running : Tracking) (config : Config) (env : StartEnv)
    (avdName : String) (N : Nat)
    (hname : config.opts.avdName = some avdName) (hne : avdName ≠ "")
    (hends : ¬ env.boot.clock (N + 1) - env.boot.clock 0 < 120000 ∨
      runAdbCommand (env.boot.poll N) = .ok "1")
    (hfuel : N < env.bootFuel) :
    launchArgs avdName config.opts =
      ["-avd", avdName] ++
        (if config.opts.headless.getD true = true then ["-no-window", "-no-audio"] else []) ++
        (if config.opts.readOnly.getD false = true then ["-read-only"] else []) ++
        (if config.opts.gpu.getD "host" ≠ "" then ["-gpu", config.opts.gpu.getD "host"]
          else []) ++
        (if config.opts.noSnapshot.getD false = true then ["-no-snapshot"] else []) ++
        config.opts.extraArgs.getD [] ∧
    ∃ run : StartRun,
      startEmulator running config env = some run ∧
      run.effects.head? = some (Effect.spawn
        (["-avd", avdName] ++
          (if config.opts.headless.getD true = true then ["-no-window", "-no-audio"] else []) ++
          (if config.opts.readOnly.getD false = true then ["-read-only"] else []) ++
          (if config.opts.gpu.getD "host" ≠ "" then ["-gpu", config.opts.gpu.getD "host"]
            else []) ++
          (if config.opts.noSnapshot.getD false = true then ["-no-snapshot"] else []) ++
          config.opts.extraArgs.getD [])) ∧
      (config.opts.headless = none → config.opts.readOnly = none → config.opts.gpu = none →
        config.opts.noSnapshot = none → config.opts.extraArgs = none →
        run.effects.head? = some (Effect.spawn
          ["-avd", avdName, "-no-window", "-no-audio", "-gpu", "host"])) := by
  obtain ⟨run, hrun⟩ := startEmulator_returns running config env avdName N hname hends hfuel
  obtain ⟨rest, hrest⟩ := startEmulator_effects_start running config env run avdName hname hne hrun
  refine ⟨rfl, run, hrun, ?_, ?_⟩
  · rw [hrest]
    rfl
  · intro h1 h2 h3 h4 h5
    rw [hrest]
    simp [launchArgs, h1, h2, h3, h4, h5]

/-- Witness of C25: a start of `Pixel_34` given by name only, and a start with every
option set, in both of which the device reports its boot at the first poll. -/
theorem startEmulator_launch_arguments_witness :
    (∃ run : StartRun,
      startEmulator [] (.name "Pixel_34")
        { instanceId := "inst-a", pid := 100, exited := false,
          devices := ⟨none, "List of devices attached\nemulator-5554\tdevice\n", ""⟩,
          boot := ⟨fun n => 3000 * n, fun _ => ⟨none, "1\n", ""⟩⟩, bootFuel := 1,
          hostPort := 12000, forward := ⟨none, "12000\n", ""⟩, agent := ⟨none, "", ""⟩,
          registration := .ok (), killThrows := false } = some run ∧
      run.effects.head? = some (Effect.spawn
        ["-avd", "Pixel_34", "-no-window", "-no-audio", "-gpu", "host"])) ∧
    (∃ run : StartRun,
      startEmulator []
        (.options
          { avdName := some "Pixel_34", headless := some false, readOnly := some true,
            gpu := some "", noSnapshot := some true, extraArgs := some ["-wipe-data"] })
        { instanceId := "inst-a", pid := 100, exited := false,
          devices := ⟨none, "List of devices attached\nemulator-5554\tdevice\n", ""⟩,
          boot := ⟨fun n => 3000 * n, fun _ => ⟨none, "1\n", ""⟩⟩, bootFuel := 1,
          hostPort := 12000, forward := ⟨none, "12000\n", ""⟩, agent := ⟨none, "", ""⟩,
          registration := .ok (), killThrows := false } = some run ∧
      run.effects.head? = some (Effect.spawn
        ["-avd", "Pixel_34", "-read-only", "-no-snapshot", "-wipe-data"])) := by
  refine ⟨?_, ?_⟩
  · obtain ⟨_, run, hrun, _, hdefault⟩ := startEmulator_launch_arguments [] (.name "Pixel_34")
      { instanceId := "inst-a", pid := 100, exited := false,
        devices := ⟨none, "List of devices attached\nemulator-5554\tdevice\n", ""⟩,
        boot := ⟨fun n => 3000 * n, fun _ => ⟨none, "1\n", ""⟩⟩, bootFuel := 1,
        hostPort := 12000, forward := ⟨none, "12000\n", ""⟩, agent := ⟨none, "", ""⟩,
        registration := .ok (), killThrows := false }
      "Pixel_34" 0 rfl (by decide) (Or.inr rfl) (by decide)
    exact ⟨run, hrun, hdefault rfl rfl rfl rfl rfl⟩
  · obtain ⟨_, run, hrun, hargs, _⟩ := startEmulator_launch_arguments []
      (.options
        { avdName := some "Pixel_34", headless := some false, readOnly := some true,
          gpu := some "", noSnapshot := some true, extraArgs := some ["-wipe-data"] })
      { instanceId := "inst-a", pid := 100, exited := false,
        devices := ⟨none, "List of devices attached\nemulator-5554\tdevice\n", ""⟩,
        boot := ⟨fun n => 3000 * n, fun _ => ⟨none, "1\n", ""⟩⟩, bootFuel := 1,
        hostPort := 12000, forward := ⟨none, "12000\n", ""⟩, agent := ⟨none, "", ""⟩,
        registration := .ok (), killThrows := false }
      "Pixel_34" 0 rfl (by decide) (Or.inr rfl) (by decide)
    exact ⟨run, hrun, hargs⟩

/-- C28: for a config that is absent, or a string or an object without a non-empty
avdName, `startEmulator` fails with `avdName is required`, issues no effect (no
process is spawned) and leaves the tracking map as it was. -/
theorem startEmulator_requires_avdName (running : Tracking) (env : StartEnv) :
    startEmulator running .absent env = some ⟨.error "avdName is required", running, []⟩ ∧
    startEmulator running (.name "") env = some ⟨.error "avdName is required", running, []⟩ ∧
    (∀ opts : Options, opts.avdName = none ∨ opts.avdName = some "" →
      startEmulator running (.options opts) env =
        some ⟨.error "avdName is required", running, []⟩) := by
  refine ⟨rfl, rfl, ?_⟩
  intro opts h
  rcases h with h | h
  · simp [startEmulator, Config.opts, h]
  · simp [startEmulator, Config.opts, h]

/-- Witness of C28: an object config that has options but no avdName, with `inst-a`
tracked. -/
theorem startEmulator_requires_avdName_witness :
    startEmulator
        [("inst-a", ⟨some 100, "Pixel_34", some "inst-a", some "emulator-5554",
          some "http://localhost:12000"⟩)]
        (.options { headless := some false })
        { instanceId := "inst-b", pid := 200, exited := false,
          devices := ⟨none, "List of devices attached\nemulator-5554\tdevice\n", ""⟩,
          boot := ⟨fun n => 3000 * n, fun _ => ⟨none, "1\n", ""⟩⟩, bootFuel := 1,
          hostPort := 12000, forward := ⟨none, "12000\n", ""⟩, agent := ⟨none, "", ""⟩,
          registration := .ok (), killThrows := false } =
      some ⟨.error "avdName is required",
        [("inst-a", ⟨some 100, "Pixel_34", some "inst-a", some "emulator-5554",
          some "http://localhost:12000"⟩)], []⟩ :=
  (startEmulator_requires_avdName _ _).2.2 { headless := some false } (Or.inl rfl)

end EmulatorManager

/-! ## Properties of the gateway authentication -/

namespace ApiGateway

open AdbManager

theorem token_of_bearer (apiKey rest : String) (hkey : ∀ c ∈ apiKey.data, c ≠ ' ')
    (hrest : rest = "" ∨ startsWith rest " " = true) :
    (jsSplit ("Bearer " ++ apiKey ++ rest) ' ')[1]? = some apiKey := by
  have hdata : ("Bearer " ++ apiKey ++ rest).data =
      ['B', 'e', 'a', 'r', 'e', 'r'] ++ ' ' :: (apiKey.data ++ rest.data) := by
    simp only [String.data_append]
    rfl
  have hfront : ∀ c ∈ ['B', 'e', 'a', 'r', 'e', 'r'], c ≠ ' ' := by decide
  have hsecond : ∃ more, splitChars ' ' (apiKey.data ++ rest.data) = apiKey.data :: more := by
    rcases hrest with hrest | hrest
    · subst hrest
      refine ⟨[], ?_⟩
      have hnil : ("" : String).data = [] := rfl
      rw [hnil, List.append_nil]
      exact splitChars_no_sep ' ' _ hkey
    · obtain ⟨tail, htail⟩ : ∃ tail, rest.data = ' ' :: tail := by
        unfold startsWith at hrest
        have hsp : (" " : String).data = [' '] := rfl
        rw [hsp] at hrest
        cases hd : rest.data with
        | nil => rw [hd] at hrest; simp [List.isPrefixOf] at hrest
        | cons c tail =>
          rw [hd] at hrest
          simp only [List.isPrefixOf, Bool.and_eq_true, beq_iff_eq] at hrest
          exact ⟨tail, by rw [← hrest.1]⟩
      refine ⟨splitChars ' ' tail, ?_⟩
      rw [htail]
      exact splitChars_append_sep ' ' tail _ hkey
  obtain ⟨more, hmore⟩ := hsecond
  simp only [jsSplit, hdata]
  rw [splitChars_append_sep ' ' _ _ hfront, hmore]
  simp

theorem startsWith_bearer (apiKey rest : String) :
    startsWith ("Bearer " ++ apiKey ++ rest) "Bearer " = true := by
  unfold startsWith
  simp only [String.data_append]
  show List.isPrefixOf ['B', 'e', 'a', 'r', 'e', 'r', ' ']
    (['B', 'e', 'a', 'r', 'e', 'r', ' '] ++ apiKey.data ++ rest.data) = true
  simp [List.isPrefixOf]

theorem startsWith_nonempty (h : String) (hstart : startsWith h "Bearer " = true) : h ≠ "" := by
  intro he
  subst he
  revert hstart
  decide

/-- C29, counterexample: with the key `secret-key`, the header
`Bearer secret-key extra` is not `Bearer ` followed by exactly the key, and the
request is passed on all the same: only the second space-separated piece is compared. -/
theorem authenticate_passes_longer_header :
    "Bearer secret-key extra" ≠ "Bearer " ++ "secret-key" ∧
    authenticate "secret-key" "/instances" (some "Bearer secret-key extra") = .next := by
  decide

/-- C29, amended: requests to `/health` always pass. On any other path the middleware
answers 401 when the header is missing or does not start with `Bearer `; for a header
starting with `Bearer ` it passes the request on exactly when the second
space-separated piece of the header is the API key, and answers 403 otherwise. Hence,
for a key without spaces, `Bearer <key>` passes, and so does `Bearer <key>` followed by
a space and any further text. -/
theorem authenticate_compares_second_piece (apiKey path : String)
    (authorization : Option String) (hpath : path ≠ "/health") :
    authenticate apiKey "/health" authorization = .next ∧
    (authorization = none →
      authenticate apiKey path authorization =
        .reply 401 "Unauthorized: Missing or invalid Authorization header") ∧
    (∀ h, authorization = some h → startsWith h "Bearer " = false →
      authenticate apiKey path authorization =
        .reply 401 "Unauthorized: Missing or invalid Authorization header") ∧
    (∀ h, authorization = some h → startsWith h "Bearer " = true →
      (authenticate apiKey path authorization = .next ↔
        (jsSplit h ' ')[1]? = some apiKey) ∧
      ((jsSplit h ' ')[1]? ≠ some apiKey →
        authenticate apiKey path authorization = .reply 403 "Forbidden: Invalid API Key")) ∧
    (∀ rest, (∀ c ∈ apiKey.data, c ≠ ' ') → rest = "" ∨ startsWith rest " " = true →
      authenticate apiKey path (some ("Bearer " ++ apiKey ++ rest)) = .next) := by
  have hbearer : ∀ h, startsWith h "Bearer " = true →
      (authenticate apiKey path (some h) = .next ↔ (jsSplit h ' ')[1]? = some apiKey) ∧
      ((jsSplit h ' ')[1]? ≠ some apiKey →
        authenticate apiKey path (some h) = .reply 403 "Forbidden: Invalid API Key") := by
    intro h hstart
    have hne : h ≠ "" := startsWith_nonempty h hstart
    cases htok : (jsSplit h ' ')[1]? with
    | none => simp [authenticate, hpath, hne, hstart, htok]
    | some token =>
      by_cases heq : token = apiKey
      · simp [authenticate, hpath, hne, hstart, htok, heq]
      · simp [authenticate, hpath, hne, hstart, htok, heq]
  refine ⟨by simp [authenticate], ?_, ?_, ?_, ?_⟩
  · intro hnone
    subst hnone
    simp [authenticate, hpath]
  · intro h hsome hstart
    subst hsome
    simp [authenticate, hpath, hstart]
  · intro h hsome hstart
    subst hsome
    exact hbearer h hstart
  · intro rest hkey hrest
    exact (hbearer _ (startsWith_bearer apiKey rest)).1.mpr (token_of_bearer apiKey rest hkey hrest)

/-- C29, witness: on `/instances` with the key `secret-key`, the header
`Bearer secret-key` passes, `Bearer wrong` is answered 403 and `Basic secret-key` 401. -/
theorem authenticate_compares_second_piece_witness :
    "/instances" ≠ "/health" ∧
    authenticate "secret-key" "/instances" (some "Bearer secret-key") = .next ∧
    authenticate "secret-key" "/instances" (some "Bearer wrong") =
      .reply 403 "Forbidden: Invalid API Key" ∧
    authenticate "secret-key" "/instances" (some "Basic secret-key") =
      .reply 401 "Unauthorized: Missing or invalid Authorization header" ∧
    authenticate "secret-key" "/instances" none =
      .reply 401 "Unauthorized: Missing or invalid Authorization header" :=
  ⟨by decide,
   (authenticate_compares_second_piece "secret-key" "/instances" (some "Bearer secret-key")
      (by decide)).2.2.2.1 "Bearer secret-key" rfl (by decide) |>.1.mpr (by decide),
   (authenticate_compares_second_piece "secret-key" "/instances" (some "Bearer wrong")
      (by decide)).2.2.2.1 "Bearer wrong" rfl (by decide) |>.2 (by decide),
   (authenticate_compares_second_piece "secret-key" "/instances" (some "Basic secret-key")
      (by decide)).2.2.1 "Basic secret-key" rfl (by decide),
   (authenticate_compares_second_piece "secret-key" "/instances" none (by decide)).2.1 rfl⟩

end ApiGateway

/-! ## Properties of `POST /orchestrate` for retry members that are any JSON numbers -/

namespace JsonOrchestrator

open Orchestrator (Outcome Gateway)

theorem attemptLoop_rejected_num (gw : Gateway) (i : Nat) (step : Step) (policy : RetryPolicy) :
    ∀ (k r attempt : Nat) (st : AttemptState),
      (∀ a : Nat, attempt ≤ a → a < attempt + k → (gw i a).isError = true) →
      ∃ le : Option (Option String),
        (0 < k → le.isSome = true) ∧ (k = 0 → le = st.lastError) ∧
        attemptLoop gw i step policy (k + r) attempt st =
          attemptLoop gw i step policy r (attempt + k)
            { results := st.results, trace := st.trace ++ failEvents i step policy k attempt,
              lastError := le, success := st.success } := by
  intro k
  induction k with
  | zero =>
    intro r attempt st _
    exact ⟨st.lastError, by simp, by simp, by simp [failEvents]⟩
  | succ k ih =>
    intro r attempt st h
    have h0 : (gw i attempt).isError = true := h attempt (le_refl _) (by omega)
    obtain ⟨resp, hresp⟩ : ∃ resp, gw i attempt = .error resp := by
      cases hg : gw i attempt with
      | ok data => rw [hg] at h0; simp [Outcome.isError] at h0
      | error resp => exact ⟨resp, rfl⟩
    obtain ⟨le, hle1, hle0, heq⟩ := ih r (attempt + 1)
      { st with
        trace := (if 0 < policy.delay ∧ (attempt : ℚ) < policy.count then
            (st.trace ++ [Event.dispatch (i + 1) attempt step.command step.payload]) ++
              [Event.wait policy.delay]
          else st.trace ++ [Event.dispatch (i + 1) attempt step.command step.payload]),
        lastError := some resp }
      (fun a ha1 ha2 => h a (by omega) (by omega))
    refine ⟨if k = 0 then some resp else le, ?_, by omega, ?_⟩
    · intro _
      by_cases hk : k = 0
      · simp [hk]
      · simp only [hk, if_false]
        exact hle1 (by omega)
    · have hshape : k + 1 + r = (k + r) + 1 := by omega
      rw [hshape]
      simp only [attemptLoop, hresp]
      rw [heq]
      have hidx : attempt + 1 + k = attempt + (k + 1) := by omega
      rw [hidx]
      congr 1
      by_cases hk : k = 0
      · subst hk
        simp only [if_true]
        rw [hle0 rfl]
        by_cases hc : 0 < policy.delay ∧ (attempt : ℚ) < policy.count
        · simp [failEvents, hc]
        · simp [failEvents, hc]
      · simp only [hk, if_false]
        by_cases hc : 0 < policy.delay ∧ (attempt : ℚ) < policy.count
        · simp [failEvents, hc]
        · simp [failEvents, hc]

theorem floor_toNat_ge (c : ℚ) (k : Nat) (h : ((k : Nat) : ℚ) ≤ c) : k ≤ ⌊c⌋.toNat := by
  have hfloor : ((k : Nat) : ℤ) ≤ ⌊c⌋ := Int.le_floor.mpr (by exact_mod_cast h)
  omega

theorem le_of_le_floor_toNat (c : ℚ) (a : Nat) (h1 : 1 ≤ a) (h : a ≤ ⌊c⌋.toNat) :
    (a : ℚ) ≤ c := by
  have hfloor : ((a : Nat) : ℤ) ≤ ⌊c⌋ := by omega
  have := Int.le_floor.mp hfloor
  exact_mod_cast this

theorem attemptLoop_resolves_num (gw : Gateway) (i : Nat) (step : Step) (k : Nat)
    (data : String) (h : SucceedsAfter gw i step k data) (results : List ResultEntry)
    (trace : List Event) :
    ∃ le : Option (Option String),
      attemptLoop gw i step (retryPolicy step) ⌊(retryPolicy step).count⌋.toNat 1
          { results := results, trace := trace, lastError := none, success := false } =
        { results := results ++ [⟨i + 1, ((k + 1 : Nat) : ℚ), "success", some data, none⟩],
          trace := trace ++ successEvents i step k, lastError := le, success := true } := by
  obtain ⟨hk, hrej, hok⟩ := h
  have hge := floor_toNat_ge _ _ hk
  obtain ⟨r, hr⟩ : ∃ r, ⌊(retryPolicy step).count⌋.toNat = k + (r + 1) :=
    ⟨⌊(retryPolicy step).count⌋.toNat - k - 1, by omega⟩
  obtain ⟨le, _, _, heq⟩ := attemptLoop_rejected_num gw i step (retryPolicy step) k (r + 1) 1
    { results := results, trace := trace, lastError := none, success := false }
    (fun a ha1 ha2 => hrej a ha1 (by omega))
  refine ⟨le, ?_⟩
  rw [hr, heq]
  have hidx : 1 + k = k + 1 := by omega
  simp only [attemptLoop, hidx, hok, successEvents, List.append_assoc]

theorem attemptLoop_exhausted_num (gw : Gateway) (i : Nat) (step : Step)
    (hcount : 1 ≤ (retryPolicy step).count)
    (hrej : ∀ a : Nat, 1 ≤ a → (a : ℚ) ≤ (retryPolicy step).count → (gw i a).isError = true)
    (results : List ResultEntry) (trace : List Event) :
    ∃ response : Option String,
      attemptLoop gw i step (retryPolicy step) ⌊(retryPolicy step).count⌋.toNat 1
          { results := results, trace := trace, lastError := none, success := false } =
        { results := results,
          trace := trace ++
            failEvents i step (retryPolicy step) ⌊(retryPolicy step).count⌋.toNat 1,
          lastError := some response, success := false } := by
  obtain ⟨le, hsome, _, heq⟩ := attemptLoop_rejected_num gw i step (retryPolicy step)
    ⌊(retryPolicy step).count⌋.toNat 0 1
    { results := results, trace := trace, lastError := none, success := false }
    (fun a ha1 ha2 => hrej a ha1 (le_of_le_floor_toNat _ a ha1 (by omega)))
  have hpos : 0 < ⌊(retryPolicy step).count⌋.toNat := by
    have := floor_toNat_ge (retryPolicy step).count 1 (by exact_mod_cast hcount)
    omega
  obtain ⟨response, hresp⟩ := Option.isSome_iff_exists.mp (hsome hpos)
  refine ⟨response, ?_⟩
  rw [Nat.add_zero] at heq
  rw [heq, hresp]
  simp [attemptLoop]

theorem stepLoop_prefix_num (gw : Gateway) (k : Nat → Nat) (d : Nat → String) :
    ∀ (pre rest : List Step) (i : Nat) (results : List ResultEntry) (trace : List Event),
      (∀ (j : Nat) (s : Step), pre[j]? = some s →
        SucceedsAfter gw (i + j) s (k (i + j)) (d (i + j))) →
      ∃ results2 : List ResultEntry,
        stepLoop gw (pre ++ rest) i results trace =
          stepLoop gw rest (i + pre.length) results2 (trace ++ prefixEvents k pre i) := by
  intro pre
  induction pre with
  | nil => intro rest i results trace _; exact ⟨results, by simp [prefixEvents]⟩
  | cons step pre ih =>
    intro rest i results trace h
    obtain ⟨le, hle⟩ := attemptLoop_resolves_num gw i step (k i) (d i)
      (by simpa using h 0 step (by simp)) results trace
    have hrest : ∀ (j : Nat) (s : Step), pre[j]? = some s →
        SucceedsAfter gw (i + 1 + j) s (k (i + 1 + j)) (d (i + 1 + j)) := by
      intro j s hj
      have := h (j + 1) s (by simpa using hj)
      have hidx : i + (j + 1) = i + 1 + j := by omega
      rwa [hidx] at this
    have hlen : i + (step :: pre).length = i + 1 + pre.length := by simp; omega
    obtain ⟨results2, hrun⟩ := ih rest (i + 1)
      (results ++ [⟨i + 1, ((k i + 1 : Nat) : ℚ), "success", some (d i), none⟩])
      (trace ++ successEvents i step (k i)) hrest
    refine ⟨results2, ?_⟩
    simp only [List.cons_append, stepLoop, hle, if_true, List.append_eq]
    rw [hrun, hlen]
    simp [prefixEvents, List.append_assoc]

theorem failEvents_filter_num (i : Nat) (step : Step) (policy : RetryPolicy) (s : Nat) :
    ∀ (k attempt : Nat),
      ((failEvents i step policy k attempt).filter (Event.isDispatchOf s)).length =
        if s = i + 1 then k else 0 := by
  intro k
  induction k with
  | zero => intro attempt; simp [failEvents]
  | succ k ih =>
    intro attempt
    by_cases hs : s = i + 1
    · subst hs
      have ih2 := ih (attempt + 1)
      simp only [if_true] at ih2
      by_cases hc : 0 < policy.delay ∧ (attempt : ℚ) < policy.count
      · simp [failEvents, List.filter_cons, Event.isDispatchOf, hc, ih2]
      · simp [failEvents, List.filter_cons, Event.isDispatchOf, hc, ih2]
    · have hs2 : ¬ i + 1 = s := fun h => hs h.symm
      by_cases hc : 0 < policy.delay ∧ (attempt : ℚ) < policy.count
      · simp [failEvents, List.filter_cons, Event.isDispatchOf, hs, hs2, hc, ih]
      · simp [failEvents, List.filter_cons, Event.isDispatchOf, hs, hs2, hc, ih]

theorem successEvents_filter_num (i : Nat) (step : Step) (k s : Nat) :
    ((successEvents i step k).filter (Event.isDispatchOf s)).length =
      if s = i + 1 then k + 1 else 0 := by
  by_cases hs : s = i + 1
  · simp [successEvents, List.filter_append, failEvents_filter_num, Event.isDispatchOf, hs]
  · have hs2 : ¬ i + 1 = s := fun h => hs h.symm
    simp [successEvents, List.filter_append, failEvents_filter_num, Event.isDispatchOf, hs, hs2]

theorem prefixEvents_filter_num (k : Nat → Nat) (s : Nat) :
    ∀ (pre : List Step) (i : Nat),
      ((prefixEvents k pre i).filter (Event.isDispatchOf s)).length =
        if i < s ∧ s ≤ i + pre.length then k (s - 1) + 1 else 0 := by
  intro pre
  induction pre with
  | nil =>
    intro i
    have h3 : ¬ (i < s ∧ s ≤ i) := by omega
    simp [prefixEvents, h3]
  | cons step pre ih =>
    intro i
    simp only [prefixEvents, List.filter_append, List.length_append, successEvents_filter_num, ih,
      List.length_cons]
    by_cases h1 : s = i + 1
    · subst h1; simp
    · by_cases h2 : i + 1 < s ∧ s ≤ i + 1 + pre.length
      · have h3 : i < s ∧ s ≤ i + (pre.length + 1) := by omega
        simp [h1, h2, h3]
      · have h3 : ¬ (i < s ∧ s ≤ i + (pre.length + 1)) := by omega
        simp [h1, h2, h3]

theorem retryPolicy_ofStep (step : Orchestrator.Step) :
    retryPolicy (ofStep step) =
      ⟨((Orchestrator.retryPolicy step).count : ℚ), ((Orchestrator.retryPolicy step).delay : ℚ)⟩ := by
  cases hc : step.retryCount <;> cases hd : step.retryDelay <;>
    simp [retryPolicy, ofStep, Orchestrator.retryPolicy, hc, hd]

theorem attemptLoop_ofStep (gw : Gateway) (i : Nat) (step : Orchestrator.Step)
    (policy : Orchestrator.RetryPolicy) :
    ∀ (remaining attempt : Nat) (st : Orchestrator.AttemptState),
      attemptLoop gw i (ofStep step) ⟨(policy.count : ℚ), (policy.delay : ℚ)⟩ remaining attempt
          ⟨st.results.map ofEntry, st.trace.map ofEvent, st.lastError, st.success⟩ =
        ⟨(Orchestrator.attemptLoop gw i step policy remaining attempt st).results.map ofEntry,
          (Orchestrator.attemptLoop gw i step policy remaining attempt st).trace.map ofEvent,
          (Orchestrator.attemptLoop gw i step policy remaining attempt st).lastError,
          (Orchestrator.attemptLoop gw i step policy remaining attempt st).success⟩ := by
  intro remaining
  induction remaining with
  | zero => intro attempt st; rfl
  | succ r ih =>
    intro attempt st
    have hcond : (0 < (policy.delay : ℚ) ∧ ((attempt : Nat) : ℚ) < (policy.count : ℚ)) ↔
        (0 < policy.delay ∧ (attempt : Int) < policy.count) := by
      constructor
      · rintro ⟨h1, h2⟩
        exact ⟨by exact_mod_cast h1, by exact_mod_cast h2⟩
      · rintro ⟨h1, h2⟩
        exact ⟨by exact_mod_cast h1, by exact_mod_cast h2⟩
    cases hg : gw i attempt with
    | ok data =>
      simp [attemptLoop, Orchestrator.attemptLoop, hg, ofEntry, ofEvent, ofStep]
    | error resp =>
      by_cases hc : 0 < policy.delay ∧ (attempt : Int) < policy.count
      · have hq := hcond.mpr hc
        have hstep := ih (attempt + 1)
          { st with
            trace := (st.trace ++
              [Orchestrator.Event.dispatch (i + 1) attempt step.command step.payload]) ++
              [Orchestrator.Event.wait policy.delay],
            lastError := some resp }
        simp only [attemptLoop, Orchestrator.attemptLoop, hg, hc, hq, and_self, if_true]
        simp only [List.map_append, List.map_cons, List.map_nil, ofEvent] at hstep
        exact hstep
      · have hq : ¬ (0 < (policy.delay : ℚ) ∧ ((attempt : Nat) : ℚ) < (policy.count : ℚ)) :=
          fun h => hc (hcond.mp h)
        have hstep := ih (attempt + 1)
          { st with
            trace := st.trace ++
              [Orchestrator.Event.dispatch (i + 1) attempt step.command step.payload],
            lastError := some resp }
        simp only [attemptLoop, Orchestrator.attemptLoop, hg, hc, hq, if_false]
        simp only [List.map_append, List.map_cons, List.map_nil, ofEvent] at hstep
        exact hstep

theorem stepLoop_ofStep (gw : Gateway) :
    ∀ (steps : List Orchestrator.Step) (i : Nat) (results : List Orchestrator.ResultEntry)
      (trace : List Orchestrator.Event),
      stepLoop gw (steps.map ofStep) i (results.map ofEntry) (trace.map ofEvent) =
        ofRun (Orchestrator.stepLoop gw steps i results trace) := by
  intro steps
  induction steps with
  | nil => intro i results trace; rfl
  | cons step rest ih =>
    intro i results trace
    have hfloor : ⌊((Orchestrator.retryPolicy step).count : ℚ)⌋.toNat =
        (Orchestrator.retryPolicy step).count.toNat := by
      rw [Int.floor_intCast]
    have hloop := attemptLoop_ofStep gw i step (Orchestrator.retryPolicy step)
      (Orchestrator.retryPolicy step).count.toNat 1
      { results := results, trace := trace, lastError := none, success := false }
    simp only [List.map_cons, stepLoop, Orchestrator.stepLoop, retryPolicy_ofStep, hfloor]
    simp only at hloop
    rw [hloop]
    simp only
    by_cases hs : (Orchestrator.attemptLoop gw i step (Orchestrator.retryPolicy step)
        (Orchestrator.retryPolicy step).count.toNat 1
        { results := results, trace := trace, lastError := none, success := false }).success = true
    · simp only [hs, if_true]
      exact ih _ _ _
    · simp only [hs, Bool.false_eq_true, if_false]
      cases hle : (Orchestrator.attemptLoop gw i step (Orchestrator.retryPolicy step)
          (Orchestrator.retryPolicy step).count.toNat 1
          { results := results, trace := trace, lastError := none, success := false }).lastError with
      | none => rfl
      | some response => simp [ofRun, ofReply, ofEntry]

/-- The two embeddings of `POST /orchestrate` agree: on steps whose retry members are
integers, the handler of `JsonOrchestrator` gives the run of the handler of
`Orchestrator`, result entries, replies and events included. -/
theorem orchestrate_ofStep (gw : Gateway) (instanceId : Option String)
    (steps : Option (List Orchestrator.Step)) :
    orchestrate gw ⟨instanceId, steps.map (List.map ofStep)⟩ =
      ofRun (Orchestrator.orchestrate gw ⟨instanceId, steps⟩) := by
  cases instanceId with
  | none => cases steps <;> rfl
  | some id =>
    cases steps with
    | none => rfl
    | some steps =>
      by_cases hid : id = ""
      · simp [orchestrate, Orchestrator.orchestrate, hid, ofRun, ofReply]
      · simp only [orchestrate, Orchestrator.orchestrate, Option.map_some', hid, if_false]
        exact stepLoop_ofStep gw steps 0 [] []

theorem head_append_ne_num (es1 es2 : List Event)
    (h1 : ∀ ms, es1.head? ≠ some (Event.wait ms)) (h2 : ∀ ms, es2.head? ≠ some (Event.wait ms)) :
    ∀ ms, (es1 ++ es2).head? ≠ some (Event.wait ms) := by
  intro ms
  cases es1 with
  | nil => simpa using h2 ms
  | cons e es => simpa using h1 ms

theorem attemptLoop_tail_num (gw : Gateway) (i : Nat) (step : Step) (policy : RetryPolicy) :
    ∀ (remaining attempt : Nat) (st : AttemptState),
      ∃ es : List Event,
        (attemptLoop gw i step policy remaining attempt st).trace = st.trace ++ es ∧
        (∀ s, s ≠ i + 1 → es.filter (Event.isDispatchOf s) = []) ∧
        (∀ ms, es.head? ≠ some (Event.wait ms)) := by
  intro remaining
  induction remaining with
  | zero => intro attempt st; exact ⟨[], by simp [attemptLoop]⟩
  | succ r ih =>
    intro attempt st
    have hd : ∀ s, s ≠ i + 1 →
        Event.isDispatchOf s (Event.dispatch (i + 1) attempt step.command step.payload) = false := by
      intro s hs
      simp only [Event.isDispatchOf, beq_eq_false_iff_ne, ne_eq]
      exact fun h => hs h.symm
    cases hg : gw i attempt with
    | ok data =>
      refine ⟨[Event.dispatch (i + 1) attempt step.command step.payload], ?_, ?_, by simp⟩
      · simp [attemptLoop, hg]
      · intro s hs; simp [List.filter_cons, hd s hs]
    | error resp =>
      by_cases hc : 0 < policy.delay ∧ (attempt : ℚ) < policy.count
      · obtain ⟨es, h2, h3, _⟩ := ih (attempt + 1)
          { st with
            trace := (st.trace ++ [Event.dispatch (i + 1) attempt step.command step.payload]) ++
              [Event.wait policy.delay],
            lastError := some resp }
        refine ⟨Event.dispatch (i + 1) attempt step.command step.payload ::
          Event.wait policy.delay :: es, ?_, ?_, by simp⟩
        · simp only [attemptLoop, hg, hc, and_self, if_true]; rw [h2]; simp
        · intro s hs
          have hw : Event.isDispatchOf s (Event.wait policy.delay) = false := rfl
          simp [List.filter_cons, hd s hs, hw, h3 s hs]
      · obtain ⟨es, h2, h3, _⟩ := ih (attempt + 1)
          { st with
            trace := st.trace ++ [Event.dispatch (i + 1) attempt step.command step.payload],
            lastError := some resp }
        refine ⟨Event.dispatch (i + 1) attempt step.command step.payload :: es, ?_, ?_, by simp⟩
        · simp only [attemptLoop, hg, hc, if_false]; rw [h2]; simp
        · intro s hs; simp [List.filter_cons, hd s hs, h3 s hs]

theorem stepLoop_tail_num (gw : Gateway) :
    ∀ (steps : List Step) (i : Nat) (results : List ResultEntry) (trace : List Event),
      ∃ es : List Event,
        (stepLoop gw steps i results trace).trace = trace ++ es ∧
        (∀ s, s ≤ i → es.filter (Event.isDispatchOf s) = []) ∧
        (∀ ms, es.head? ≠ some (Event.wait ms)) := by
  intro steps
  induction steps with
  | nil =>
    intro i results trace
    exact ⟨[], by simp [stepLoop]⟩
  | cons step rest ih =>
    intro i results trace
    obtain ⟨es, h2, h3, hh⟩ := attemptLoop_tail_num gw i step (retryPolicy step)
      ⌊(retryPolicy step).count⌋.toNat 1
      { results := results, trace := trace, lastError := none, success := false }
    simp only at h2
    by_cases hs : (attemptLoop gw i step (retryPolicy step) ⌊(retryPolicy step).count⌋.toNat 1
        { results := results, trace := trace, lastError := none, success := false }).success = true
    · obtain ⟨es2, g2, g3, gh⟩ := ih (i + 1)
        (attemptLoop gw i step (retryPolicy step) ⌊(retryPolicy step).count⌋.toNat 1
          { results := results, trace := trace, lastError := none, success := false }).results
        (attemptLoop gw i step (retryPolicy step) ⌊(retryPolicy step).count⌋.toNat 1
          { results := results, trace := trace, lastError := none, success := false }).trace
      refine ⟨es ++ es2, ?_, ?_, head_append_ne_num es es2 hh gh⟩
      · simp only [stepLoop, hs, if_true]
        rw [g2, h2, List.append_assoc]
      · intro s hsi
        rw [List.filter_append, h3 s (by omega), g3 s (by omega)]; rfl
    · cases hle : (attemptLoop gw i step (retryPolicy step) ⌊(retryPolicy step).count⌋.toNat 1
          { results := results, trace := trace, lastError := none, success := false }).lastError with
      | none =>
        refine ⟨es, ?_, fun s hsi => h3 s (by omega), hh⟩
        simp only [stepLoop, hs, hle]; simpa using h2
      | some response =>
        refine ⟨es, ?_, fun s hsi => h3 s (by omega), hh⟩
        simp only [stepLoop, hs, hle]; simpa using h2

theorem split_at_index_num (steps : List Step) (n : Nat) (s : Step) (hn : steps[n]? = some s) :
    steps = steps.take n ++ s :: steps.drop (n + 1) ∧ (steps.take n).length = n := by
  obtain ⟨hlt, hget⟩ := List.getElem?_eq_some.mp hn
  refine ⟨?_, ?_⟩
  · conv_lhs => rw [← List.take_append_drop n steps, List.drop_eq_getElem_cons hlt, hget]
  · rw [List.length_take]; omega

theorem orchestrate_after_prefix_num (gw : Gateway) (instanceId : String) (steps : List Step)
    (k : Nat → Nat) (d : Nat → String) (n : Nat) (step : Step)
    (hid : instanceId ≠ "") (hn : steps[n]? = some step)
    (hearlier : ∀ (j : Nat) (s : Step), j < n → steps[j]? = some s →
      SucceedsAfter gw j s (k j) (d j)) :
    (∃ results : List ResultEntry,
      orchestrate gw ⟨some instanceId, some steps⟩ =
        stepLoop gw (step :: steps.drop (n + 1)) n results (prefixEvents k (steps.take n) 0)) ∧
      (prefixEvents k (steps.take n) 0).filter (Event.isDispatchOf (n + 1)) = [] := by
  obtain ⟨hsplit, hlen⟩ := split_at_index_num steps n step hn
  have hpre : ∀ (j : Nat) (s : Step), (steps.take n)[j]? = some s →
      SucceedsAfter gw (0 + j) s (k (0 + j)) (d (0 + j)) := by
    intro j s hj
    rw [List.getElem?_take] at hj
    by_cases hjn : j < n
    · rw [if_pos hjn] at hj
      rw [Nat.zero_add]
      exact hearlier j s hjn hj
    · rw [if_neg hjn] at hj; exact absurd hj (by simp)
  refine ⟨?_, ?_⟩
  · obtain ⟨results, h⟩ :=
      stepLoop_prefix_num gw k d (steps.take n) (step :: steps.drop (n + 1)) 0 [] [] hpre
    rw [← hsplit, hlen, Nat.zero_add, List.nil_append] at h
    refine ⟨results, ?_⟩
    simp only [orchestrate, hid, if_false]
    exact h
  · apply List.length_eq_zero.mp
    rw [prefixEvents_filter_num, hlen]
    have hout : ¬ (0 < n + 1 ∧ n + 1 ≤ 0 + n) := by omega
    rw [if_neg hout]

theorem failEvents_append_num (i : Nat) (step : Step) (policy : RetryPolicy) :
    ∀ (k r attempt : Nat),
      failEvents i step policy (k + r) attempt =
        failEvents i step policy k attempt ++ failEvents i step policy r (attempt + k) := by
  intro k
  induction k with
  | zero => intro r attempt; simp [failEvents]
  | succ k ih =>
    intro r attempt
    have hshape : k + 1 + r = (k + r) + 1 := by omega
    have hidx : attempt + 1 + k = attempt + (k + 1) := by omega
    rw [hshape]
    simp only [failEvents, ih r (attempt + 1), hidx, List.cons_append, List.append_assoc]

theorem failEvents_waits_num (i : Nat) (step : Step) (policy : RetryPolicy)
    (hdelay : 0 < policy.delay) :
    ∀ (k attempt : Nat), ((attempt + k : Nat) : ℚ) ≤ policy.count →
      failEvents i step policy k attempt =
        ((List.range k).map (fun a =>
          [Event.dispatch (i + 1) (attempt + a) step.command step.payload,
           Event.wait policy.delay])).flatten := by
  intro k
  induction k with
  | zero => intro attempt _; simp [failEvents]
  | succ k ih =>
    intro attempt h
    have hlt : (attempt : ℚ) < policy.count := by
      push_cast at h
      have hk : (0 : ℚ) ≤ (k : ℚ) := Nat.cast_nonneg k
      linarith
    have hnext : ((attempt + 1 + k : Nat) : ℚ) ≤ policy.count := by
      push_cast at h ⊢
      linarith
    have hfun : (fun a => [Event.dispatch (i + 1) (attempt + 1 + a) step.command step.payload,
          Event.wait policy.delay]) =
        (fun a => [Event.dispatch (i + 1) (attempt + a) step.command step.payload,
          Event.wait policy.delay]) ∘ Nat.succ := by
      funext a
      have hidx : attempt + 1 + a = attempt + (a + 1) := by omega
      simp only [Function.comp, hidx, Nat.succ_eq_add_one]
    simp only [failEvents, hdelay, hlt, and_self, if_true, ih (attempt + 1) hnext,
      List.range_succ_eq_map, List.map_cons, List.map_map, List.flatten_cons, hfun,
      Nat.add_zero, List.cons_append, List.nil_append]

theorem failEvents_exhausted_num (i : Nat) (step : Step) (policy : RetryPolicy)
    (hdelay : 0 < policy.delay) (m : Nat) (hm1 : 1 ≤ m) (hmc : (m : ℚ) ≤ policy.count) :
    failEvents i step policy m 1 =
      ((List.range (m - 1)).map (fun a =>
        [Event.dispatch (i + 1) (a + 1) step.command step.payload,
         Event.wait policy.delay])).flatten ++
        [Event.dispatch (i + 1) m step.command step.payload] ++
        (if (m : ℚ) < policy.count then [Event.wait policy.delay] else []) := by
  have hshape : m = (m - 1) + 1 := by omega
  have hlast : 1 + (m - 1) = m := by omega
  have hle : ((1 + (m - 1) : Nat) : ℚ) ≤ policy.count := by rw [hlast]; exact hmc
  have hfun : (fun a => [Event.dispatch (i + 1) (1 + a) step.command step.payload,
        Event.wait policy.delay]) =
      (fun a => [Event.dispatch (i + 1) (a + 1) step.command step.payload,
        Event.wait policy.delay]) := by
    funext a
    rw [Nat.add_comm 1 a]
  conv_lhs => rw [hshape, failEvents_append_num i step policy (m - 1) 1 1,
    failEvents_waits_num i step policy hdelay (m - 1) 1 hle, hlast]
  by_cases hlt : (m : ℚ) < policy.count
  · simp [failEvents, hdelay, hlt, hfun]
  · simp [failEvents, hlt, hfun]

theorem successEvents_waits_num (i : Nat) (step : Step)
    (hdelay : 0 < (retryPolicy step).delay) (k : Nat)
    (hk : ((k + 1 : Nat) : ℚ) ≤ (retryPolicy step).count) :
    successEvents i step k =
      ((List.range k).map (fun a =>
        [Event.dispatch (i + 1) (a + 1) step.command step.payload,
         Event.wait (retryPolicy step).delay])).flatten ++
        [Event.dispatch (i + 1) (k + 1) step.command step.payload] := by
  have hle : ((1 + k : Nat) : ℚ) ≤ (retryPolicy step).count := by
    rw [Nat.add_comm 1 k]; exact hk
  have hfun : (fun a => [Event.dispatch (i + 1) (1 + a) step.command step.payload,
        Event.wait (retryPolicy step).delay]) =
      (fun a => [Event.dispatch (i + 1) (a + 1) step.command step.payload,
        Event.wait (retryPolicy step).delay]) := by
    funext a
    rw [Nat.add_comm 1 a]
  rw [successEvents, failEvents_waits_num i (step) (retryPolicy step) hdelay k 1 hle, hfun]

theorem segment_waits_num (s m : Nat) (c p : String) (ms : ℚ) :
    ∀ k : Nat,
      ((((List.range k).map (fun a =>
        [Event.dispatch s (a + 1) c p, Event.wait ms])).flatten ++
        [Event.dispatch s m c p]).filter Event.isWait).length = k := by
  intro k
  induction k with
  | zero => simp [Event.isWait]
  | succ k ih =>
    simp only [List.filter_append, List.length_append] at ih
    simp only [List.range_succ, List.map_append, List.flatten_append, List.filter_append,
      List.length_append, List.map_cons, List.map_nil, List.flatten_cons, List.flatten_nil,
      List.append_nil]
    have hlast : (List.filter Event.isWait [Event.dispatch s m c p]).length = 0 := by
      simp [Event.isWait]
    rw [hlast] at ih ⊢
    have hpair : (List.filter Event.isWait
        [Event.dispatch s (k + 1) c p, Event.wait ms]).length = 1 := by
      simp [Event.isWait]
    rw [hpair]
    omega

/-- C26 as stated fails: a step with retry `{count: 1.5, delay: 500}`, a count of at
least 1 and a positive delay, makes its one attempt and, the attempt being rejected,
waits 500 ms after it although no attempt follows. -/
theorem orchestrate_waits_after_final_attempt :
    1 ≤ (retryPolicy ⟨"shell", "p", some (3 / 2), some 500⟩).count ∧
    0 < (retryPolicy ⟨"shell", "p", some (3 / 2), some 500⟩).delay ∧
    (orchestrate (fun _ _ => .error none)
        ⟨some "inst-1", some [⟨"shell", "p", some (3 / 2), some 500⟩]⟩).trace =
      [.dispatch 1 1 "shell" "p", .wait 500] := by
  have hfloor : ⌊(3 / 2 : ℚ)⌋.toNat = 1 := by
    have h : ⌊(3 / 2 : ℚ)⌋ = 1 := by
      rw [Int.floor_eq_iff]
      norm_num
    rw [h]
    rfl
  refine ⟨by norm_num [retryPolicy], by norm_num [retryPolicy], ?_⟩
  simp only [orchestrate, stepLoop, retryPolicy, Option.getD_some, hfloor, attemptLoop]
  norm_num
  rw [if_neg (by decide)]

/-- The events of one step for any count of at least 1: take a step at index `n` with
a positive delay, reached because every earlier step resolved. If the step makes `m`
attempts (`m` is the integer part of its count when every attempt is rejected, or the
number of the first attempt that resolves), the events issued for it are, for each of
the attempts `1..m-1`, the dispatch followed by one wait of `delay` milliseconds, and
then the dispatch of attempt `m`. When the count is the integer `m`, or attempt `m`
resolves, what the handler does next does not start with a wait; when the count is
not an integer and every attempt is rejected, one more wait follows the last attempt. -/
theorem orchestrate_retry_events
    (gw : Gateway) (instanceId : String) (steps : List Step) (k : Nat → Nat) (d : Nat → String)
    (n : Nat) (step : Step) (m : Nat)
    (hid : instanceId ≠ "")
    (hn : steps[n]? = some step)
    (hcount : 1 ≤ (retryPolicy step).count)
    (hdelay : 0 < (retryPolicy step).delay)
    (hearlier : ∀ (j : Nat) (s : Step), j < n → steps[j]? = some s →
      SucceedsAfter gw j s (k j) (d j))
    (hm : (m = ⌊(retryPolicy step).count⌋.toNat ∧
            ∀ a : Nat, 1 ≤ a → (a : ℚ) ≤ (retryPolicy step).count → (gw n a).isError = true) ∨
          (∃ data : String, 1 ≤ m ∧ (m : ℚ) ≤ (retryPolicy step).count ∧
            (∀ a : Nat, 1 ≤ a → a < m → (gw n a).isError = true) ∧ gw n m = .ok data)) :
    ∃ before segment after : List Event,
      (orchestrate gw ⟨some instanceId, some steps⟩).trace = before ++ segment ++ after ∧
      segment =
        ((List.range (m - 1)).map (fun a =>
          [Event.dispatch (n + 1) (a + 1) step.command step.payload,
           Event.wait (retryPolicy step).delay])).flatten ++
          [Event.dispatch (n + 1) m step.command step.payload] ∧
      (segment.filter Event.isWait).length = m - 1 ∧
      before.filter (Event.isDispatchOf (n + 1)) = [] ∧
      after.filter (Event.isDispatchOf (n + 1)) = [] ∧
      ((retryPolicy step).count = (m : ℚ) ∨ (gw n m).isError = false →
        ∀ ms, after.head? ≠ some (Event.wait ms)) ∧
      ((gw n m).isError = true → (m : ℚ) < (retryPolicy step).count →
        after = [Event.wait (retryPolicy step).delay]) := by
  obtain ⟨⟨results, hrun⟩, hbefore⟩ :=
    orchestrate_after_prefix_num gw instanceId steps k d n step hid hn hearlier
  rcases hm with ⟨hmc, hrej⟩ | ⟨data, hm1, hmle, hrej, hok⟩
  · obtain ⟨response, hex⟩ := attemptLoop_exhausted_num gw n step hcount hrej
      results (prefixEvents k (steps.take n) 0)
    have hm1 : 1 ≤ m := by
      have := floor_toNat_ge (retryPolicy step).count 1 (by exact_mod_cast hcount)
      omega
    have hmle : (m : ℚ) ≤ (retryPolicy step).count :=
      le_of_le_floor_toNat _ m hm1 (by omega)
    have hlast : (gw n m).isError = true := hrej m hm1 hmle
    refine ⟨prefixEvents k (steps.take n) 0, _,
      if (m : ℚ) < (retryPolicy step).count then [Event.wait (retryPolicy step).delay] else [],
      ?_, rfl, segment_waits_num _ _ _ _ _ _, hbefore, ?_, ?_, ?_⟩
    · rw [hrun]
      simp only [stepLoop, hex, Bool.false_eq_true, ↓reduceIte]
      rw [← hmc, failEvents_exhausted_num n step (retryPolicy step) hdelay m hm1 hmle]
      simp only [List.append_assoc]
    · by_cases hlt : (m : ℚ) < (retryPolicy step).count
      · simp [hlt, Event.isDispatchOf]
      · simp [hlt]
    · intro hint ms
      rcases hint with heq | hno
      · have hlt : ¬ (m : ℚ) < (retryPolicy step).count := by rw [heq]; exact lt_irrefl _
        simp [hlt]
      · rw [hlast] at hno
        cases hno
    · intro _ hlt
      simp [hlt]
  · obtain ⟨j, hj⟩ : ∃ j, m = j + 1 := ⟨m - 1, by omega⟩
    subst hj
    have hsucc : SucceedsAfter gw n step j data :=
      ⟨hmle, fun a ha1 ha2 => hrej a ha1 (by omega), hok⟩
    obtain ⟨le, hres⟩ := attemptLoop_resolves_num gw n step j data hsucc
      results (prefixEvents k (steps.take n) 0)
    obtain ⟨es, h2, h3, hhead⟩ := stepLoop_tail_num gw (steps.drop (n + 1)) (n + 1)
      (results ++ [⟨n + 1, ((j + 1 : Nat) : ℚ), "success", some data, none⟩])
      (prefixEvents k (steps.take n) 0 ++ successEvents n step j)
    refine ⟨prefixEvents k (steps.take n) 0, _, es, ?_, rfl, segment_waits_num _ _ _ _ _ _,
      hbefore, h3 (n + 1) (le_refl _), fun _ => hhead, ?_⟩
    · rw [hrun]
      simp only [stepLoop, hres, if_true]
      rw [h2, successEvents_waits_num n step hdelay j hmle]
      simp
    · intro herr
      rw [hok] at herr
      simp [Outcome.isError] at herr

/-- C26 (amended): in `POST /orchestrate`, take a step at index `n` whose retry count
is an integer `c` of at least 1 and whose delay is positive, reached because every
earlier step resolved. If the step makes `m` attempts (`m = c` when all `c` attempts
are rejected, or `m` is the number of the first attempt that resolves), the events
issued for it are exactly: for each of the attempts `1..m-1`, the dispatch followed
by one wait of `delay` milliseconds, and then the dispatch of attempt `m`. So there
are exactly `m - 1` waits, one after each rejected attempt that is followed by
another, and what the handler does next does not start with a wait. -/
theorem orchestrate_waits_between_attempts
    (gw : Gateway) (instanceId : String) (steps : List Step) (k : Nat → Nat) (d : Nat → String)
    (n : Nat) (step : Step) (c m : Nat)
    (hid : instanceId ≠ "")
    (hn : steps[n]? = some step)
    (hint : (retryPolicy step).count = (c : ℚ))
    (hcount : 1 ≤ c)
    (hdelay : 0 < (retryPolicy step).delay)
    (hearlier : ∀ (j : Nat) (s : Step), j < n → steps[j]? = some s →
      SucceedsAfter gw j s (k j) (d j))
    (hm : (m = c ∧ ∀ a : Nat, 1 ≤ a → a ≤ c → (gw n a).isError = true) ∨
          (∃ data : String, 1 ≤ m ∧ m ≤ c ∧
            (∀ a : Nat, 1 ≤ a → a < m → (gw n a).isError = true) ∧ gw n m = .ok data)) :
    ∃ before segment after : List Event,
      (orchestrate gw ⟨some instanceId, some steps⟩).trace = before ++ segment ++ after ∧
      segment =
        ((List.range (m - 1)).map (fun a =>
          [Event.dispatch (n + 1) (a + 1) step.command step.payload,
           Event.wait (retryPolicy step).delay])).flatten ++
          [Event.dispatch (n + 1) m step.command step.payload] ∧
      (segment.filter Event.isWait).length = m - 1 ∧
      before.filter (Event.isDispatchOf (n + 1)) = [] ∧
      after.filter (Event.isDispatchOf (n + 1)) = [] ∧
      (∀ ms, after.head? ≠ some (Event.wait ms)) := by
  have hcountq : 1 ≤ (retryPolicy step).count := by rw [hint]; exact_mod_cast hcount
  have hfloor : ⌊(retryPolicy step).count⌋.toNat = c := by
    rw [hint, Int.floor_natCast, Int.toNat_ofNat]
  have hlast : (retryPolicy step).count = (m : ℚ) ∨ (gw n m).isError = false := by
    rcases hm with ⟨hmc, _⟩ | ⟨data, _, _, _, hok⟩
    · left; rw [hint, hmc]
    · right; rw [hok]; rfl
  obtain ⟨before, segment, after, htrace, hsegment, hwaits, hbefore, hafter, hhead, _⟩ :=
    orchestrate_retry_events gw instanceId steps k d n step m hid hn hcountq hdelay hearlier
      (by
        rcases hm with ⟨hmc, hrej⟩ | ⟨data, hm1, hmle, hrej, hok⟩
        · refine Or.inl ⟨by rw [hfloor, hmc], ?_⟩
          intro a ha1 hac
          rw [hint] at hac
          exact hrej a ha1 (by exact_mod_cast hac)
        · refine Or.inr ⟨data, hm1, ?_, hrej, hok⟩
          rw [hint]
          exact_mod_cast hmle)
  exact ⟨before, segment, after, htrace, hsegment, hwaits, hbefore, hafter, hhead hlast⟩

/-- Witness of C26 (amended): step 1 with retry `{count: 3, delay: 500}` resolves on
attempt 3; step 2 with retry `{count: 2, delay: 100}` is rejected twice, with one wait
between the two attempts and none after the second. -/
theorem orchestrate_waits_between_attempts_witness :
    ∃ before segment after : List Event,
      (orchestrate (fun i a => if i = 0 ∧ a = 3 then .ok "done" else .error none)
        ⟨some "inst-1", some [⟨"shell", "p", some 3, some 500⟩,
          ⟨"launch", "q", some 2, some 100⟩]⟩).trace = before ++ segment ++ after ∧
      segment = [Event.dispatch 2 1 "launch" "q", Event.wait 100,
        Event.dispatch 2 2 "launch" "q"] ∧
      (segment.filter Event.isWait).length = 1 ∧
      before.filter (Event.isDispatchOf 2) = [] ∧
      after.filter (Event.isDispatchOf 2) = [] ∧
      (∀ ms, after.head? ≠ some (Event.wait ms)) := by
  obtain ⟨before, segment, after, htrace, hsegment, hwaits, hbefore, hafter, hhead⟩ :=
    orchestrate_waits_between_attempts
      (fun i a => if i = 0 ∧ a = 3 then .ok "done" else .error none) "inst-1"
      [⟨"shell", "p", some 3, some 500⟩, ⟨"launch", "q", some 2, some 100⟩]
      (fun _ => 2) (fun _ => "done") 1 ⟨"launch", "q", some 2, some 100⟩ 2 2
      (by decide) (by simp) (by norm_num [retryPolicy]) (by decide)
      (by norm_num [retryPolicy])
      (by
        intro j s hj hs
        have hj0 : j = 0 := by omega
        subst hj0
        simp only [List.getElem?_cons_zero, Option.some.injEq] at hs
        subst hs
        refine ⟨by norm_num [retryPolicy], ?_, by simp⟩
        intro a ha1 ha2
        have hle : a ≤ 2 := ha2
        have hne : ¬ a = 3 := by omega
        simp [Outcome.isError, hne])
      (Or.inl ⟨rfl, by intro a _ _; simp [Outcome.isError]⟩)
  exact ⟨before, segment, after, htrace, by rw [hsegment]; rfl, hwaits, hbefore, hafter, hhead⟩

end JsonOrchestrator
